import Mathlib

/-!
The miniature afslog of pam_krb5 (`src/minikafs.c`).

A shallow embedding of the token-acquisition cascade (`minikafs_log`,
`minikafs_5log`, `minikafs_4log`) and of the token blob built for the kernel
(`minikafs_5settoken`, `minikafs_4settoken`).

Conventions of the embedding.

* A C string is a Lean `String`; each `Char` stands for one `char`, and the
  byte it occupies in memory is `Char.toNat`.
* A pointer or library handle (`krb5_context`, `krb5_ccache`) is a `Nat`, and
  `0` is `NULL`.
* `u_int32_t` values are naturals reduced modulo `2 ^ 32`.
* Calls that leave the program (the Kerberos libraries, the AFS system call)
  are oracles.  Calls made once before a loop are given by their results in an
  environment record; calls made repeatedly thread an abstract state `σ`, so
  that a result may depend on everything that happened before.
* Every function that makes oracle calls also returns the list of calls it
  made, in order, each with the value the call returned.
-/

namespace Minikafs

/-! ## Build configuration and libc -/

/-- Build-time configuration: whether `USE_KRB4` is defined, and the value of
`PATH_MAX` from `<limits.h>` (4096 on Linux). -/
structure Config where
  use_krb4 : Bool
  path_max : Nat
deriving DecidableEq, Repr

/-- Comparison of two character sequences as `strcmp` does it: the sign of the
difference at the first position where they differ, `0` when they are equal. -/
def strcmp_chars : List Char → List Char → Int
  | [], [] => 0
  | [], _ :: _ => -1
  | _ :: _, [] => 1
  | c :: cs, d :: ds =>
    if c = d then strcmp_chars cs ds
    else if c.toNat < d.toNat then -1 else 1

/-- The libc function `strcmp`. -/
def strcmp (a b : String) : Int :=
  strcmp_chars a.data b.data

/-- The libc function `strcasecmp`: `strcmp` on the lower-cased strings. -/
def strcasecmp (a b : String) : Int :=
  strcmp_chars (a.data.map Char.toLower) (b.data.map Char.toLower)

/-- Content of a buffer of `size` chars after `strncpy(dst, src, size)` (or
`strncpy(dst, src, size - 1)`) followed by `dst[size - 1] = 0`: the first
`size - 1` chars of `src`. -/
def strncpy_term (src : String) (size : Nat) : String :=
  String.mk (src.data.take (size - 1))

/-- Result of `sprintf(principal, "%s/%s@%s", base, cell, realm)`. -/
def sprintf_service_instance_realm (base cell realm : String) : String :=
  base ++ "/" ++ cell ++ "@" ++ realm

/-- Result of `sprintf(principal, "%s@%s", base, realm)`. -/
def sprintf_service_realm (base realm : String) : String :=
  base ++ "@" ++ realm

/-! ## Realm of a cell -/

/-- Results of the calls `minikafs_realm_of_cell_with_ctx` makes: `malloc` of
the path, the `whereis` pioctl, `krb5_init_context` (made only when no context
was passed), `getnameinfo`, and `krb5_get_host_realm` with the first realm it
returns. -/
structure RealmEnv where
  malloc_ok : Bool
  whereis : Int
  init_context : Int
  getnameinfo : Int
  get_host_realm : Int
  realms0 : String
deriving DecidableEq, Repr

/-- The function `minikafs_realm_of_cell_with_ctx`.  Returns the return value
and the content of the caller's `realm` buffer afterwards (`realm0` is its
content before the call).  The buffer is written only on success. -/
def minikafs_realm_of_cell_with_ctx (e : RealmEnv) (ctx : Nat)
    (realm0 : String) (length : Nat) : Int × String :=
  if e.malloc_ok = false then (-1, realm0)
  else if e.whereis ≠ 0 then (e.whereis, realm0)
  else if ctx = 0 ∧ e.init_context ≠ 0 then (-1, realm0)
  else if e.getnameinfo = 0 then
    if e.get_host_realm = 0 then (0, strncpy_term e.realms0 length)
    else (-1, realm0)
  else (-1, realm0)

/-! ## The protocol-5 cascade -/

/-- Arguments of one call of `minikafs_5log_with_principal` (all but
`options`, which only controls logging). -/
structure Call5 where
  ctx : Nat
  ccache : Nat
  cell : String
  principal : String
  uid : Nat
  try_v5_2b : Int
deriving DecidableEq, Repr

/-- Results of the calls `minikafs_5log` makes before its loop: `malloc` of the
principal buffer, `krb5_init_context` (result and new context; made only when
no context was passed), `krb5_get_default_realm` (result and realm), the calls
of the realm lookup, and `krb5_cc_default` (result and cache; made only when no
cache was passed). -/
structure Env5 where
  malloc_ok : Bool
  init_context : Int × Nat
  get_default_realm : Int × String
  realm : RealmEnv
  cc_default : Int × Nat
deriving DecidableEq, Repr

/-- What `minikafs_5log` did: its return value, the calls of
`minikafs_5log_with_principal` it made with their return values, the caches it
passed to `krb5_cc_close`, and the state afterwards. -/
structure Result5 (σ : Type) where
  ret : Int
  attempts : List (Call5 × Int)
  closed : List Nat
  state : σ

/-- The names tried as the service part of the principal: `base[]`. -/
def base : List String := ["afs", "afsx"]

/-- The `for` loop of `minikafs_5log` over the remaining entries of `base[]`.
`mk` completes a principal name to the argument list of
`minikafs_5log_with_principal`; `ret` is the value of the variable `ret` on
entry.  Returns `ret` after the loop, the calls made, and the state. -/
def loop5 {σ : Type} (log5 : Call5 → σ → Int × σ) (mk : String → Call5)
    (cell realm : String) (defaultrealm : Option String) :
    List String → Int → σ → Int × List (Call5 × Int) × σ
  | [], ret, s => (ret, [], s)
  | b :: bs, _, s =>
    -- Try the cell instance in the cell's realm.
    let c1 := mk (sprintf_service_instance_realm b cell realm)
    let r1 := log5 c1 s
    if r1.1 = 0 then (r1.1, [(c1, r1.1)], r1.2)
    else
      -- If the realm name and cell name are similar, try the NULL instance.
      let c2 := mk (sprintf_service_realm b realm)
      let r2 : Int × List (Call5 × Int) × σ :=
        if strcasecmp realm cell = 0 then
          ((log5 c2 r1.2).1, [(c1, r1.1), (c2, (log5 c2 r1.2).1)], (log5 c2 r1.2).2)
        else (r1.1, [(c1, r1.1)], r1.2)
      if r2.1 = 0 then r2
      else
        -- Try the cell instance in the default realm.
        match defaultrealm with
        | some d =>
          if strcmp d realm ≠ 0 then
            let c3 := mk (sprintf_service_instance_realm b cell d)
            let r3 := log5 c3 r2.2.2
            if r3.1 = 0 then (r3.1, r2.2.1 ++ [(c3, r3.1)], r3.2)
            else
              let rest := loop5 log5 mk cell realm defaultrealm bs r3.1 r3.2
              (rest.1, r2.2.1 ++ (c3, r3.1) :: rest.2.1, rest.2.2)
          else
            let rest := loop5 log5 mk cell realm defaultrealm bs r2.1 r2.2.2
            (rest.1, r2.2.1 ++ rest.2.1, rest.2.2)
        | none =>
          let rest := loop5 log5 mk cell realm defaultrealm bs r2.1 r2.2.2
          (rest.1, r2.2.1 ++ rest.2.1, rest.2.2)

/-- Content of the `realm` buffer of `minikafs_5log` (and `minikafs_4log`)
when the loop starts: what the realm lookup wrote, or, when the lookup
failed, the cell name copied with `strncpy` into the `PATH_MAX` buffer. -/
def realm_buffer (cfg : Config) (e : RealmEnv) (ctx : Nat) (cell : String) : String :=
  let r := minikafs_realm_of_cell_with_ctx e ctx "" cfg.path_max
  if r.1 ≠ 0 then strncpy_term cell cfg.path_max else r.2

/-- The function `minikafs_5log`.  The buffer `principal` is not part of the
model: each principal name is the unbounded string `sprintf` is asked to
format, and `malloc_ok` is only whether the allocation succeeded.  A run of
the model is a run of the source as long as the strings fit the buffer
(`principal_fits` below). -/
def minikafs_5log {σ : Type} (cfg : Config) (log5 : Call5 → σ → Int × σ) (e : Env5)
    (context ccache : Nat) (cell : String) (uid : Nat) (try_v5_2b : Int) (s : σ) :
    Result5 σ :=
  if e.malloc_ok = false then ⟨-1, [], [], s⟩
  else if context = 0 ∧ e.init_context.1 ≠ 0 then ⟨-1, [], [], s⟩
  else
    let ctx := if context = 0 then e.init_context.2 else context
    let defaultrealm : Option String :=
      if e.get_default_realm.1 ≠ 0 then none else some e.get_default_realm.2
    let realm := realm_buffer cfg e.realm ctx cell
    let use_ccache := if ccache ≠ 0 then ccache else 0
    if ccache = 0 ∧ e.cc_default.1 ≠ 0 then ⟨-1, [], [], s⟩
    else
      let ccache1 := if ccache ≠ 0 then ccache else e.cc_default.2
      let mk : String → Call5 := fun principal =>
        ⟨ctx, use_ccache, cell, principal, uid, try_v5_2b⟩
      let r := loop5 log5 mk cell realm defaultrealm base (-1) s
      let closed := if use_ccache ≠ ccache1 then [use_ccache] else []
      ⟨r.1, r.2.1, closed, r.2.2⟩

/-- The context `minikafs_5log` works with (its variable `ctx`): the caller's,
or the one `krb5_init_context` returned. -/
def ctx5 (e : Env5) (context : Nat) : Nat :=
  if context = 0 then e.init_context.2 else context

/-- The default realm `minikafs_5log` works with (its variable `defaultrealm`):
`none` is `NULL`. -/
def defaultrealm5 (e : Env5) : Option String :=
  if e.get_default_realm.1 ≠ 0 then none else some e.get_default_realm.2

/-- The realm `minikafs_5log` works with (its buffer `realm`). -/
def realm5 (cfg : Config) (e : Env5) (context : Nat) (cell : String) : String :=
  realm_buffer cfg e.realm (ctx5 e context) cell

/-- The cache `minikafs_5log` hands to each attempt (its variable
`use_ccache`). -/
def use_ccache5 (ccache : Nat) : Nat :=
  if ccache ≠ 0 then ccache else 0

/-- The calls before the loop of `minikafs_5log` all succeed: the principal
buffer is allocated, a context is there or can be created, and a cache is
there or the default cache can be opened. -/
def reaches_loop5 (e : Env5) (context ccache : Nat) : Prop :=
  e.malloc_ok = true ∧ (context = 0 → e.init_context.1 = 0)
    ∧ (ccache = 0 → e.cc_default.1 = 0)

instance (e : Env5) (context ccache : Nat) : Decidable (reaches_loop5 e context ccache) := by
  unfold reaches_loop5
  infer_instance

/-! ## The protocol-4 cascade -/

/-- Arguments of one call of `minikafs_4log_with_principal` (all but
`options`).  The field `inst` is the source's parameter `instance`. -/
structure Call4 where
  cell : String
  service : String
  inst : String
  realm : String
  uid : Nat
deriving DecidableEq, Repr

/-- Results of the calls `minikafs_4log` makes before its loop:
`krb_get_lrealm` (result and local realm), the calls of the realm lookup, and
whether `strdup` of the cell name succeeded. -/
structure Env4 where
  get_lrealm : Int × String
  realm : RealmEnv
  strdup_ok : Bool
deriving DecidableEq, Repr

/-- What `minikafs_4log` did: its return value, the calls of
`minikafs_4log_with_principal` it made with their return values, and the state
afterwards. -/
structure Result4 (σ : Type) where
  ret : Int
  attempts : List (Call4 × Int)
  state : σ

/-- The `for` loop of `minikafs_4log` over the remaining entries of `base[]`. -/
def loop4 {σ : Type} (log4 : Call4 → σ → Int × σ) (uid : Nat)
    (cell realm localrealm : String) :
    List String → Int → σ → Int × List (Call4 × Int) × σ
  | [], ret, s => (ret, [], s)
  | b :: bs, _, s =>
    -- Try the cell instance in its own realm.
    let c1 : Call4 := ⟨cell, b, cell, realm, uid⟩
    let r1 := log4 c1 s
    if r1.1 = 0 then (r1.1, [(c1, r1.1)], r1.2)
    else
      -- If the realm name and cell name are similar, try the NULL instance.
      let c2 : Call4 := ⟨cell, b, "", realm, uid⟩
      let r2 : Int × List (Call4 × Int) × σ :=
        if strcasecmp realm cell = 0 then
          ((log4 c2 r1.2).1, [(c1, r1.1), (c2, (log4 c2 r1.2).1)], (log4 c2 r1.2).2)
        else (r1.1, [(c1, r1.1)], r1.2)
      if r2.1 = 0 then r2
      else
        -- Try the cell instance in the default realm.
        if strcmp realm localrealm ≠ 0 then
          let c3 : Call4 := ⟨cell, b, cell, localrealm, uid⟩
          let r3 := log4 c3 r2.2.2
          if r3.1 = 0 then (r3.1, r2.2.1 ++ [(c3, r3.1)], r3.2)
          else
            let rest := loop4 log4 uid cell realm localrealm bs r3.1 r3.2
            (rest.1, r2.2.1 ++ (c3, r3.1) :: rest.2.1, rest.2.2)
        else
          let rest := loop4 log4 uid cell realm localrealm bs r2.1 r2.2.2
          (rest.1, r2.2.1 ++ rest.2.1, rest.2.2)

/-- The function `minikafs_4log` (compiled only with `USE_KRB4`). -/
def minikafs_4log {σ : Type} (cfg : Config) (log4 : Call4 → σ → Int × σ) (e : Env4)
    (context : Nat) (cell : String) (uid : Nat) (s : σ) : Result4 σ :=
  if e.get_lrealm.1 ≠ 0 then ⟨-1, [], s⟩
  else
    let localrealm := e.get_lrealm.2
    let realm := realm_buffer cfg e.realm context cell
    if e.strdup_ok = false then ⟨-1, [], s⟩
    else
      let r := loop4 log4 uid cell realm localrealm base (-1) s
      ⟨r.1, r.2.1, r.2.2⟩

/-! ## All mechanisms -/

/-- Everything outside `minikafs_log`: the two functions that try one
principal, and the results the library calls made at the start of
`minikafs_5log` and `minikafs_4log` would give in a state. -/
structure World (σ : Type) where
  log5_with_principal : Call5 → σ → Int × σ
  log4_with_principal : Call4 → σ → Int × σ
  env5 : σ → Env5
  env4 : σ → Env4

/-- One pass of `minikafs_log`: a call of `minikafs_5log` with the given
`try_v5_2b`, or a call of `minikafs_4log`. -/
inductive Pass where
  | v5 (try_v5_2b : Int)
  | v4
deriving DecidableEq, Repr

/-- What `minikafs_log` did: its return value, the passes it ran with the
value each returned, the principal attempts of all passes, and the state
afterwards. -/
structure LogResult (σ : Type) where
  ret : Int
  passes : List (Pass × Int)
  attempts5 : List (Call5 × Int)
  attempts4 : List (Call4 × Int)
  state : σ

/-- The function `minikafs_log`. -/
def minikafs_log {σ : Type} (cfg : Config) (w : World σ) (ctx ccache : Nat)
    (cell : String) (uid : Nat) (try_v5_2b : Int) (s : σ) : LogResult σ :=
  let r1 := minikafs_5log cfg w.log5_with_principal (w.env5 s) ctx ccache cell uid
    try_v5_2b s
  let a1 : LogResult σ := ⟨r1.ret, [(Pass.v5 try_v5_2b, r1.ret)], r1.attempts, [], r1.state⟩
  -- #ifdef USE_KRB4
  let a2 : LogResult σ :=
    if cfg.use_krb4 = true ∧ a1.ret ≠ 0 then
      let r2 := minikafs_4log cfg w.log4_with_principal (w.env4 a1.state) ctx cell uid
        a1.state
      ⟨r2.ret, a1.passes ++ [(Pass.v4, r2.ret)], a1.attempts5, r2.attempts, r2.state⟩
    else a1
  -- #endif
  if a2.ret ≠ 0 ∧ try_v5_2b = 0 then
    let r3 := minikafs_5log cfg w.log5_with_principal (w.env5 a2.state) ctx ccache cell
      uid 1 a2.state
    ⟨r3.ret, a2.passes ++ [(Pass.v5 1, r3.ret)], a2.attempts5 ++ r3.attempts,
      a2.attempts4, r3.state⟩
  else a2

/-! ## Running candidates until the first success -/

/-- Specification of a cascade: run the candidates in order, stop after the
first one that returns `0`; the result is the value of the last candidate run
(`ret` when there was none). -/
def run_until_zero {α σ : Type} (run : α → σ → Int × σ) :
    List α → Int → σ → Int × List (α × Int) × σ
  | [], ret, s => (ret, [], s)
  | a :: as, _, s =>
    if (run a s).1 = 0 then ((run a s).1, [(a, (run a s).1)], (run a s).2)
    else
      let rest := run_until_zero run as (run a s).1 (run a s).2
      (rest.1, (a, (run a s).1) :: rest.2.1, rest.2.2)

/-- The principal names the cascade tries for one service name, in order: the
cell instance in the cell's realm, the null instance when realm and cell are
equal ignoring case, the cell instance in the default realm when there is one
and it differs from the realm. -/
def candidates_for (cell realm : String) (defaultrealm : Option String) (b : String) :
    List String :=
  [sprintf_service_instance_realm b cell realm]
  ++ (if strcasecmp realm cell = 0 then [sprintf_service_realm b realm] else [])
  ++ (match defaultrealm with
      | some d =>
        if strcmp d realm ≠ 0 then [sprintf_service_instance_realm b cell d] else []
      | none => [])

/-- The principal names the cascade tries for a list of service names. -/
def candidates_of (cell realm : String) (defaultrealm : Option String) :
    List String → List String
  | [] => []
  | b :: bs => candidates_for cell realm defaultrealm b
      ++ candidates_of cell realm defaultrealm bs

/-- The principal names the cascade tries, for `afs` and then for `afsx`. -/
def candidates (cell realm : String) (defaultrealm : Option String) : List String :=
  candidates_for cell realm defaultrealm "afs"
  ++ candidates_for cell realm defaultrealm "afsx"

/-- One pass of `minikafs_log` as a step from state to state: the return value
of `minikafs_5log` or `minikafs_4log` and the state it leaves. -/
def run_pass {σ : Type} (cfg : Config) (w : World σ) (ctx ccache : Nat) (cell : String)
    (uid : Nat) : Pass → σ → Int × σ
  | Pass.v5 t, s =>
    let r := minikafs_5log cfg w.log5_with_principal (w.env5 s) ctx ccache cell uid t s
    (r.ret, r.state)
  | Pass.v4, s =>
    let r := minikafs_4log cfg w.log4_with_principal (w.env4 s) ctx cell uid s
    (r.ret, r.state)

/-- The principal names the cascade is to try when the cell name itself is
taken as the realm: for `afs` and then `afsx`, `base/cell@cell`, the null
instance `base@cell`, and `base/cell@default` when there is a default realm
different from the cell name. -/
def fallback_candidates (cell : String) (defaultrealm : Option String) : List String :=
  ["afs/" ++ cell ++ "@" ++ cell, "afs@" ++ cell]
  ++ (match defaultrealm with
      | some d => if d ≠ cell then ["afs/" ++ cell ++ "@" ++ d] else []
      | none => [])
  ++ ["afsx/" ++ cell ++ "@" ++ cell, "afsx@" ++ cell]
  ++ (match defaultrealm with
      | some d => if d ≠ cell then ["afsx/" ++ cell ++ "@" ++ d] else []
      | none => [])

/-- A cell name of 4096 chars, as long as a `PATH_MAX` buffer on Linux. -/
def long_cell : String :=
  String.mk (List.replicate 4096 'a')

/-- The passes of `minikafs_log` in order: the protocol-5 cascade as the caller
asked for it, the protocol-4 cascade when it is compiled in, and the
protocol-5 cascade with direct submission when the caller had not asked for
it. -/
def pass_order (cfg : Config) (try_v5_2b : Int) : List Pass :=
  [Pass.v5 try_v5_2b]
  ++ (if cfg.use_krb4 = true then [Pass.v4] else [])
  ++ (if try_v5_2b = 0 then [Pass.v5 1] else [])

/-! ## The token handed to the kernel -/

/-- Byte order of the machine: how `memcpy` of a `u_int32_t` lays out its four
bytes. -/
inductive ByteOrder where
  | little
  | big
deriving DecidableEq, Repr

/-- Conversion of a C integer to `u_int32_t`. -/
def to_u32 (x : Int) : Nat :=
  (x % 4294967296).toNat

/-- The four bytes of the `u_int32_t` holding `n` (of `n` modulo `2 ^ 32`
when `n` is larger), in memory order. -/
def u32_bytes (bo : ByteOrder) (n : Nat) : List Nat :=
  match bo with
  | ByteOrder.little => [n % 256, n / 256 % 256, n / 65536 % 256, n / 16777216 % 256]
  | ByteOrder.big => [n / 16777216 % 256, n / 65536 % 256, n / 256 % 256, n % 256]

/-- The `u_int32_t` that four bytes in memory hold. -/
def u32_of_bytes (bo : ByteOrder) (bs : List Nat) : Nat :=
  match bo, bs with
  | ByteOrder.little, [b0, b1, b2, b3] => b0 + 256 * b1 + 65536 * b2 + 16777216 * b3
  | ByteOrder.big, [b3, b2, b1, b0] => b0 + 256 * b1 + 65536 * b2 + 16777216 * b3
  | _, _ => 0

/-- The bytes of a C string in memory, without the terminating NUL. -/
def string_bytes (s : String) : List Nat :=
  s.data.map Char.toNat

/-- The libc function `strlen`. -/
def strlen (s : String) : Nat :=
  s.data.length

/-- Content of a buffer after `memcpy(buf + off, src, n)`. -/
def memcpy (buf : List Nat) (off : Nat) (src : List Nat) (n : Nat) : List Nat :=
  buf.take off ++ src.take n ++ buf.drop (off + n)

/-- Content of a buffer after `strcpy(buf + off, s)`: the chars of `s` and the
terminating NUL are written. -/
def strcpy (buf : List Nat) (off : Nat) (s : String) : List Nat :=
  buf.take off ++ (string_bytes s ++ [0]) ++ buf.drop (off + (strlen s + 1))

/-- The structure `struct minikafs_plain_token`; `end_` is its field `end`.
The `u_int32_t` fields hold naturals below `2 ^ 32`, `key` the 8 key bytes. -/
structure minikafs_plain_token where
  kvno : Nat
  key : List Nat
  uid : Nat
  start : Nat
  end_ : Nat
deriving DecidableEq, Repr

/-- The value of `sizeof(struct minikafs_plain_token)`: 4 + 8 + 4 + 4 + 4, the
fields being 4-byte aligned with no padding between them. -/
def sizeof_plain_token : Nat := 24

/-- The bytes of a `struct minikafs_plain_token` in memory (what
`memcpy(..., &plain_token, size)` reads). -/
def plain_token_bytes (bo : ByteOrder) (t : minikafs_plain_token) : List Nat :=
  u32_bytes bo t.kvno ++ t.key ++ u32_bytes bo t.uid ++ u32_bytes bo t.start
    ++ u32_bytes bo t.end_

/-- The structure `struct minikafs_ioblock`: `in_` is the content of the buffer
`in` points to, `out` is a pointer (`0` is `NULL`), the sizes are
`u_int16_t`. -/
structure minikafs_ioblock where
  in_ : List Nat
  out : Nat
  insize : Nat
  outsize : Nat
deriving DecidableEq, Repr

/-- The part of `krb5_creds` the token is built from: the bytes of the ticket
(`ticket.data`, of length `ticket.length`), the bytes of the session key, and
`times.starttime`, `times.endtime` (`krb5_timestamp`, a signed 32-bit
integer). -/
structure krb5_creds where
  ticket : List Nat
  keyblock : List Nat
  starttime : Int
  endtime : Int
deriving DecidableEq, Repr

/-- Modelled from the spec: `v5_creds_key_length` is declared in `v5.h`, which
is not among the sources; it is the length of the session key of the
credentials (the spec's "8-byte symmetric key"). -/
def v5_creds_key_length (creds : krb5_creds) : Nat :=
  creds.keyblock.length

/-- Modelled from the spec: `v5_creds_key_contents` is declared in `v5.h`,
which is not among the sources; it is the bytes of the session key of the
credentials. -/
def v5_creds_key_contents (creds : krb5_creds) : List Nat :=
  creds.keyblock

/-- The part of the Kerberos 4 `CREDENTIALS` the token is built from: the
session key (`C_Block`, 8 bytes), the key version number (`int`), and the
bytes of the ticket (`ticket_st.dat`, of length `ticket_st.length`). -/
structure CREDENTIALS where
  session : List Nat
  kvno : Int
  ticket_st : List Nat
deriving DecidableEq, Repr

/-- What a `settoken` function did: its return value, the I/O blocks it passed
to `minikafs_pioctl(NULL, minikafs_pioctl_settoken, ...)`, and the state
afterwards. -/
structure SetTokenResult (σ : Type) where
  ret : Int
  submitted : List minikafs_ioblock
  state : σ

/-- The local array `buffer` before anything is written to it: `size` bytes of
unspecified content, `junk i` standing for the byte at index `i`. -/
def fresh_buffer (junk : Nat → Nat) (size : Nat) : List Nat :=
  (List.range size).map junk

/-- The content of `buffer` when `minikafs_4settoken` calls the kernel,
together with the `plain_token` it stored there. -/
def buffer_4settoken (bo : ByteOrder) (junk : Nat → Nat) (cell : String) (uid start end_ : Nat)
    (creds : CREDENTIALS) : List Nat × minikafs_plain_token :=
  let len := creds.ticket_st.length
  let buffer0 := fresh_buffer junk (4 + len + 4 + sizeof_plain_token + 4 + strlen cell + 1)
  -- their key, encrypted with our key
  let size := len % 4294967296
  let buffer1 := memcpy buffer0 0 (u32_bytes bo size) 4
  let buffer2 := memcpy buffer1 4 creds.ticket_st size
  -- our key, plus housekeeping
  let end0 := end_ % 4294967296
  let plain_token : minikafs_plain_token :=
    { kvno := to_u32 creds.kvno
      key := creds.session.take 8
      uid := uid % 4294967296
      start := start % 4294967296
      end_ :=
        if ((end_ % 4294967296 + 4294967296 - start % 4294967296) % 4294967296) % 1 = 0
        then (end0 + 4294967296 - 1) % 4294967296
        else end0 }
  let size := sizeof_plain_token
  let buffer3 := memcpy buffer2 (4 + len) (u32_bytes bo size) 4
  let buffer4 := memcpy buffer3 (4 + len + 4) (plain_token_bytes bo plain_token) size
  -- the name of the cell
  let size := 0
  let buffer5 := memcpy buffer4 (4 + len + 4 + sizeof_plain_token) (u32_bytes bo size) 4
  let buffer6 := strcpy buffer5 (4 + len + 4 + sizeof_plain_token + 4) cell
  (buffer6, plain_token)

/-- The function `minikafs_4settoken`; `pioctl` is the system call
`minikafs_pioctl(NULL, minikafs_pioctl_settoken, &iob)`. -/
def minikafs_4settoken {σ : Type} (bo : ByteOrder) (junk : Nat → Nat)
    (pioctl : minikafs_ioblock → σ → Int × σ) (cell : String) (uid start end_ : Nat)
    (creds : CREDENTIALS) (s : σ) : SetTokenResult σ :=
  let buffer := (buffer_4settoken bo junk cell uid start end_ creds).1
  -- the regular stuff
  let iob : minikafs_ioblock :=
    { in_ := buffer
      insize := (4 + creds.ticket_st.length + 4 + sizeof_plain_token + 4 + strlen cell + 1)
        % 65536
      out := 0
      outsize := 0 }
  ⟨(pioctl iob s).1, [iob], (pioctl iob s).2⟩

/-- The content of `buffer` when `minikafs_5settoken` calls the kernel,
together with the `plain_token` it stored there. -/
def buffer_5settoken (bo : ByteOrder) (junk : Nat → Nat) (cell : String) (creds : krb5_creds)
    (uid : Nat) : List Nat × minikafs_plain_token :=
  let len := creds.ticket.length
  let buffer0 := fresh_buffer junk (4 + len + 4 + sizeof_plain_token + 4 + strlen cell + 1)
  -- their key, encrypted with our key
  let size := len % 4294967296
  let buffer1 := memcpy buffer0 0 (u32_bytes bo size) 4
  let buffer2 := memcpy buffer1 4 creds.ticket size
  -- our key, plus housekeeping
  let end0 := to_u32 creds.endtime
  let plain_token : minikafs_plain_token :=
    { kvno := 0x100
      key := (v5_creds_key_contents creds).take (v5_creds_key_length creds)
      uid := uid % 4294967296
      start := to_u32 creds.starttime
      end_ :=
        if Int.tmod (creds.endtime - creds.starttime) 1 = 0
        then (end0 + 4294967296 - 1) % 4294967296
        else end0 }
  let size := sizeof_plain_token
  let buffer3 := memcpy buffer2 (4 + len) (u32_bytes bo size) 4
  let buffer4 := memcpy buffer3 (4 + len + 4) (plain_token_bytes bo plain_token) size
  -- the name of the cell
  let size := 0
  let buffer5 := memcpy buffer4 (4 + len + 4 + sizeof_plain_token) (u32_bytes bo size) 4
  let buffer6 := strcpy buffer5 (4 + len + 4 + sizeof_plain_token + 4) cell
  (buffer6, plain_token)

/-- The function `minikafs_5settoken`; `pioctl` is the system call
`minikafs_pioctl(NULL, minikafs_pioctl_settoken, &iob)`. -/
def minikafs_5settoken {σ : Type} (bo : ByteOrder) (junk : Nat → Nat)
    (pioctl : minikafs_ioblock → σ → Int × σ) (cell : String) (creds : krb5_creds)
    (uid : Nat) (s : σ) : SetTokenResult σ :=
  if v5_creds_key_length creds ≠ 8 then ⟨-1, [], s⟩
  else
    let buffer := (buffer_5settoken bo junk cell creds uid).1
    -- the regular stuff
    let iob : minikafs_ioblock :=
      { in_ := buffer
        insize := (4 + creds.ticket.length + 4 + sizeof_plain_token + 4 + strlen cell + 1)
          % 65536
        out := 0
        outsize := 0 }
    ⟨(pioctl iob s).1, [iob], (pioctl iob s).2⟩

/-- The fields of a token blob: the ticket, the plain token, the integer in
front of the cell name, and the cell name. -/
structure TokenBlob where
  ticket : List Nat
  token : minikafs_plain_token
  flag : Nat
  cell : String
deriving DecidableEq, Repr

/-- The token blob as the specification lays it out: the ticket behind its
4-byte length, the plain token behind its 4-byte size, and the cell name with
its terminating NUL behind a 4-byte integer. -/
def serialize (bo : ByteOrder) (b : TokenBlob) : List Nat :=
  u32_bytes bo b.ticket.length ++ b.ticket
    ++ u32_bytes bo sizeof_plain_token ++ plain_token_bytes bo b.token
    ++ u32_bytes bo b.flag ++ string_bytes b.cell ++ [0]

/-- Decoder for the blob layout of the specification: a 4-byte length and that
many ticket bytes; a 4-byte length, which must be the size of the plain
token, and the plain token (kvno, 8 key bytes, uid, start, end); a 4-byte
integer; the cell name up to its terminating NUL, with which the blob must
end.  Returns `none` when the blob does not have this form. -/
def deserialize (bo : ByteOrder) (blob : List Nat) : Option TokenBlob :=
  if blob.length < 4 then none
  else
    let len := u32_of_bytes bo (blob.take 4)
    let rest1 := blob.drop 4
    if rest1.length < len + 4 then none
    else
      let ticket := rest1.take len
      let rest2 := rest1.drop len
      if u32_of_bytes bo (rest2.take 4) ≠ sizeof_plain_token then none
      else
        let rest3 := rest2.drop 4
        if rest3.length < sizeof_plain_token + 4 then none
        else
          let t := rest3.take sizeof_plain_token
          let token : minikafs_plain_token :=
            { kvno := u32_of_bytes bo (t.take 4)
              key := (t.drop 4).take 8
              uid := u32_of_bytes bo ((t.drop 12).take 4)
              start := u32_of_bytes bo ((t.drop 16).take 4)
              end_ := u32_of_bytes bo ((t.drop 20).take 4) }
          let rest4 := rest3.drop sizeof_plain_token
          let flag := u32_of_bytes bo (rest4.take 4)
          let rest5 := rest4.drop 4
          let name := rest5.takeWhile (fun b => b ≠ 0)
          if rest5.drop name.length = [0] then
            some ⟨ticket, token, flag, String.mk (name.map Char.ofNat)⟩
          else none

/-! ## Is AFS running -/

/-- Results of the calls `minikafs_has_afs` makes: `sigaction` installing the
ignoring disposition for `SIGSYS`, the query `minikafs_cell_of_file`, and the
value of `errno` after the query. -/
structure HasAfsEnv where
  sigaction_install : Int
  cell_of_file : Int
  errno : Int
deriving DecidableEq, Repr

/-- The calls `minikafs_has_afs` makes. -/
inductive HasAfsCall where
  | sigaction_ignore
  | cell_of_file
  | sigaction_restore
deriving DecidableEq, Repr

/-- The function `minikafs_has_afs`; `enosys` is the value of `ENOSYS` from
`<errno.h>`.  Returns the return value and the calls made. -/
def minikafs_has_afs (enosys : Int) (e : HasAfsEnv) : Int × List HasAfsCall :=
  if e.sigaction_install ≠ 0 then (0, [HasAfsCall.sigaction_ignore])
  else
    let ret : Int :=
      if e.cell_of_file = 0 ∨ (e.cell_of_file = -1 ∧ e.errno ≠ enosys) then 1 else 0
    (ret, [HasAfsCall.sigaction_ignore, HasAfsCall.cell_of_file,
      HasAfsCall.sigaction_restore])

/-! ## One principal, protocol 5 -/

/-- The encryption types in `etypes[]` (constants of `<krb5.h>`). -/
inductive Enctype where
  | ENCTYPE_DES_CBC_CRC
  | ENCTYPE_DES_CBC_MD4
  | ENCTYPE_DES_CBC_MD5
deriving DecidableEq, Repr

/-- The array `etypes[]` of `minikafs_5log_with_principal`. -/
def etypes : List Enctype :=
  [Enctype.ENCTYPE_DES_CBC_CRC, Enctype.ENCTYPE_DES_CBC_MD4, Enctype.ENCTYPE_DES_CBC_MD5]

/-- The calls `minikafs_5log_with_principal` makes, each with the value it
returned: the two lookups of principals, a probe of the credential cache for
an encryption type, a request to the ticket-granting service for an encryption
type, `minikafs_5settoken`, and `minikafs_5convert_and_log`. -/
inductive PrincipalCall where
  | cc_get_principal (ret : Int)
  | parse_name (ret : Int)
  | cc_retrieve_cred (etype : Enctype) (ret : Int)
  | get_credentials (etype : Enctype) (ret : Int)
  | settoken5 (ret : Int)
  | convert_and_log (ret : Int)
deriving DecidableEq, Repr

/-- The library and kernel calls behind `minikafs_5log_with_principal`:
`krb5_cc_get_principal`, `krb5_parse_name`, `krb5_cc_retrieve_cred` and
`krb5_get_credentials` for a server principal and encryption type (result and
credentials), the `settoken` pioctl, and the krb524 conversion (result and
version-4 credentials). -/
structure Krb5 (σ : Type) where
  cc_get_principal : Nat → σ → Int × σ
  parse_name : String → σ → Int × σ
  cc_retrieve_cred : Nat → String → Enctype → σ → (Int × krb5_creds) × σ
  get_credentials : Nat → String → Enctype → σ → (Int × krb5_creds) × σ
  pioctl : minikafs_ioblock → σ → Int × σ
  convert_creds : krb5_creds → σ → (Int × CREDENTIALS) × σ

/-- Build parameters of the token functions: the byte order, the content of
uninitialised stack memory, whether `USE_KRB4` is defined, and whether one of
`HAVE_KRB5_524_CONVERT_CREDS`, `HAVE_KRB524_CONVERT_CREDS_KDC` is. -/
structure TokenBuild where
  bo : ByteOrder
  junk : Nat → Nat
  use_krb4 : Bool
  have_convert : Bool

/-- The function `minikafs_5convert_and_log`.  Returns the return value and the
state. -/
def minikafs_5convert_and_log {σ : Type} (b : TokenBuild) (k : Krb5 σ) (cell : String)
    (creds : krb5_creds) (uid : Nat) (s : σ) : Int × σ :=
  if b.use_krb4 = false then (-1, s)
  else if b.have_convert = false then (-1, s)
  else
    let r := k.convert_creds creds s
    if r.1.1 ≠ 0 then (r.1.1, r.2)
    else
      let t := minikafs_4settoken b.bo b.junk k.pioctl cell uid (to_u32 creds.starttime)
        (to_u32 creds.endtime) r.1.2 r.2
      (t.ret, t.state)

/-- What is done with credentials found by `minikafs_5log_with_principal`, in
either loop: with `try_v5_2b` the token is set directly, and when that is not
tried or fails the credentials are converted and set.  Returns whether one of
them returned `0`, the calls made, and the state. -/
def submit_creds {σ : Type} (b : TokenBuild) (k : Krb5 σ) (cell : String)
    (creds : krb5_creds) (uid : Nat) (try_v5_2b : Int) (s : σ) :
    Bool × List PrincipalCall × σ :=
  let direct : Option (SetTokenResult σ) :=
    if try_v5_2b ≠ 0 then some (minikafs_5settoken b.bo b.junk k.pioctl cell creds uid s)
    else none
  match direct with
  | some t =>
    if t.ret = 0 then (true, [PrincipalCall.settoken5 t.ret], t.state)
    else
      let c := minikafs_5convert_and_log b k cell creds uid t.state
      (decide (c.1 = 0), [PrincipalCall.settoken5 t.ret, PrincipalCall.convert_and_log c.1],
        c.2)
  | none =>
    let c := minikafs_5convert_and_log b k cell creds uid s
    (decide (c.1 = 0), [PrincipalCall.convert_and_log c.1], c.2)

/-- The first loop of `minikafs_5log_with_principal` over the remaining
encryption types: "check if we already have a suitable credential".  Returns
whether the function returned `0` from inside the loop, the calls made, and
the state. -/
def cache_loop {σ : Type} (b : TokenBuild) (k : Krb5 σ) (ccache : Nat) (cell principal : String)
    (uid : Nat) (try_v5_2b : Int) : List Enctype → σ → Bool × List PrincipalCall × σ
  | [], s => (false, [], s)
  | e :: es, s =>
    let r := k.cc_retrieve_cred ccache principal e s
    if r.1.1 = 0 then
      let t := submit_creds b k cell r.1.2 uid try_v5_2b r.2
      if t.1 = true then (true, PrincipalCall.cc_retrieve_cred e r.1.1 :: t.2.1, t.2.2)
      else
        let rest := cache_loop b k ccache cell principal uid try_v5_2b es t.2.2
        (rest.1, PrincipalCall.cc_retrieve_cred e r.1.1 :: (t.2.1 ++ rest.2.1), rest.2.2)
    else
      let rest := cache_loop b k ccache cell principal uid try_v5_2b es r.2
      (rest.1, PrincipalCall.cc_retrieve_cred e r.1.1 :: rest.2.1, rest.2.2)

/-- The second loop of `minikafs_5log_with_principal` over the remaining
encryption types: "try to obtain a suitable credential". -/
def request_loop {σ : Type} (b : TokenBuild) (k : Krb5 σ) (ccache : Nat)
    (cell principal : String) (uid : Nat) (try_v5_2b : Int) :
    List Enctype → σ → Bool × List PrincipalCall × σ
  | [], s => (false, [], s)
  | e :: es, s =>
    let r := k.get_credentials ccache principal e s
    if r.1.1 = 0 then
      let t := submit_creds b k cell r.1.2 uid try_v5_2b r.2
      if t.1 = true then (true, PrincipalCall.get_credentials e r.1.1 :: t.2.1, t.2.2)
      else
        let rest := request_loop b k ccache cell principal uid try_v5_2b es t.2.2
        (rest.1, PrincipalCall.get_credentials e r.1.1 :: (t.2.1 ++ rest.2.1), rest.2.2)
    else
      let rest := request_loop b k ccache cell principal uid try_v5_2b es r.2
      (rest.1, PrincipalCall.get_credentials e r.1.1 :: rest.2.1, rest.2.2)

/-- What `minikafs_5log_with_principal` did: its return value, the calls it
made, and the state afterwards. -/
structure PrincipalResult (σ : Type) where
  ret : Int
  calls : List PrincipalCall
  state : σ

/-- The function `minikafs_5log_with_principal`. -/
def minikafs_5log_with_principal {σ : Type} (b : TokenBuild) (k : Krb5 σ) (ccache : Nat)
    (cell principal : String) (uid : Nat) (try_v5_2b : Int) (s : σ) : PrincipalResult σ :=
  let c := k.cc_get_principal ccache s
  if c.1 ≠ 0 then ⟨-1, [PrincipalCall.cc_get_principal c.1], c.2⟩
  else
    let p := k.parse_name principal c.2
    if p.1 ≠ 0 then
      ⟨-1, [PrincipalCall.cc_get_principal c.1, PrincipalCall.parse_name p.1], p.2⟩
    else
      let head := [PrincipalCall.cc_get_principal c.1, PrincipalCall.parse_name p.1]
      -- Check if we already have a suitable credential.
      let l1 := cache_loop b k ccache cell principal uid try_v5_2b etypes p.2
      if l1.1 = true then ⟨0, head ++ l1.2.1, l1.2.2⟩
      else
        -- Try to obtain a suitable credential.
        let l2 := request_loop b k ccache cell principal uid try_v5_2b etypes l1.2.2
        if l2.1 = true then ⟨0, head ++ l1.2.1 ++ l2.2.1, l2.2.2⟩
        else ⟨-1, head ++ l1.2.1 ++ l2.2.1, l2.2.2⟩

/-- The candidates of a cascade as (service, instance, realm), the instance
being `none` for the null instance: for `afs` and then `afsx`, the cell
instance in the cell's realm, the null instance when realm and cell are equal
ignoring case, and the cell instance in the default realm when that differs
from the realm. -/
def candidate_triples (cell realm defaultrealm : String) :
    List (String × Option String × String) :=
  (["afs", "afsx"] : List String).flatMap (fun b =>
    [(b, some cell, realm)]
    ++ (if strcasecmp realm cell = 0 then [(b, none, realm)] else [])
    ++ (if defaultrealm ≠ realm then [(b, some cell, defaultrealm)] else []))

/-- The protocol-5 principal name of a candidate. -/
def principal_of_triple (t : String × Option String × String) : String :=
  match t.2.1 with
  | some i => sprintf_service_instance_realm t.1 i t.2.2
  | none => sprintf_service_realm t.1 t.2.2

/-- The protocol-4 service, instance and realm of a candidate; the null
instance is the empty string. -/
def krb4_of_triple (t : String × Option String × String) : String × String × String :=
  (t.1, t.2.1.getD "", t.2.2)

/-- The calls of `minikafs_4log_with_principal` the protocol-4 cascade is to
make for a list of service names, in order. -/
def candidates4_of (cell realm localrealm : String) (uid : Nat) : List String → List Call4
  | [] => []
  | b :: bs =>
    [(⟨cell, b, cell, realm, uid⟩ : Call4)]
    ++ (if strcasecmp realm cell = 0 then [(⟨cell, b, "", realm, uid⟩ : Call4)] else [])
    ++ (if strcmp realm localrealm ≠ 0 then [(⟨cell, b, cell, localrealm, uid⟩ : Call4)]
        else [])
    ++ candidates4_of cell realm localrealm uid bs

/-- The encryption type a call probes the credential cache for, if it is such
a probe. -/
def probe_of : PrincipalCall → Option Enctype
  | PrincipalCall.cc_retrieve_cred e _ => some e
  | _ => none

/-- The encryption type a call requests a ticket for from the ticket-granting
service, if it is such a request. -/
def request_of : PrincipalCall → Option Enctype
  | PrincipalCall.get_credentials e _ => some e
  | _ => none

/-- The value returned by a call that submits a ticket to the kernel
(`minikafs_5settoken` or `minikafs_5convert_and_log`), if it is one. -/
def submit_of : PrincipalCall → Option Int
  | PrincipalCall.settoken5 r => some r
  | PrincipalCall.convert_and_log r => some r
  | _ => none

/-! ## The stash (`src/stash.c`): libc and libpam -/

/-- The value of `INT_MAX` for a 32-bit `int`. -/
def INT_MAX : Int := 2147483647

/-- The value of `INT_MIN` for a 32-bit `int`. -/
def INT_MIN : Int := -2147483648

/-- Widths of the machine's types: the byte order, `LONG_MAX`, and the number
of values of `size_t` (`SIZE_MAX + 1`). -/
structure Machine where
  bo : ByteOrder
  long_max : Int
  size_mod : Nat

/-- Conversion of an unsigned 32-bit value to `int` (two's complement). -/
def to_int32 (n : Nat) : Int :=
  if n % 4294967296 < 2147483648 then ((n % 4294967296 : Nat) : Int)
  else ((n % 4294967296 : Nat) : Int) - 4294967296

/-- The four bytes of an `int` in memory. -/
def int_bytes (bo : ByteOrder) (x : Int) : List Nat :=
  u32_bytes bo (to_u32 x)

/-- The `int` at index `i` of a blob read as an array of `int`:
`((int*)blob)[i]`. -/
def int_at (bo : ByteOrder) (blob : List Nat) (i : Nat) : Int :=
  to_int32 (u32_of_bytes bo ((blob.drop (4 * i)).take 4))

/-- The libc function `isspace` in the C locale. -/
def isspace (c : Char) : Bool :=
  c.toNat = 32 || (9 ≤ c.toNat && c.toNat ≤ 13)

/-- The value of a char as a digit, for the bases up to 36 of `strtol`. -/
def digit_value (c : Char) : Option Nat :=
  if 48 ≤ c.toNat ∧ c.toNat ≤ 57 then some (c.toNat - 48)
  else if 97 ≤ c.toNat ∧ c.toNat ≤ 122 then some (c.toNat - 87)
  else if 65 ≤ c.toNat ∧ c.toNat ≤ 90 then some (c.toNat - 55)
  else none

/-- Whether a char is a digit of the base. -/
def is_digit_of (base : Nat) (c : Char) : Bool :=
  match digit_value c with
  | some d => decide (d < base)
  | none => false

/-- The longest run of digits of the base at the start of a string: the value
of the digits seen so far, whether a digit has been seen, and what follows the
digits. -/
def scan_digits (base : Nat) : List Char → Nat → Bool → Nat × Bool × List Char
  | [], acc, seen => (acc, seen, [])
  | c :: cs, acc, seen =>
    match digit_value c with
    | some d =>
      if d < base then scan_digits base cs (acc * base + d) true
      else (acc, seen, c :: cs)
    | none => (acc, seen, c :: cs)

/-- Whether a string starts with `0x` or `0X` followed by a hexadecimal
digit. -/
def hex_start : List Char → Bool
  | c0 :: c1 :: c2 :: _ =>
    decide (c0 = '0') && (decide (c1 = 'x') || decide (c1 = 'X')) && is_digit_of 16 c2
  | _ => false

/-- The libc function `strtol(nptr, &endptr, 0)`: white space is skipped, a
sign is read, the base is 16 after `0x` or `0X` followed by a hexadecimal
digit, 8 after `0`, and 10 otherwise; the value is kept within `LONG_MIN` and
`LONG_MAX`.  Returns the value and the string at `endptr`; when there is no
digit the value is 0 and `endptr` is `nptr`. -/
def strtol (long_max : Int) (nptr : List Char) : Int × List Char :=
  let s1 := nptr.dropWhile isspace
  let negative := decide (s1.head? = some '-')
  let s2 := if s1.head? = some '-' ∨ s1.head? = some '+' then s1.tail else s1
  let hex : Bool := hex_start s2
  let base : Nat := if hex = true then 16 else if s2.head? = some '0' then 8 else 10
  let s3 := if hex = true then s2.drop 2 else s2
  let r := scan_digits base s3 0 false
  if r.2.1 = false then (0, nptr)
  else
    let v : Int := if negative = true then -(r.1 : Int) else (r.1 : Int)
    let clamped : Int :=
      if v > long_max then long_max else if v < -long_max - 1 then -long_max - 1 else v
    (clamped, r.2.2)

/-- The decimal digits of a natural number, least significant first; `fuel + 1`
is the largest number of digits produced (10 digits are enough for an
`int`). -/
def dec_rev : Nat → Nat → List Char
  | 0, n => [Char.ofNat (48 + n % 10)]
  | fuel + 1, n =>
    if n < 10 then [Char.ofNat (48 + n)]
    else Char.ofNat (48 + n % 10) :: dec_rev fuel (n / 10)

/-- What `printf` writes for `%d` and an `int`. -/
def sprintf_d (k : Int) : String :=
  String.mk ((if k < 0 then ['-'] else []) ++ (dec_rev 10 k.natAbs).reverse)

/-- What `snprintf(buf, size, ...)` leaves in the buffer when the whole output
would be `s`: the first `size - 1` chars. -/
def snprintf (size : Nat) (s : String) : String :=
  String.mk (s.data.take (size - 1))

/-- The test of the libpam function `_pam_search_env` on one item `NAME=value`
of the PAM environment, `strncmp(name, item, length) == 0 && item[length] ==
'='` with `length` the length of `name`: the item starts with the chars of
`name`, and the char after them is `=`. -/
def env_item_matches (name : List Char) (item : String) : Bool :=
  decide (item.data.take (name.length + 1) = name ++ ['='])

/-- The libpam function `_pam_search_env` on the PAM environment, the array of
its items `NAME=value` in the order of the array: the index of the item found,
`none` for -1.  The search runs from the last item to the first, so the item
found is the last one that passes the test. -/
def _pam_search_env : List String → List Char → Option Nat
  | [], _ => none
  | item :: rest, name =>
    match _pam_search_env rest name with
    | some i => some (i + 1)
    | none => if env_item_matches name item = true then some 0 else none

/-- The libpam function `pam_getenv`: what follows `name` and the `=` in the
item that `_pam_search_env` finds for `name`; `none` is `NULL`. -/
def pam_getenv (env : List String) (name : String) : Option String :=
  match _pam_search_env env name.data with
  | some i =>
    match env.get? i with
    | some item => some (String.mk (item.data.drop (name.data.length + 1)))
    | none => none
  | none => none

/-- The libpam function `pam_putenv`: the environment afterwards.  `l2eq` is
the number of chars before the first `=`; a string with none is refused; the
item to replace is the one `_pam_search_env` finds for the first `l2eq` chars;
a string with an `=` is stored in its place or, when there is none, after the
last item; a string without `=` deletes the item found. -/
def pam_putenv (env : List String) (name_value : String) : List String :=
  let l2eq := (name_value.data.takeWhile (fun c => c ≠ '=')).length
  if l2eq = 0 then env
  else
    let item := _pam_search_env env (name_value.data.take l2eq)
    if l2eq < name_value.data.length then
      match item with
      | none => env ++ [name_value]
      | some i => env.set i name_value
    else
      match item with
      | none => env
      | some i => env.eraseIdx i

/-- The libpam function `pam_get_data` on the data of a handle, a list of names
with the pointers stored under them: the pointer under the name, `none` when
the call does not return `PAM_SUCCESS`. -/
def pam_get_data (data : List (String × Nat)) (name : String) : Option Nat :=
  (data.find? (fun nd => nd.1 = name)).map (fun nd => nd.2)

/-! ## The stash (`src/stash.c`): data -/

/-- The structure `struct _pam_krb5_stash`.  Pointers to strings are `Option
String` (`none` is `NULL`); `v5creds` and `v4creds` are held inline.  The
fields of Kerberos 4 are part of the structure only with `USE_KRB4`. -/
structure Stash where
  key : Option String
  v5ctx : Nat
  v5attempted : Int
  v5result : Int
  v5file : Option String
  v5creds : krb5_creds
  v5setenv : Int
  v5shm : Int
  v5shm_owner : Int
  v4present : Int
  v4creds : CREDENTIALS
  v4file : Option String
  v4setenv : Int
  v4shm : Int
  v4shm_owner : Int
  afspag : Int
deriving DecidableEq, Repr

/-- A `krb5_creds` whose bytes are all zero. -/
def zero_krb5_creds : krb5_creds :=
  ⟨[], [], 0, 0⟩

/-- A `CREDENTIALS` whose bytes are all zero: the 8 bytes of the session key
are zero, the ticket has length 0. -/
def zero_CREDENTIALS : CREDENTIALS :=
  ⟨[0, 0, 0, 0, 0, 0, 0, 0], 0, []⟩

/-- Content of a stash record after `memset(stash, 0, sizeof(struct
_pam_krb5_stash))`: every field holds zero bytes. -/
def memset_zero (_ : Stash) : Stash :=
  { key := none, v5ctx := 0, v5attempted := 0, v5result := 0, v5file := none,
    v5creds := zero_krb5_creds, v5setenv := 0, v5shm := 0, v5shm_owner := 0,
    v4present := 0, v4creds := zero_CREDENTIALS, v4file := none, v4setenv := 0,
    v4shm := 0, v4shm_owner := 0, afspag := 0 }

/-- The calls of the functions of `stash.c` that the claims speak of, with
their arguments: looking up a shared-memory segment, writing the payload of a
blob to the temporary file (the bytes at `blob_creds` and the count asked
for), `unlink`, `_pam_krb5_storetmp_delete`, `xstrfree`,
`krb5_free_cred_contents`, `free` of the key, `free` of the stash record with
the content the record has then, `malloc` of a stash record with the address
returned, a call of `_pam_krb5_stash_shm_read`, the creation of a
shared-memory segment, `pam_putenv`, and `pam_set_data`. -/
inductive StashCall where
  | blob_from_shm (key : Int)
  | write_tmp (bytes : List Nat) (count : Int)
  | unlink (path : Option String)
  | storetmp_delete (path : Option String)
  | xstrfree (s : Option String)
  | free_cred_contents (creds : krb5_creds)
  | free_key (key : Option String)
  | free_stash (content : Stash)
  | malloc_stash (p : Nat)
  | shm_read (partial_key : String)
  | shm_new (key : Int)
  | putenv (s : String)
  | set_data (key : String) (p : Nat)
deriving DecidableEq, Repr

/-- The state the functions of `stash.c` work on: the data of the PAM handle,
its environment (the items `NAME=value` in the order of the array), the
shared-memory segments of the system (identifier and content), and the stash
records of the process (address and content). -/
structure Sys where
  pam_data : List (String × Nat)
  pam_env : List String
  segments : List (Int × List Nat)
  heap : List (Nat × Stash)
deriving DecidableEq, Repr

/-- The Kerberos library as far as the stash needs it: the content of a
credential cache file after `krb5_cc_initialize` for a principal and
`krb5_cc_store_cred` of a credential; the first credential
`krb5_cc_next_cred` reads from a file of a given content (`none` when it
fails); and for Kerberos 4 the size of `CREDENTIALS`, its bytes in memory, and
the structure a run of bytes is. -/
structure Ccache where
  cc_file : String → krb5_creds → List Nat
  cc_next_cred : List Nat → Option krb5_creds
  sizeof_v4creds : Nat
  v4creds_bytes : CREDENTIALS → List Nat
  v4creds_of_bytes : List Nat → CREDENTIALS

/-! ## The stash: disposal and temporary files -/

/-- The function `_pam_krb5_stash_cleanup`: the calls it makes on a stash
record, in order. -/
def _pam_krb5_stash_cleanup (cfg : Config) (stash : Stash) : List StashCall :=
  [StashCall.free_cred_contents stash.v5creds, StashCall.free_key stash.key]
  ++ (if stash.v5file ≠ none then [StashCall.xstrfree stash.v5file] else [])
  ++ (if cfg.use_krb4 = true ∧ stash.v4file ≠ none then [StashCall.xstrfree stash.v4file]
      else [])
  ++ [StashCall.free_stash (memset_zero stash)]

/-- The function `_pam_krb5_stash_clean`.  `storetmp_delete` is
`_pam_krb5_storetmp_delete` and `unlink` the system call, each returning its
result.  Returns the return value, the content of `*stored_file` afterwards,
the calls made, and the state. -/
def _pam_krb5_stash_clean {σ : Type} (storetmp_delete unlink : Option String → σ → Int × σ)
    (stored_file : Option String) (s : σ) : (Int × Option String) × List StashCall × σ :=
  let d := storetmp_delete stored_file s
  if d.1 = 0 then
    ((0, none), [StashCall.storetmp_delete stored_file, StashCall.xstrfree stored_file], d.2)
  else
    let u := unlink stored_file d.2
    if u.1 = 0 then
      ((0, none), [StashCall.storetmp_delete stored_file, StashCall.unlink stored_file,
        StashCall.xstrfree stored_file], u.2)
    else
      ((-1, stored_file), [StashCall.storetmp_delete stored_file,
        StashCall.unlink stored_file], u.2)

/-- The function `_pam_krb5_stash_clean_v5`.  Returns the return value, the
stash afterwards, the calls made, and the state. -/
def _pam_krb5_stash_clean_v5 {σ : Type} (storetmp_delete unlink : Option String → σ → Int × σ)
    (stash : Stash) (s : σ) : (Int × Stash) × List StashCall × σ :=
  let r := _pam_krb5_stash_clean storetmp_delete unlink stash.v5file s
  ((r.1.1, { stash with v5file := r.1.2 }), r.2.1, r.2.2)

/-- The function `_pam_krb5_stash_clean_v4`. -/
def _pam_krb5_stash_clean_v4 {σ : Type} (cfg : Config)
    (storetmp_delete unlink : Option String → σ → Int × σ)
    (stash : Stash) (s : σ) : (Int × Stash) × List StashCall × σ :=
  if cfg.use_krb4 = true then
    let r := _pam_krb5_stash_clean storetmp_delete unlink stash.v4file s
    ((r.1.1, { stash with v4file := r.1.2 }), r.2.1, r.2.2)
  else ((0, stash), [], s)

/-! ## The stash: shared memory -/

/-- Modelled from the spec: `_pam_krb5_blob_from_shm` is defined in `shmem.c`,
which is not among the sources.  It is the import of the ShmChannel: the blob
is a copy of the content of the segment with the given identifier, `none`
(`NULL`, size 0) when there is no such segment; the segment is removed once it
has been read.  Returns the blob and the segments left. -/
def _pam_krb5_blob_from_shm (segments : List (Int × List Nat)) (key : Int) :
    Option (List Nat) × List (Int × List Nat) :=
  match segments.find? (fun kb => kb.1 = key) with
  | some kb => (some kb.2, segments.filter (fun kb => kb.1 ≠ key))
  | none => (none, segments)

/-- Modelled from the spec: `_pam_krb5_shm_new_from_file` is defined in
`shmem.c`, which is not among the sources.  It is the export of the
ShmChannel for a file: a new segment holds `lead` bytes for the header
followed by the content of the file (the payload); `key` is the identifier of
the segment, `-1` when none could be created, and the size it reports is the
length of the payload, which the header is to declare.  Returns the content
of the segment and the size reported. -/
def _pam_krb5_shm_new_from_file (lead : Nat) (file : List Nat) : List Nat × Nat :=
  (List.replicate lead 0 ++ file, file.length)

/-- Results of the calls `_pam_krb5_stash_shm_read` and the functions it calls
make: `malloc` of the variable name, `mkstemp` (descriptor and name of the
file), `_pam_krb5_write_with_retry`, `_pam_krb5_init_ctx`, `krb5_cc_resolve`,
and `krb5_cc_start_seq_get`. -/
structure ReadEnv where
  malloc_variable : Bool
  mkstemp : Int × String
  write_with_retry : Int
  init_ctx : Int
  cc_resolve : Int
  cc_start_seq_get : Int
deriving DecidableEq, Repr

/-- The function `_pam_krb5_stash_shm_read_v5`; `blob_size` is the length of
`blob`.  Returns the stash afterwards and the calls made. -/
def _pam_krb5_stash_shm_read_v5 (m : Machine) (lib : Ccache) (e : ReadEnv) (stash : Stash)
    (blob : List Nat) : Stash × List StashCall :=
  let blob_size := blob.length
  -- Sanity checks.
  if blob_size < 4 * 3 then (stash, [])
  else
    let blob_creds := blob.drop (4 * 3)
    let blob_creds_size : Int := int_at m.bo blob 0
    if ((blob_creds_size % (m.size_mod : Int)).toNat + 4 * 3) % m.size_mod > blob_size then
      (stash, [])
    else
      -- Create a temporary ccache file.
      if e.mkstemp.1 = -1 then (stash, [])
      else
        -- Store the blob's contents in the file.
        let w := StashCall.write_tmp blob_creds blob_creds_size
        let u := StashCall.unlink (some e.mkstemp.2)
        if e.write_with_retry ≠ blob_creds_size then (stash, [w, u])
        else
          -- Read the first credential from the file.
          if e.init_ctx ≠ 0 then (stash, [w, u])
          else if e.cc_resolve ≠ 0 then (stash, [w, u])
          else if e.cc_start_seq_get ≠ 0 then (stash, [w, u])
          else
            let file := blob_creds.take blob_creds_size.toNat
            let v5creds :=
              match lib.cc_next_cred file with
              | some c => c
              | none => stash.v5creds
            -- Read other variables.
            ({ stash with v5creds := v5creds, v5attempted := int_at m.bo blob 1,
                          v5result := int_at m.bo blob 2 }, [w, u])

/-- The function `_pam_krb5_stash_shm_read_v4`. -/
def _pam_krb5_stash_shm_read_v4 (m : Machine) (lib : Ccache) (stash : Stash)
    (blob : List Nat) : Stash :=
  if blob.length ≥ 4 * 2 + lib.sizeof_v4creds then
    if int_at m.bo blob 1 = (lib.sizeof_v4creds : Int) then
      { stash with v4present := int_at m.bo blob 0,
                   v4creds := lib.v4creds_of_bytes
                     ((blob.drop (4 * 2)).take lib.sizeof_v4creds) }
    else stash
  else stash

/-- The part of `_pam_krb5_stash_shm_read` that reads one variable and
extracts a shared memory identifier: the value of `key` afterwards. -/
def shm_key_of (m : Machine) (value : Option String) : Int :=
  match value with
  | none => -1
  | some v =>
    let r := strtol m.long_max v.data
    if r.2 = [] then
      if r.1 < INT_MAX ∧ r.1 > INT_MIN then r.1 else -1
    else -1

/-- The function `_pam_krb5_stash_shm_read`.  Returns the stash and the state
afterwards, and the calls made. -/
def _pam_krb5_stash_shm_read (m : Machine) (cfg : Config) (lib : Ccache) (e : ReadEnv)
    (st : Sys) (partial_key : String) (stash : Stash) : (Stash × Sys) × List StashCall :=
  -- Construct the name of a variable.
  if e.malloc_variable = false then ((stash, st), [StashCall.shm_read partial_key])
  else
    let variable5 := partial_key ++ "_shm5"
    -- Read the variable and extract a shared memory identifier.
    let key := shm_key_of m (pam_getenv st.pam_env variable5)
    -- Get a copy of the contents of the shared memory segment.
    let r5 : (Stash × Sys) × List StashCall :=
      if key ≠ -1 then
        let b := _pam_krb5_blob_from_shm st.segments key
        let st1 := { st with segments := b.2 }
        match b.1 with
        | none => ((stash, st1), [StashCall.blob_from_shm key])
        | some blob =>
          if blob.length = 0 then ((stash, st1), [StashCall.blob_from_shm key])
          else
            let r := _pam_krb5_stash_shm_read_v5 m lib e stash blob
            ((r.1, st1), StashCall.blob_from_shm key :: r.2)
      else ((stash, st), [])
    if cfg.use_krb4 = true then
      let variable4 := partial_key ++ "_shm4"
      let key := shm_key_of m (pam_getenv r5.1.2.pam_env variable4)
      if key ≠ -1 then
        let b := _pam_krb5_blob_from_shm r5.1.2.segments key
        let st2 := { r5.1.2 with segments := b.2 }
        match b.1 with
        | none => ((r5.1.1, st2), StashCall.shm_read partial_key :: r5.2
            ++ [StashCall.blob_from_shm key])
        | some blob =>
          if blob.length = 0 then
            ((r5.1.1, st2), StashCall.shm_read partial_key :: r5.2
              ++ [StashCall.blob_from_shm key])
          else
            ((_pam_krb5_stash_shm_read_v4 m lib r5.1.1 blob, st2),
              StashCall.shm_read partial_key :: r5.2 ++ [StashCall.blob_from_shm key])
      else (r5.1, StashCall.shm_read partial_key :: r5.2)
    else (r5.1, StashCall.shm_read partial_key :: r5.2)

/-- Results of the calls `_pam_krb5_stash_shm_write` and the functions it calls
make: `mkstemp` (descriptor and name of the file), `_pam_krb5_init_ctx`,
`krb5_cc_resolve`, `krb5_cc_initialize`, `krb5_cc_store_cred`, and for each of
the two segments the identifier of the new segment (`-1` when none was
created) and whether it was attached (`blob != NULL`). -/
structure WriteEnv where
  mkstemp : Int × String
  init_ctx : Int
  cc_resolve : Int
  cc_initialize : Int
  cc_store_cred : Int
  shm5 : Int × Bool
  shm4 : Int × Bool
deriving DecidableEq, Repr

/-- The function `_pam_krb5_stash_shm_write_v5`; `unparsed_name` is
`userinfo->unparsed_name`, the name of the principal.  Returns the state
afterwards and the calls made. -/
def _pam_krb5_stash_shm_write_v5 (m : Machine) (cfg : Config) (lib : Ccache) (e : WriteEnv)
    (st : Sys) (stash : Stash) (unparsed_name : String) : Sys × List StashCall :=
  -- Sanity check.
  if stash.v5attempted = 0 ∨ stash.v5result ≠ 0 then (st, [])
  -- Create a temporary ccache file.
  else if e.mkstemp.1 = -1 then (st, [])
  else
    let u := StashCall.unlink (some e.mkstemp.2)
    -- Write the credentials to that file.
    if e.init_ctx ≠ 0 then (st, [u])
    else if e.cc_resolve ≠ 0 then (st, [u])
    else if e.cc_initialize ≠ 0 then (st, [u])
    else if e.cc_store_cred ≠ 0 then (st, [u])
    else
      -- Read the entire file.
      let file := lib.cc_file unparsed_name stash.v5creds
      let n := _pam_krb5_shm_new_from_file (4 * 3) file
      let key := e.shm5.1
      let blob_size := n.2
      let blob :=
        if key ≠ -1 ∧ e.shm5.2 = true then
          memcpy
            (memcpy (memcpy n.1 0 (int_bytes m.bo (to_int32 blob_size)) 4)
              4 (int_bytes m.bo stash.v5attempted) 4)
            8 (int_bytes m.bo stash.v5result) 4
        else n.1
      let segments := if key ≠ -1 then (key, blob) :: st.segments else st.segments
      -- Clean up.
      let tktfile := snprintf (cfg.path_max + 5)
        ("_pam_krb5_stash_" ++ unparsed_name ++ "_shm5=" ++ sprintf_d key)
      ({ st with segments := segments, pam_env := pam_putenv st.pam_env tktfile },
        [StashCall.shm_new key, u, StashCall.putenv tktfile])

/-- Results of the calls `_pam_krb5_stash_get` makes: `malloc` of the key,
`malloc` of the stash record (the address, `0` for `NULL`), `pam_set_data`,
and the calls of the import from shared memory. -/
structure GetEnv where
  malloc_key : Bool
  malloc_stash : Nat
  pam_set_data : Int
  read : ReadEnv
deriving DecidableEq, Repr

/-- The function `_pam_krb5_stash_get`; `generic` is the value of
`KRB5KRB_ERR_GENERIC` from `<krb5.h>`, `use_shmem` is `options->use_shmem`,
`unparsed_name` is `info->unparsed_name`.  Returns the pointer returned (`0`
is `NULL`), the state afterwards, and the calls made. -/
def _pam_krb5_stash_get (m : Machine) (cfg : Config) (lib : Ccache) (generic : Int)
    (e : GetEnv) (use_shmem : Bool) (st : Sys) (unparsed_name : String) :
    (Nat × Sys) × List StashCall :=
  if e.malloc_key = false then ((0, st), [])
  else
    let key := "_pam_krb5_stash_" ++ unparsed_name
    let found : Nat :=
      match pam_get_data st.pam_data key with
      | some p => p
      | none => 0
    if found ≠ 0 then ((found, st), [])
    else if e.malloc_stash = 0 then ((0, st), [])
    else
      let stash0 : Stash :=
        { key := some key, v5ctx := 0, v5attempted := 0, v5result := generic, v5file := none,
          v5creds := zero_krb5_creds, v5setenv := 0, v5shm := 0, v5shm_owner := 0,
          v4present := 0, v4creds := zero_CREDENTIALS, v4file := none, v4setenv := 0,
          v4shm := 0, v4shm_owner := 0, afspag := 0 }
      let r : (Stash × Sys) × List StashCall :=
        if use_shmem = true then _pam_krb5_stash_shm_read m cfg lib e.read st key stash0
        else ((stash0, st), [])
      let data :=
        if e.pam_set_data = 0 then
          (key, e.malloc_stash) :: r.1.2.pam_data.filter (fun nd => nd.1 ≠ key)
        else r.1.2.pam_data
      ((e.malloc_stash,
          { r.1.2 with pam_data := data, heap := (e.malloc_stash, r.1.1) :: r.1.2.heap }),
        StashCall.malloc_stash e.malloc_stash :: r.2
          ++ [StashCall.set_data key e.malloc_stash])

/-- The three fields of Kerberos 5 that the import from shared memory sets:
`v5attempted`, `v5result` and `v5creds`. -/
def v5_status (s : Stash) : Int × Int × krb5_creds :=
  (s.v5attempted, s.v5result, s.v5creds)

/-- The stash record at an address of the heap, `none` when there is none. -/
def stash_at (heap : List (Nat × Stash)) (p : Nat) : Option Stash :=
  (heap.find? (fun ps => ps.1 = p)).map (fun ps => ps.2)

/-- Whether a call obtained a ticket: a probe of the credential cache or a
request to the ticket-granting service that returned `0`. -/
def obtains_ticket : PrincipalCall → Bool
  | PrincipalCall.cc_retrieve_cred _ r => decide (r = 0)
  | PrincipalCall.get_credentials _ r => decide (r = 0)
  | _ => false

/-- The order of submissions in a list of calls: a call that obtained a ticket
is followed by the direct submission when `try_v5_2b` is nonzero, which is the
last call when it returned `0` and is followed by the conversion otherwise,
and by the conversion when `try_v5_2b` is zero; with `try_v5_2b` zero there is
no direct submission; and with `try_v5_2b` nonzero a conversion comes right
after a direct submission that failed. -/
def submission_order (try_v5_2b : Int) (l : List PrincipalCall) : Prop :=
  (∀ pre c post, l = pre ++ c :: post → obtains_ticket c = true →
    (try_v5_2b ≠ 0 → ∃ r rest, post = PrincipalCall.settoken5 r :: rest
      ∧ (r = 0 → rest = [])
      ∧ (r ≠ 0 → ∃ v rest2, rest = PrincipalCall.convert_and_log v :: rest2))
    ∧ (try_v5_2b = 0 → ∃ v rest, post = PrincipalCall.convert_and_log v :: rest))
  ∧ (try_v5_2b = 0 → ∀ c ∈ l, ∀ r, c ≠ PrincipalCall.settoken5 r)
  ∧ (try_v5_2b ≠ 0 → ∀ pre v post, l = pre ++ PrincipalCall.convert_and_log v :: post →
      ∃ pre2 r, pre = pre2 ++ [PrincipalCall.settoken5 r] ∧ r ≠ 0)

/-- The size of the buffer `minikafs_5log` allocates for the principal name:
the argument of its `malloc`. -/
def principal_size (cell : String) : Nat :=
  strlen "afsx/" + strlen cell + 1 + strlen cell + 1

/-- Every principal name that the cascade of `minikafs_5log` may format for a
cell, a realm and a default realm fits, with its NUL, the buffer `principal`
of `principal_size cell` bytes.  The strings of the model have no bound: where
this does not hold the `sprintf` of the source writes beyond the buffer, and
the model describes the source only up to that write. -/
def principal_fits (cell realm : String) (defaultrealm : Option String) : Prop :=
  ∀ p ∈ candidates cell realm defaultrealm, strlen p + 1 ≤ principal_size cell

instance (cell realm : String) (defaultrealm : Option String) :
    Decidable (principal_fits cell realm defaultrealm) := by
  unfold principal_fits
  infer_instance

/-! ## Example inputs -/

/-- A machine with 64-bit `long` and `size_t`, little-endian. -/
def lp64 : Machine :=
  ⟨ByteOrder.little, 9223372036854775807, 18446744073709551616⟩

/-- A stand-in for the Kerberos library in examples: the cache file holds the
bytes of the ticket, and the credential read back has that ticket and nothing
else. -/
def ticket_only_ccache : Ccache :=
  ⟨fun _ c => c.ticket, fun b => some ⟨b, [], 0, 0⟩, 8, fun c => c.session,
    fun b => ⟨b, 0, []⟩⟩

/-- A stash for examples: an acquisition for protocol 5 recorded as attempted
with the given result, the ticket being the two bytes 65 and 66. -/
def populated_stash (result : Int) : Stash :=
  { key := some "_pam_krb5_stash_user@EXAMPLE.ORG", v5ctx := 0, v5attempted := 1,
    v5result := result, v5file := none, v5creds := ⟨[65, 66], [], 0, 0⟩, v5setenv := 0,
    v5shm := 0, v5shm_owner := 0, v4present := 0, v4creds := zero_CREDENTIALS,
    v4file := none, v4setenv := 0, v4shm := 0, v4shm_owner := 0, afspag := 0 }

/-- Calls of the export that all succeed: the segments get the identifiers 7
and 8. -/
def write_ok : WriteEnv :=
  ⟨(3, "/tmp/pam_krb5_tmp_abcdef"), 0, 0, 0, 0, (7, true), (8, true)⟩

/-- A principal name of 4096 chars. -/
def long_name : String :=
  String.mk (List.replicate 4096 'a')

/-! ## Lemmas on cascades -/

section RunUntilZero

variable {α σ : Type} (run : α → σ → Int × σ)

theorem ruz_map_fst (as : List α) (ret : Int) (s : σ) :
    (run_until_zero run as ret s).2.1.map Prod.fst
      = as.take (run_until_zero run as ret s).2.1.length := by
  induction as generalizing ret s with
  | nil => simp [run_until_zero]
  | cons a as ih =>
    simp only [run_until_zero]
    split
    · simp
    · simp [ih]

theorem ruz_stop (as : List α) (ret : Int) (s : σ) (pre post : List (α × Int)) (x : α × Int)
    (h : (run_until_zero run as ret s).2.1 = pre ++ x :: post) (hx : x.2 = 0) : post = [] := by
  induction as generalizing ret s pre with
  | nil => simp [run_until_zero] at h
  | cons a as ih =>
    simp only [run_until_zero] at h
    split at h
    · rename_i h0
      cases pre with
      | nil => simp at h; exact h.2
      | cons p pre => simp at h
    · rename_i h0
      cases pre with
      | nil =>
        simp at h
        rw [← h.1] at hx
        exact absurd hx h0
      | cons p pre =>
        simp at h
        exact ih _ _ _ h.2

theorem ruz_ret_zero_iff (as : List α) (ret : Int) (s : σ) (hret : ret ≠ 0) :
    (run_until_zero run as ret s).1 = 0 ↔ ∃ x ∈ (run_until_zero run as ret s).2.1, x.2 = 0 := by
  induction as generalizing ret s with
  | nil => simp [run_until_zero, hret]
  | cons a as ih =>
    simp only [run_until_zero]
    split
    · rename_i h0
      simp [h0]
    · rename_i h0
      simp [ih _ _ h0, h0]

theorem ruz_exhaust (as : List α) (ret : Int) (s : σ)
    (h : ∀ x ∈ (run_until_zero run as ret s).2.1, x.2 ≠ 0) :
    (run_until_zero run as ret s).2.1.map Prod.fst = as := by
  induction as generalizing ret s with
  | nil => simp [run_until_zero]
  | cons a as ih =>
    simp only [run_until_zero] at h ⊢
    split
    · rename_i h0
      rw [if_pos h0] at h
      simp at h
      exact absurd h0 h
    · rename_i h0
      rw [if_neg h0] at h
      simp at h ⊢
      exact ih _ _ (by simpa using h.2)

theorem ruz_all_fail (as : List α) (ret : Int) (s : σ) (hret : ret ≠ 0)
    (h : ∀ a s, (run a s).1 ≠ 0) :
    (run_until_zero run as ret s).2.1.map Prod.fst = as ∧ (run_until_zero run as ret s).1 ≠ 0 := by
  induction as generalizing ret s with
  | nil => simp [run_until_zero, hret]
  | cons a as ih =>
    simp only [run_until_zero, if_neg (h a s)]
    simp [ih _ _ (h a s)]

end RunUntilZero

section RunUntilZeroIndex

variable {α σ : Type} (run : α → σ → Int × σ)

theorem ruz_getElem_fst (as : List α) (ret : Int) (s : σ) (i : Nat) (x : α × Int)
    (h : (run_until_zero run as ret s).2.1[i]? = some x) : as[i]? = some x.1 := by
  have h1 := ruz_map_fst run as ret s
  have h2 : ((run_until_zero run as ret s).2.1.map Prod.fst)[i]? = some x.1 := by
    simp [List.getElem?_map, h]
  rw [h1, List.getElem?_take] at h2
  split at h2
  · exact h2
  · simp at h2

theorem ruz_next (as : List α) (ret : Int) (s : σ) (i : Nat) (x : α × Int)
    (h : (run_until_zero run as ret s).2.1[i]? = some x) (hx : x.2 ≠ 0)
    (hi : i + 1 < as.length) : ∃ y, (run_until_zero run as ret s).2.1[i + 1]? = some y := by
  induction as generalizing ret s i with
  | nil => simp at hi
  | cons a as ih =>
    simp only [run_until_zero] at h ⊢
    split
    · rename_i h0
      rw [if_pos h0] at h
      cases i with
      | zero => simp at h; rw [← h] at hx; exact absurd h0 hx
      | succ i => simp at h
    · rename_i h0
      rw [if_neg h0] at h
      cases i with
      | zero =>
        cases as with
        | nil => simp at hi
        | cons b bs =>
          simp only [run_until_zero]
          split <;> simp
      | succ i =>
        simp at h hi
        simpa using ih _ _ i h (by omega)

theorem ruz_prev_failed (as : List α) (ret : Int) (s : σ) (i : Nat) (x y : α × Int)
    (h : (run_until_zero run as ret s).2.1[i]? = some x)
    (hy : (run_until_zero run as ret s).2.1[i + 1]? = some y) : x.2 ≠ 0 := by
  intro hx
  obtain ⟨hi, hxi⟩ := List.getElem?_eq_some.1 h
  obtain ⟨hj, hyj⟩ := List.getElem?_eq_some.1 hy
  have hsplit : (run_until_zero run as ret s).2.1
      = (run_until_zero run as ret s).2.1.take i ++ x :: (run_until_zero run as ret s).2.1.drop (i + 1) := by
    rw [← hxi]
    simp
  have := ruz_stop run as ret s _ _ x hsplit hx
  have hlen := congrArg List.length this
  simp at hlen
  omega
end RunUntilZeroIndex

theorem loop5_eq {σ : Type} (log5 : Call5 → σ → Int × σ) (mk : String → Call5)
    (cell realm : String) (defaultrealm : Option String) (bs : List String) (ret : Int) (s : σ) :
    loop5 log5 mk cell realm defaultrealm bs ret s
      = run_until_zero log5 ((candidates_of cell realm defaultrealm bs).map mk) ret s := by
  induction bs generalizing ret s with
  | nil => simp [loop5, run_until_zero, candidates_of]
  | cons b bs ih =>
    simp only [loop5, candidates_of, candidates_for, List.map_append, List.map_cons, List.map_nil]
    by_cases h1 : (log5 (mk (sprintf_service_instance_realm b cell realm)) s).1 = 0
    · simp [run_until_zero, h1]
    · by_cases hc : strcasecmp realm cell = 0
      · by_cases h2 : (log5 (mk (sprintf_service_realm b realm)) (log5 (mk (sprintf_service_instance_realm b cell realm)) s).2).1 = 0
        · simp [run_until_zero, h1, hc, h2]
        · cases defaultrealm with
          | none => simp [run_until_zero, h1, hc, h2, ih]
          | some d =>
            by_cases hd : strcmp d realm = 0
            · simp [run_until_zero, h1, hc, h2, hd, ih]
            · by_cases h3 : (log5 (mk (sprintf_service_instance_realm b cell d)) (log5 (mk (sprintf_service_realm b realm)) (log5 (mk (sprintf_service_instance_realm b cell realm)) s).2).2).1 = 0
              · simp [run_until_zero, h1, hc, h2, hd, h3]
              · simp [run_until_zero, h1, hc, h2, hd, h3, ih]
      · cases defaultrealm with
        | none => simp [run_until_zero, h1, hc, ih]
        | some d =>
          by_cases hd : strcmp d realm = 0
          · simp [run_until_zero, h1, hc, hd, ih]
          · by_cases h3 : (log5 (mk (sprintf_service_instance_realm b cell d)) (log5 (mk (sprintf_service_instance_realm b cell realm)) s).2).1 = 0
            · simp [run_until_zero, h1, hc, hd, h3]
            · simp [run_until_zero, h1, hc, hd, h3, ih]

theorem candidates_of_base (cell realm : String) (d : Option String) :
    candidates_of cell realm d base = candidates cell realm d := by
  simp [candidates_of, base, candidates]

theorem strcmp_chars_eq_zero_iff (a b : List Char) : strcmp_chars a b = 0 ↔ a = b := by
  induction a generalizing b with
  | nil => cases b <;> simp [strcmp_chars]
  | cons c cs ih =>
    cases b with
    | nil => simp [strcmp_chars]
    | cons d ds =>
      simp only [strcmp_chars]
      by_cases h : c = d
      · simp [h, ih]
      · simp only [if_neg h]
        split <;> simp [h]

theorem strcmp_eq_zero_iff (a b : String) : strcmp a b = 0 ↔ a = b := by
  simp [strcmp, strcmp_chars_eq_zero_iff, String.ext_iff]

theorem strcasecmp_self (a : String) : strcasecmp a a = 0 := by
  simp [strcasecmp, strcmp_chars_eq_zero_iff]

theorem sir_data (b c r : String) :
    (sprintf_service_instance_realm b c r).data = b.data ++ '/' :: (c.data ++ '@' :: r.data) := by
  simp [sprintf_service_instance_realm, String.data_append]

theorem sr_data (b r : String) :
    (sprintf_service_realm b r).data = b.data ++ '@' :: r.data := by
  simp [sprintf_service_realm, String.data_append]

theorem sir_inj_realm (b c r r2 : String)
    (h : sprintf_service_instance_realm b c r = sprintf_service_instance_realm b c r2) : r = r2 := by
  have := congrArg String.data h
  simp [sir_data] at this
  exact String.ext this


theorem minikafs_5log_eq {σ : Type} (cfg : Config) (log5 : Call5 → σ → Int × σ) (e : Env5)
    (context ccache : Nat) (cell : String) (uid : Nat) (try_v5_2b : Int) (s : σ)
    (h : reaches_loop5 e context ccache) :
    ((minikafs_5log cfg log5 e context ccache cell uid try_v5_2b s).ret,
      (minikafs_5log cfg log5 e context ccache cell uid try_v5_2b s).attempts,
      (minikafs_5log cfg log5 e context ccache cell uid try_v5_2b s).state)
    = run_until_zero log5
        ((candidates cell (realm5 cfg e context cell) (defaultrealm5 e)).map
          (fun p => (⟨ctx5 e context, use_ccache5 ccache, cell, p, uid, try_v5_2b⟩ : Call5)))
        (-1) s := by
  obtain ⟨h1, h2, h3⟩ := h
  have h2' : ¬ (context = 0 ∧ e.init_context.1 ≠ 0) := fun hh => hh.2 (h2 hh.1)
  have h3' : ¬ (ccache = 0 ∧ e.cc_default.1 ≠ 0) := fun hh => hh.2 (h3 hh.1)
  simp only [minikafs_5log, h1, if_neg h2', if_neg h3', Bool.true_eq_false, if_false]
  rw [loop5_eq, candidates_of_base]
  rfl

theorem minikafs_5log_no_loop {σ : Type} (cfg : Config) (log5 : Call5 → σ → Int × σ) (e : Env5)
    (context ccache : Nat) (cell : String) (uid : Nat) (try_v5_2b : Int) (s : σ)
    (h : ¬ reaches_loop5 e context ccache) :
    (minikafs_5log cfg log5 e context ccache cell uid try_v5_2b s).ret = -1 ∧
      (minikafs_5log cfg log5 e context ccache cell uid try_v5_2b s).attempts = [] := by
  unfold reaches_loop5 at h
  unfold minikafs_5log
  by_cases h1 : e.malloc_ok = false
  · simp [h1]
  · by_cases h2 : context = 0 ∧ e.init_context.1 ≠ 0
    · simp [h1, h2]
    · by_cases h3 : ccache = 0 ∧ e.cc_default.1 ≠ 0
      · simp [h1, h2, h3]
      · exfalso
        apply h
        refine ⟨by simpa using h1, ?_, ?_⟩
        · intro hc; by_contra hh; exact h2 ⟨hc, hh⟩
        · intro hc; by_contra hh; exact h3 ⟨hc, hh⟩

theorem sir_afs (c r : String) :
    sprintf_service_instance_realm "afs" c r = "afs/" ++ c ++ "@" ++ r := by
  simp [sprintf_service_instance_realm, String.append_assoc]

theorem sir_afsx (c r : String) :
    sprintf_service_instance_realm "afsx" c r = "afsx/" ++ c ++ "@" ++ r := by
  simp [sprintf_service_instance_realm, String.append_assoc]

theorem sr_afs (r : String) : sprintf_service_realm "afs" r = "afs@" ++ r := by
  simp [sprintf_service_realm]

theorem sr_afsx (r : String) : sprintf_service_realm "afsx" r = "afsx@" ++ r := by
  simp [sprintf_service_realm]

/-- When the candidates fit the buffer, so does every principal name that
`minikafs_5log` formats. -/
theorem attempts_fit {σ : Type} (cfg : Config) (log5 : Call5 → σ → Int × σ) (e : Env5)
    (context ccache : Nat) (cell : String) (uid : Nat) (try_v5_2b : Int) (s : σ)
    (hfit : principal_fits cell (realm5 cfg e context cell) (defaultrealm5 e)) :
    ∀ a ∈ (minikafs_5log cfg log5 e context ccache cell uid try_v5_2b s).attempts,
      strlen a.1.principal + 1 ≤ principal_size cell := by
  by_cases hsetup : reaches_loop5 e context ccache
  · have heq := minikafs_5log_eq cfg log5 e context ccache cell uid try_v5_2b s hsetup
    have h2 : (minikafs_5log cfg log5 e context ccache cell uid try_v5_2b s).attempts
        = (run_until_zero log5
          ((candidates cell (realm5 cfg e context cell) (defaultrealm5 e)).map
            (fun p => (⟨ctx5 e context, use_ccache5 ccache, cell, p, uid, try_v5_2b⟩ : Call5)))
          (-1) s).2.1 := by rw [← heq]
    intro a ha
    rw [h2] at ha
    have h3 : a.1 ∈ ((run_until_zero log5
          ((candidates cell (realm5 cfg e context cell) (defaultrealm5 e)).map
            (fun p => (⟨ctx5 e context, use_ccache5 ccache, cell, p, uid, try_v5_2b⟩ : Call5)))
          (-1) s).2.1.map Prod.fst) := List.mem_map_of_mem _ ha
    rw [ruz_map_fst] at h3
    have h4 := List.mem_of_mem_take h3
    obtain ⟨q, hq, hqa⟩ := List.mem_map.1 h4
    rw [← hqa]
    exact hfit q hq
  · intro a ha
    rw [(minikafs_5log_no_loop cfg log5 e context ccache cell uid try_v5_2b s hsetup).2] at ha
    simp at ha

/-! ## C1: order of the attempts when realm, cell and default realm all differ -/

/-- C1.  When the calls before the loop succeed, the realm in the `realm`
buffer is `R` with `strcasecmp(R, cell) != 0`, the default realm is `D` with
`D` different from `R`, the candidate principals fit the buffer `principal`,
and every call of `minikafs_5log_with_principal` fails, then every principal
name written fits the buffer, `minikafs_5log` attempts exactly the principals
`afs/cell@R`, `afs/cell@D`, `afsx/cell@R`, `afsx/cell@D`, in this order (no
null-instance form), and returns a nonzero value. -/
theorem C1_cascade_order {σ : Type} (cfg : Config) (log5 : Call5 → σ → Int × σ) (e : Env5)
    (context ccache : Nat) (cell : String) (uid : Nat) (try_v5_2b : Int) (s : σ)
    (R D : String)
    (hsetup : reaches_loop5 e context ccache)
    (hR : realm5 cfg e context cell = R)
    (hRcell : strcasecmp R cell ≠ 0)
    (hD : defaultrealm5 e = some D)
    (hDR : D ≠ R)
    (hfit : principal_fits cell (realm5 cfg e context cell) (defaultrealm5 e))
    (hfail : ∀ c t, (log5 c t).1 ≠ 0) :
    (∀ a ∈ (minikafs_5log cfg log5 e context ccache cell uid try_v5_2b s).attempts,
      strlen a.1.principal + 1 ≤ principal_size cell)
    ∧ (minikafs_5log cfg log5 e context ccache cell uid try_v5_2b s).attempts.map
        (fun a => a.1.principal)
      = ["afs/" ++ cell ++ "@" ++ R, "afs/" ++ cell ++ "@" ++ D,
         "afsx/" ++ cell ++ "@" ++ R, "afsx/" ++ cell ++ "@" ++ D]
    ∧ (minikafs_5log cfg log5 e context ccache cell uid try_v5_2b s).ret ≠ 0 := by
  refine ⟨attempts_fit cfg log5 e context ccache cell uid try_v5_2b s hfit, ?_⟩
  have heq := minikafs_5log_eq cfg log5 e context ccache cell uid try_v5_2b s hsetup
  have hall := ruz_all_fail log5
    ((candidates cell (realm5 cfg e context cell) (defaultrealm5 e)).map
      (fun p => (⟨ctx5 e context, use_ccache5 ccache, cell, p, uid, try_v5_2b⟩ : Call5)))
    (-1) s (by decide) hfail
  rw [← heq] at hall
  simp only at hall
  have hd : strcmp D R ≠ 0 := fun h => hDR ((strcmp_eq_zero_iff D R).1 h)
  refine ⟨?_, hall.2⟩
  have h1 := congrArg (List.map Call5.principal) hall.1
  simp only [List.map_map] at h1
  have : (Call5.principal ∘ Prod.fst : Call5 × Int → String) = fun a => a.1.principal := rfl
  rw [this] at h1
  rw [h1, hR, hD]
  simp [candidates, candidates_for, hRcell, hd, sir_afs, sir_afsx, Function.comp]

/-- Witness for C1: cell `cell.example.org` in realm `EXAMPLE.NET`, default
realm `EXAMPLE.COM`, every attempt failing. -/
theorem C1_cascade_order_witness :
    (minikafs_5log (σ := Unit) ⟨true, 4096⟩ (fun _ t => (-1, t))
        ⟨true, (0, 7), (0, "EXAMPLE.COM"), ⟨true, 0, 0, 0, 0, "EXAMPLE.NET"⟩, (0, 9)⟩
        7 9 "cell.example.org" 1000 0 ()).attempts.map (fun a => a.1.principal)
      = ["afs/" ++ "cell.example.org" ++ "@" ++ "EXAMPLE.NET",
         "afs/" ++ "cell.example.org" ++ "@" ++ "EXAMPLE.COM",
         "afsx/" ++ "cell.example.org" ++ "@" ++ "EXAMPLE.NET",
         "afsx/" ++ "cell.example.org" ++ "@" ++ "EXAMPLE.COM"]
    ∧ (minikafs_5log (σ := Unit) ⟨true, 4096⟩ (fun _ t => (-1, t))
        ⟨true, (0, 7), (0, "EXAMPLE.COM"), ⟨true, 0, 0, 0, 0, "EXAMPLE.NET"⟩, (0, 9)⟩
        7 9 "cell.example.org" 1000 0 ()).ret ≠ 0 :=
  (C1_cascade_order ⟨true, 4096⟩ (fun _ t => (-1, t))
    ⟨true, (0, 7), (0, "EXAMPLE.COM"), ⟨true, 0, 0, 0, 0, "EXAMPLE.NET"⟩, (0, 9)⟩
    7 9 "cell.example.org" 1000 0 () "EXAMPLE.NET" "EXAMPLE.COM"
    (by decide) (by decide) (by decide) (by decide) (by decide) (by decide)
    (by intro c t; simp)).2

theorem sir_eq_sir_iff (b c r r2 : String) :
    sprintf_service_instance_realm b c r = sprintf_service_instance_realm b c r2 ↔ r = r2 :=
  ⟨sir_inj_realm b c r r2, fun h => by rw [h]⟩

theorem sir_afs_ne_sr_afs (c r d : String) :
    sprintf_service_instance_realm "afs" c r ≠ sprintf_service_realm "afs" d := by
  intro h
  have := congrArg String.data h
  simp [sir_data, sr_data] at this

theorem sir_afs_ne_sr_afsx (c r d : String) :
    sprintf_service_instance_realm "afs" c r ≠ sprintf_service_realm "afsx" d := by
  intro h
  have := congrArg String.data h
  simp [sir_data, sr_data] at this

theorem sir_afsx_ne_sr_afs (c r d : String) :
    sprintf_service_instance_realm "afsx" c r ≠ sprintf_service_realm "afs" d := by
  intro h
  have := congrArg String.data h
  simp [sir_data, sr_data] at this

theorem sir_afsx_ne_sr_afsx (c r d : String) :
    sprintf_service_instance_realm "afsx" c r ≠ sprintf_service_realm "afsx" d := by
  intro h
  have := congrArg String.data h
  simp [sir_data, sr_data] at this

theorem sir_afs_ne_sir_afsx (c r d : String) :
    sprintf_service_instance_realm "afs" c r ≠ sprintf_service_instance_realm "afsx" c d := by
  intro h
  have := congrArg String.data h
  simp [sir_data, sr_data] at this

theorem sir_afsx_ne_sir_afs (c r d : String) :
    sprintf_service_instance_realm "afsx" c r ≠ sprintf_service_instance_realm "afs" c d :=
  fun h => sir_afs_ne_sir_afsx c d r h.symm

theorem candidates_own_then_null (cell R : String) (d : Option String) (b : String)
    (hb : b = "afs" ∨ b = "afsx") (hRcell : strcasecmp R cell = 0) (i : Nat)
    (h : (candidates cell R d)[i]? = some (sprintf_service_instance_realm b cell R)) :
    (candidates cell R d)[i + 1]? = some (sprintf_service_realm b R) := by
  have e1 := sir_afs_ne_sr_afs
  have e2 := sir_afs_ne_sr_afsx
  have e3 := sir_afsx_ne_sr_afs
  have e4 := sir_afsx_ne_sr_afsx
  have e5 := sir_afs_ne_sir_afsx
  have e6 := sir_afsx_ne_sir_afs
  rcases hb with rfl | rfl
  · cases d with
    | none =>
      simp only [candidates, candidates_for, hRcell, if_true] at h ⊢
      rcases i with _ | _ | _ | _ | i <;>
        simp_all [sir_eq_sir_iff, eq_comm]
    | some D =>
      by_cases hd : strcmp D R = 0
      · simp only [candidates, candidates_for, hRcell, hd, if_true] at h ⊢
        rcases i with _ | _ | _ | _ | i <;>
          simp_all [sir_eq_sir_iff, eq_comm]
      · have hDR : ¬ D = R := fun hh => hd ((strcmp_eq_zero_iff D R).2 hh)
        have hRD : ¬ R = D := fun hh => hDR hh.symm
        simp only [candidates, candidates_for, hRcell, hd, if_true] at h ⊢
        rcases i with _ | _ | _ | _ | _ | _ | i <;>
          simp_all [sir_eq_sir_iff, eq_comm]
  · cases d with
    | none =>
      simp only [candidates, candidates_for, hRcell, if_true] at h ⊢
      rcases i with _ | _ | _ | _ | i <;>
        simp_all [sir_eq_sir_iff, eq_comm]
    | some D =>
      by_cases hd : strcmp D R = 0
      · simp only [candidates, candidates_for, hRcell, hd, if_true] at h ⊢
        rcases i with _ | _ | _ | _ | i <;>
          simp_all [sir_eq_sir_iff, eq_comm]
      · have hDR : ¬ D = R := fun hh => hd ((strcmp_eq_zero_iff D R).2 hh)
        have hRD : ¬ R = D := fun hh => hDR hh.symm
        simp only [candidates, candidates_for, hRcell, hd, if_true] at h ⊢
        rcases i with _ | _ | _ | _ | _ | _ | i <;>
          simp_all [sir_eq_sir_iff, eq_comm]

theorem candidates_default_after_null (cell R D : String) (b : String)
    (hb : b = "afs" ∨ b = "afsx") (hRcell : strcasecmp R cell = 0) (hDR : D ≠ R) (j : Nat)
    (h : (candidates cell R (some D))[j]? = some (sprintf_service_instance_realm b cell D)) :
    ∃ i, j = i + 1 ∧ (candidates cell R (some D))[i]? = some (sprintf_service_realm b R) := by
  have e1 := sir_afs_ne_sr_afs
  have e2 := sir_afs_ne_sr_afsx
  have e3 := sir_afsx_ne_sr_afs
  have e4 := sir_afsx_ne_sr_afsx
  have e5 := sir_afs_ne_sir_afsx
  have e6 := sir_afsx_ne_sir_afs
  have hd : ¬ strcmp D R = 0 := fun hh => hDR ((strcmp_eq_zero_iff D R).1 hh)
  have hRD : ¬ R = D := fun hh => hDR hh.symm
  rcases hb with rfl | rfl
  · simp only [candidates, candidates_for, hRcell, hd, if_true] at h ⊢
    rcases j with _ | _ | _ | _ | _ | _ | j <;>
      simp_all [sir_eq_sir_iff, eq_comm]
  · simp only [candidates, candidates_for, hRcell, hd, if_true] at h ⊢
    rcases j with _ | _ | _ | _ | _ | _ | j <;>
      simp_all [sir_eq_sir_iff, eq_comm]

theorem attempts_getElem_candidate {σ : Type} (cfg : Config) (log5 : Call5 → σ → Int × σ)
    (e : Env5) (context ccache : Nat) (cell : String) (uid : Nat) (try_v5_2b : Int) (s : σ)
    (hsetup : reaches_loop5 e context ccache) (i : Nat) (x : Call5 × Int)
    (h : (minikafs_5log cfg log5 e context ccache cell uid try_v5_2b s).attempts[i]? = some x) :
    (candidates cell (realm5 cfg e context cell) (defaultrealm5 e))[i]? = some x.1.principal := by
  have heq := minikafs_5log_eq cfg log5 e context ccache cell uid try_v5_2b s hsetup
  have h2 : (minikafs_5log cfg log5 e context ccache cell uid try_v5_2b s).attempts
      = (run_until_zero log5
        ((candidates cell (realm5 cfg e context cell) (defaultrealm5 e)).map
          (fun p => (⟨ctx5 e context, use_ccache5 ccache, cell, p, uid, try_v5_2b⟩ : Call5)))
        (-1) s).2.1 := by rw [← heq]
  rw [h2] at h
  have h3 := ruz_getElem_fst log5 _ _ _ i x h
  rw [List.getElem?_map] at h3
  cases hc : (candidates cell (realm5 cfg e context cell) (defaultrealm5 e))[i]? with
  | none => rw [hc] at h3; simp at h3
  | some p =>
    rw [hc] at h3
    simp at h3
    rw [← h3]

/-! ## C2: the null instance comes before the default realm -/

/-- C2.  When the calls before the loop succeed, the realm `R` in the `realm`
buffer has `strcasecmp(R, cell) == 0` and the candidate principals fit the
buffer `principal`, then every principal name written fits the buffer, and for
each service name `b` (`afs`, `afsx`) and whatever the attempts return: an
attempt of `b/cell@R` that fails is immediately followed by an attempt of the
null-instance principal `b@R`; and an attempt of the default-realm form
`b/cell@D` (`D` the default realm, different from `R`) is immediately preceded
by an attempt of `b@R` that failed. -/
theorem C2_null_instance_before_default {σ : Type} (cfg : Config)
    (log5 : Call5 → σ → Int × σ) (e : Env5) (context ccache : Nat) (cell : String)
    (uid : Nat) (try_v5_2b : Int) (s : σ) (R b : String)
    (hsetup : reaches_loop5 e context ccache)
    (hR : realm5 cfg e context cell = R)
    (hRcell : strcasecmp R cell = 0)
    (hfit : principal_fits cell (realm5 cfg e context cell) (defaultrealm5 e))
    (hb : b = "afs" ∨ b = "afsx") :
    (∀ a ∈ (minikafs_5log cfg log5 e context ccache cell uid try_v5_2b s).attempts,
      strlen a.1.principal + 1 ≤ principal_size cell)
    ∧ (∀ (i : Nat) (x : Call5 × Int), (minikafs_5log cfg log5 e context ccache cell uid try_v5_2b s).attempts[i]? = some x →
        x.1.principal = b ++ "/" ++ cell ++ "@" ++ R → x.2 ≠ 0 →
        ∃ y, (minikafs_5log cfg log5 e context ccache cell uid try_v5_2b s).attempts[i + 1]?
            = some y ∧ y.1.principal = b ++ "@" ++ R)
    ∧ (∀ (D : String) (j : Nat) (x : Call5 × Int), defaultrealm5 e = some D → D ≠ R →
        (minikafs_5log cfg log5 e context ccache cell uid try_v5_2b s).attempts[j]? = some x →
        x.1.principal = b ++ "/" ++ cell ++ "@" ++ D →
        ∃ i y, j = i + 1 ∧
          (minikafs_5log cfg log5 e context ccache cell uid try_v5_2b s).attempts[i]? = some y
          ∧ y.1.principal = b ++ "@" ++ R ∧ y.2 ≠ 0) := by
  refine ⟨attempts_fit cfg log5 e context ccache cell uid try_v5_2b s hfit, ?_⟩
  have heq := minikafs_5log_eq cfg log5 e context ccache cell uid try_v5_2b s hsetup
  have h2 : (minikafs_5log cfg log5 e context ccache cell uid try_v5_2b s).attempts
      = (run_until_zero log5
        ((candidates cell (realm5 cfg e context cell) (defaultrealm5 e)).map
          (fun p => (⟨ctx5 e context, use_ccache5 ccache, cell, p, uid, try_v5_2b⟩ : Call5)))
        (-1) s).2.1 := by rw [← heq]
  constructor
  · intro i x hx hp hfail
    have hc := attempts_getElem_candidate cfg log5 e context ccache cell uid try_v5_2b s hsetup i x hx
    rw [hR, hp] at hc
    have hnext := candidates_own_then_null cell R (defaultrealm5 e) b hb hRcell i hc
    have hlen : i + 1 < ((candidates cell (realm5 cfg e context cell) (defaultrealm5 e)).map
          (fun p => (⟨ctx5 e context, use_ccache5 ccache, cell, p, uid, try_v5_2b⟩ : Call5))).length := by
      rw [List.length_map, hR]
      exact (List.getElem?_eq_some.1 hnext).1
    have hx2 := hx
    rw [h2] at hx2
    obtain ⟨y, hy2⟩ := ruz_next log5 _ _ _ i x hx2 hfail hlen
    have hy := hy2
    rw [← h2] at hy
    refine ⟨y, hy, ?_⟩
    have hcy := attempts_getElem_candidate cfg log5 e context ccache cell uid try_v5_2b s hsetup (i + 1) y hy
    rw [hR, hnext] at hcy
    simp at hcy
    rw [← hcy]
    rfl
  · intro D j x hD hDR hx hp
    have hc := attempts_getElem_candidate cfg log5 e context ccache cell uid try_v5_2b s hsetup j x hx
    rw [hR, hD, hp] at hc
    obtain ⟨i, hji, hi⟩ := candidates_default_after_null cell R D b hb hRcell hDR j hc
    subst hji
    have hilt : i < (minikafs_5log cfg log5 e context ccache cell uid try_v5_2b s).attempts.length := by
      have := (List.getElem?_eq_some.1 hx).1
      omega
    have hy : (minikafs_5log cfg log5 e context ccache cell uid try_v5_2b s).attempts[i]?
        = some ((minikafs_5log cfg log5 e context ccache cell uid try_v5_2b s).attempts[i]) :=
      List.getElem?_eq_getElem hilt
    refine ⟨i, _, rfl, hy, ?_, ?_⟩
    · have hcy := attempts_getElem_candidate cfg log5 e context ccache cell uid try_v5_2b s hsetup i _ hy
      rw [hR, hD, hi] at hcy
      simp at hcy
      rw [← hcy]
      rfl
    · have hx2 := hx
      rw [h2] at hx2
      have hy2 : (run_until_zero log5
        ((candidates cell (realm5 cfg e context cell) (defaultrealm5 e)).map
          (fun p => (⟨ctx5 e context, use_ccache5 ccache, cell, p, uid, try_v5_2b⟩ : Call5)))
        (-1) s).2.1[i]? = some ((minikafs_5log cfg log5 e context ccache cell uid try_v5_2b s).attempts[i]) := by
        rw [← h2]; exact hy
      exact ruz_prev_failed log5 _ _ _ i _ x hy2 hx2

/-- Witness for C2: cell `example.org` in realm `EXAMPLE.ORG`, every attempt
failing; the attempt after `afs/example.org@EXAMPLE.ORG` is `afs@EXAMPLE.ORG`. -/
theorem C2_null_instance_before_default_witness :
    reaches_loop5 ⟨true, (0, 7), (0, "EXAMPLE.COM"), ⟨true, 0, 0, 0, 0, "EXAMPLE.ORG"⟩, (0, 9)⟩ 7 9
    ∧ strcasecmp "EXAMPLE.ORG" "example.org" = 0
    ∧ ∃ y, (minikafs_5log (σ := Unit) ⟨true, 4096⟩ (fun _ t => (-1, t))
        ⟨true, (0, 7), (0, "EXAMPLE.COM"), ⟨true, 0, 0, 0, 0, "EXAMPLE.ORG"⟩, (0, 9)⟩
        7 9 "example.org" 1000 0 ()).attempts[0 + 1]? = some y
      ∧ y.1.principal = "afs" ++ "@" ++ "EXAMPLE.ORG" :=
  ⟨by decide, by decide,
    (C2_null_instance_before_default (σ := Unit) ⟨true, 4096⟩ (fun _ t => (-1, t))
      ⟨true, (0, 7), (0, "EXAMPLE.COM"), ⟨true, 0, 0, 0, 0, "EXAMPLE.ORG"⟩, (0, 9)⟩
      7 9 "example.org" 1000 0 () "EXAMPLE.ORG" "afs"
      (by decide) (by decide) (by decide) (by decide) (Or.inl rfl)).2.1 0
      (⟨7, 9, "example.org", "afs/example.org@EXAMPLE.ORG", 1000, 0⟩, -1)
      (by decide) (by decide) (by decide)⟩

/-! ## C3: the cascade stops at the first success -/

/-- C3.  For every cell, realm and default realm whose candidate principals
fit the buffer `principal`, and every behaviour of the attempts: every
principal name written fits the buffer; no attempt of `minikafs_5log` follows
an attempt that returned `0`; `minikafs_5log` returns `0` exactly when some
attempt returned `0`; and when the calls before the loop succeed and the first
candidate `afs/cell@realm` succeeds, exactly one attempt is made, that of
`afs/cell@realm`, and the result is `0`. -/
theorem C3_short_circuit {σ : Type} (cfg : Config) (log5 : Call5 → σ → Int × σ) (e : Env5)
    (context ccache : Nat) (cell : String) (uid : Nat) (try_v5_2b : Int) (s : σ)
    (hfit : principal_fits cell (realm5 cfg e context cell) (defaultrealm5 e)) :
    (∀ a ∈ (minikafs_5log cfg log5 e context ccache cell uid try_v5_2b s).attempts,
      strlen a.1.principal + 1 ≤ principal_size cell)
    ∧ (∀ (pre post : List (Call5 × Int)) (x : Call5 × Int),
        (minikafs_5log cfg log5 e context ccache cell uid try_v5_2b s).attempts
          = pre ++ x :: post → x.2 = 0 → post = [])
    ∧ ((minikafs_5log cfg log5 e context ccache cell uid try_v5_2b s).ret = 0 ↔
        ∃ x ∈ (minikafs_5log cfg log5 e context ccache cell uid try_v5_2b s).attempts, x.2 = 0)
    ∧ (reaches_loop5 e context ccache →
        (log5 ⟨ctx5 e context, use_ccache5 ccache, cell,
          "afs/" ++ cell ++ "@" ++ realm5 cfg e context cell, uid, try_v5_2b⟩ s).1 = 0 →
        (minikafs_5log cfg log5 e context ccache cell uid try_v5_2b s).attempts.map
            (fun a => a.1.principal) = ["afs/" ++ cell ++ "@" ++ realm5 cfg e context cell]
        ∧ (minikafs_5log cfg log5 e context ccache cell uid try_v5_2b s).attempts.length = 1
        ∧ (minikafs_5log cfg log5 e context ccache cell uid try_v5_2b s).ret = 0) := by
  refine ⟨attempts_fit cfg log5 e context ccache cell uid try_v5_2b s hfit, ?_⟩
  by_cases hsetup : reaches_loop5 e context ccache
  · have heq := minikafs_5log_eq cfg log5 e context ccache cell uid try_v5_2b s hsetup
    have h2 : (minikafs_5log cfg log5 e context ccache cell uid try_v5_2b s).attempts
        = (run_until_zero log5
          ((candidates cell (realm5 cfg e context cell) (defaultrealm5 e)).map
            (fun p => (⟨ctx5 e context, use_ccache5 ccache, cell, p, uid, try_v5_2b⟩ : Call5)))
          (-1) s).2.1 := by rw [← heq]
    have h1 : (minikafs_5log cfg log5 e context ccache cell uid try_v5_2b s).ret
        = (run_until_zero log5
          ((candidates cell (realm5 cfg e context cell) (defaultrealm5 e)).map
            (fun p => (⟨ctx5 e context, use_ccache5 ccache, cell, p, uid, try_v5_2b⟩ : Call5)))
          (-1) s).1 := by rw [← heq]
    refine ⟨?_, ?_, ?_⟩
    · intro pre post x hx h0
      rw [h2] at hx
      exact ruz_stop log5 _ _ _ pre post x hx h0
    · rw [h1, h2]
      exact ruz_ret_zero_iff log5 _ _ _ (by decide)
    · intro _ hfirst
      rw [h1, h2]
      simp only [candidates, candidates_for, List.append_assoc, List.singleton_append,
        List.map_cons, sir_afs, run_until_zero, if_pos hfirst]
      simp [hfirst]
  · obtain ⟨hr, ha⟩ := minikafs_5log_no_loop cfg log5 e context ccache cell uid try_v5_2b s hsetup
    refine ⟨?_, ?_, ?_⟩
    · intro pre post x hx
      rw [ha] at hx
      simp at hx
    · rw [hr, ha]; simp
    · intro h; exact absurd h hsetup

/-- Witness for C3: cell `example.org` resolves to realm `EXAMPLE.ORG` and the
attempt of `afs/example.org@EXAMPLE.ORG` succeeds; one attempt is made. -/
theorem C3_short_circuit_witness :
    reaches_loop5 ⟨true, (0, 7), (0, "EXAMPLE.COM"), ⟨true, 0, 0, 0, 0, "EXAMPLE.ORG"⟩, (0, 9)⟩ 7 9
    ∧ (minikafs_5log (σ := Unit) ⟨true, 4096⟩
        (fun c t => (if c.principal = "afs/example.org@EXAMPLE.ORG" then 0 else -1, t))
        ⟨true, (0, 7), (0, "EXAMPLE.COM"), ⟨true, 0, 0, 0, 0, "EXAMPLE.ORG"⟩, (0, 9)⟩
        7 9 "example.org" 1000 1 ()).attempts.length = 1 :=
  ⟨by decide,
    ((C3_short_circuit (σ := Unit) ⟨true, 4096⟩
        (fun c t => (if c.principal = "afs/example.org@EXAMPLE.ORG" then 0 else -1, t))
        ⟨true, (0, 7), (0, "EXAMPLE.COM"), ⟨true, 0, 0, 0, 0, "EXAMPLE.ORG"⟩, (0, 9)⟩
        7 9 "example.org" 1000 1 () (by decide)).2.2.2 (by decide) (by decide)).2.1⟩

theorem strncpy_term_short (src : String) (size : Nat) (h : src.length < size) :
    strncpy_term src size = src := by
  unfold strncpy_term
  have : src.data.length ≤ size - 1 := by
    have : src.data.length = src.length := rfl
    omega
  rw [List.take_of_length_le this]

theorem candidates_self (cell : String) (d : Option String) :
    candidates cell cell d = fallback_candidates cell d := by
  cases d with
  | none =>
    simp [candidates, candidates_for, fallback_candidates, strcasecmp_self, sir_afs, sir_afsx,
      sr_afs, sr_afsx]
  | some D =>
    by_cases h : D = cell
    · simp [candidates, candidates_for, fallback_candidates, strcasecmp_self, sir_afs, sir_afsx,
        sr_afs, sr_afsx, h, strcmp_eq_zero_iff]
    · simp [candidates, candidates_for, fallback_candidates, strcasecmp_self, sir_afs, sir_afsx,
        sr_afs, sr_afsx, h, strcmp_eq_zero_iff]

theorem attempts_principals {σ : Type} (cfg : Config) (log5 : Call5 → σ → Int × σ)
    (e : Env5) (context ccache : Nat) (cell : String) (uid : Nat) (try_v5_2b : Int) (s : σ)
    (hsetup : reaches_loop5 e context ccache) :
    (minikafs_5log cfg log5 e context ccache cell uid try_v5_2b s).attempts.map
        (fun a => a.1.principal)
      = (candidates cell (realm5 cfg e context cell) (defaultrealm5 e)).take
          (minikafs_5log cfg log5 e context ccache cell uid try_v5_2b s).attempts.length := by
  have heq := minikafs_5log_eq cfg log5 e context ccache cell uid try_v5_2b s hsetup
  have h2 : (minikafs_5log cfg log5 e context ccache cell uid try_v5_2b s).attempts
      = (run_until_zero log5
        ((candidates cell (realm5 cfg e context cell) (defaultrealm5 e)).map
          (fun p => (⟨ctx5 e context, use_ccache5 ccache, cell, p, uid, try_v5_2b⟩ : Call5)))
        (-1) s).2.1 := by rw [← heq]
  have h := congrArg (List.map Call5.principal) (ruz_map_fst log5
      ((candidates cell (realm5 cfg e context cell) (defaultrealm5 e)).map
          (fun p => (⟨ctx5 e context, use_ccache5 ccache, cell, p, uid, try_v5_2b⟩ : Call5)))
      (-1) s)
  rw [← h2] at h
  rw [List.map_map, ← List.map_take, List.map_map] at h
  have hid : (Call5.principal ∘ fun p =>
      (⟨ctx5 e context, use_ccache5 ccache, cell, p, uid, try_v5_2b⟩ : Call5)) = id := rfl
  rw [hid, List.map_id] at h
  exact h

theorem attempts_principals_all {σ : Type} (cfg : Config) (log5 : Call5 → σ → Int × σ)
    (e : Env5) (context ccache : Nat) (cell : String) (uid : Nat) (try_v5_2b : Int) (s : σ)
    (hsetup : reaches_loop5 e context ccache)
    (hfail : ∀ x ∈ (minikafs_5log cfg log5 e context ccache cell uid try_v5_2b s).attempts,
      x.2 ≠ 0) :
    (minikafs_5log cfg log5 e context ccache cell uid try_v5_2b s).attempts.map
        (fun a => a.1.principal)
      = candidates cell (realm5 cfg e context cell) (defaultrealm5 e) := by
  have heq := minikafs_5log_eq cfg log5 e context ccache cell uid try_v5_2b s hsetup
  have h2 : (minikafs_5log cfg log5 e context ccache cell uid try_v5_2b s).attempts
      = (run_until_zero log5
        ((candidates cell (realm5 cfg e context cell) (defaultrealm5 e)).map
          (fun p => (⟨ctx5 e context, use_ccache5 ccache, cell, p, uid, try_v5_2b⟩ : Call5)))
        (-1) s).2.1 := by rw [← heq]
  rw [h2] at hfail
  have h := congrArg (List.map Call5.principal) (ruz_exhaust log5 _ _ _ hfail)
  rw [← h2] at h
  rw [List.map_map, List.map_map] at h
  have hid : (Call5.principal ∘ fun p =>
      (⟨ctx5 e context, use_ccache5 ccache, cell, p, uid, try_v5_2b⟩ : Call5)) = id := rfl
  rw [hid, List.map_id] at h
  exact h

/-! ## C4: the cell name as realm when the realm lookup fails -/

/-- C4 (amended).  When the calls before the loop succeed, the realm lookup
`minikafs_realm_of_cell_with_ctx` returns nonzero, the cell name is shorter
than `PATH_MAX` and the candidate principals fit the buffer `principal`, then
every principal name written fits the buffer, `minikafs_5log` uses the cell
name itself as the realm, and the principals it attempts are an initial part
of `afs/cell@cell`, `afs@cell`, `afs/cell@default` (when there is a default
realm other than the cell name), `afsx/cell@cell`, `afsx@cell`,
`afsx/cell@default`; when no attempt succeeds it attempts all of them. -/
theorem C4_fallback_realm {σ : Type} (cfg : Config) (log5 : Call5 → σ → Int × σ)
    (e : Env5) (context ccache : Nat) (cell : String) (uid : Nat) (try_v5_2b : Int) (s : σ)
    (hsetup : reaches_loop5 e context ccache)
    (hfail : (minikafs_realm_of_cell_with_ctx e.realm (ctx5 e context) "" cfg.path_max).1 ≠ 0)
    (hlen : cell.length < cfg.path_max)
    (hfit : principal_fits cell (realm5 cfg e context cell) (defaultrealm5 e)) :
    (∀ a ∈ (minikafs_5log cfg log5 e context ccache cell uid try_v5_2b s).attempts,
      strlen a.1.principal + 1 ≤ principal_size cell)
    ∧ realm5 cfg e context cell = cell
    ∧ (minikafs_5log cfg log5 e context ccache cell uid try_v5_2b s).attempts.map
          (fun a => a.1.principal)
        = (fallback_candidates cell (defaultrealm5 e)).take
            (minikafs_5log cfg log5 e context ccache cell uid try_v5_2b s).attempts.length
    ∧ ((∀ x ∈ (minikafs_5log cfg log5 e context ccache cell uid try_v5_2b s).attempts,
          x.2 ≠ 0) →
        (minikafs_5log cfg log5 e context ccache cell uid try_v5_2b s).attempts.map
          (fun a => a.1.principal) = fallback_candidates cell (defaultrealm5 e)) := by
  have hrealm : realm5 cfg e context cell = cell := by
    simp only [realm5, realm_buffer, if_pos hfail]
    exact strncpy_term_short cell cfg.path_max hlen
  refine ⟨attempts_fit cfg log5 e context ccache cell uid try_v5_2b s hfit, hrealm, ?_, ?_⟩
  · rw [attempts_principals cfg log5 e context ccache cell uid try_v5_2b s hsetup, hrealm,
      candidates_self]
  · intro hall
    rw [attempts_principals_all cfg log5 e context ccache cell uid try_v5_2b s hsetup hall,
      hrealm, candidates_self]

/-- Witness for C4: the `whereis` pioctl fails for cell `example.org`, whose
name then serves as the realm. -/
theorem C4_fallback_realm_witness :
    reaches_loop5 ⟨true, (0, 7), (0, "EXAMPLE.COM"), ⟨true, -1, 0, 0, 0, ""⟩, (0, 9)⟩ 7 9
    ∧ realm5 ⟨true, 4096⟩
        ⟨true, (0, 7), (0, "EXAMPLE.COM"), ⟨true, -1, 0, 0, 0, ""⟩, (0, 9)⟩ 7 "example.org"
      = "example.org" :=
  ⟨by decide,
    (C4_fallback_realm (σ := Unit) ⟨true, 4096⟩ (fun _ t => (-1, t))
      ⟨true, (0, 7), (0, "EXAMPLE.COM"), ⟨true, -1, 0, 0, 0, ""⟩, (0, 9)⟩
      7 9 "example.org" 1000 0 () (by decide) (by decide) (by decide) (by decide)).2.1⟩

theorem realm5_truncates (cfg : Config) (e : Env5) (context : Nat) (cell : String)
    (hfail : (minikafs_realm_of_cell_with_ctx e.realm (ctx5 e context) "" cfg.path_max).1 ≠ 0)
    (hlen : cfg.path_max ≤ cell.data.length) (hpos : 0 < cfg.path_max) :
    realm5 cfg e context cell ≠ cell := by
  intro h
  have h1 : (realm5 cfg e context cell).data.length = cfg.path_max - 1 := by
    simp only [realm5, realm_buffer, if_pos hfail, strncpy_term, List.length_take]
    omega
  rw [h] at h1
  omega

theorem attempts_head {σ : Type} (cfg : Config) (log5 : Call5 → σ → Int × σ)
    (e : Env5) (context ccache : Nat) (cell : String) (uid : Nat) (try_v5_2b : Int) (s : σ)
    (hsetup : reaches_loop5 e context ccache) :
    ((minikafs_5log cfg log5 e context ccache cell uid try_v5_2b s).attempts.map
        (fun a => a.1.principal)).head?
      = some ("afs/" ++ cell ++ "@" ++ realm5 cfg e context cell) := by
  have heq := minikafs_5log_eq cfg log5 e context ccache cell uid try_v5_2b s hsetup
  have h2 : (minikafs_5log cfg log5 e context ccache cell uid try_v5_2b s).attempts
      = (run_until_zero log5
        ((candidates cell (realm5 cfg e context cell) (defaultrealm5 e)).map
          (fun p => (⟨ctx5 e context, use_ccache5 ccache, cell, p, uid, try_v5_2b⟩ : Call5)))
        (-1) s).2.1 := by rw [← heq]
  rw [h2]
  simp only [candidates, candidates_for, List.append_assoc, List.singleton_append,
    List.map_cons, run_until_zero, sir_afs]
  split <;> simp

/-- Counterexample to C4 as stated: with `PATH_MAX = 4096`, a cell name of
4096 chars and a failing realm lookup, the `realm` buffer holds only the first
4095 chars of the cell name, so the realm is not the cell name and the
principals attempted are not those for realm = cell. -/
theorem C4_counterexample :
    (minikafs_realm_of_cell_with_ctx (⟨true, -1, 0, 0, 0, ""⟩ : RealmEnv) 7 "" 4096).1 ≠ 0
    ∧ realm5 ⟨true, 4096⟩ ⟨true, (0, 7), (-1, ""), ⟨true, -1, 0, 0, 0, ""⟩, (0, 9)⟩ 7 long_cell
        ≠ long_cell
    ∧ (minikafs_5log (σ := Unit) ⟨true, 4096⟩ (fun _ t => (-1, t))
        ⟨true, (0, 7), (-1, ""), ⟨true, -1, 0, 0, 0, ""⟩, (0, 9)⟩
        7 9 long_cell 1000 0 ()).attempts.map (fun a => a.1.principal)
      ≠ fallback_candidates long_cell none := by
  have hfail : (minikafs_realm_of_cell_with_ctx (⟨true, -1, 0, 0, 0, ""⟩ : RealmEnv) 7 "" 4096).1
      ≠ 0 := by decide
  have hlen : (4096 : Nat) ≤ long_cell.data.length := by
    simp only [long_cell, List.length_replicate, le_refl]
  have hne := realm5_truncates ⟨true, 4096⟩
    ⟨true, (0, 7), (-1, ""), ⟨true, -1, 0, 0, 0, ""⟩, (0, 9)⟩ 7 long_cell hfail hlen
    (by decide)
  refine ⟨hfail, hne, ?_⟩
  intro h
  have hh := attempts_head (σ := Unit) ⟨true, 4096⟩ (fun _ t => (-1, t))
        ⟨true, (0, 7), (-1, ""), ⟨true, -1, 0, 0, 0, ""⟩, (0, 9)⟩
        7 9 long_cell 1000 0 () ⟨rfl, fun _ => rfl, fun _ => rfl⟩
  rw [h] at hh
  simp only [fallback_candidates, List.cons_append, List.head?_cons, Option.some.injEq] at hh
  have h1 := congrArg String.data hh
  simp only [String.data_append, List.append_cancel_left_eq] at h1
  exact hne (String.ext h1.symm)

theorem ruz_single {α σ : Type} (run : α → σ → Int × σ) (a : α) (ret : Int) (s : σ) :
    run_until_zero run [a] ret s = ((run a s).1, [(a, (run a s).1)], (run a s).2) := by
  simp only [run_until_zero]
  split <;> rfl

theorem ruz_cons_zero {α σ : Type} (run : α → σ → Int × σ) (a : α) (as : List α) (ret : Int)
    (s : σ) (h : (run a s).1 = 0) :
    run_until_zero run (a :: as) ret s = ((run a s).1, [(a, (run a s).1)], (run a s).2) := by
  simp only [run_until_zero, if_pos h]

theorem ruz_cons_ne {α σ : Type} (run : α → σ → Int × σ) (a : α) (as : List α) (ret : Int)
    (s : σ) (h : (run a s).1 ≠ 0) :
    run_until_zero run (a :: as) ret s
      = ((run_until_zero run as (run a s).1 (run a s).2).1,
          (a, (run a s).1) :: (run_until_zero run as (run a s).1 (run a s).2).2.1,
          (run_until_zero run as (run a s).1 (run a s).2).2.2) := by
  simp only [run_until_zero, if_neg h]

theorem mem_tail_of_mem_tail_take {α : Type} (l : List α) (n : Nat) (x : α)
    (h : x ∈ (l.take n).tail) : x ∈ l.tail := by
  cases l with
  | nil => simp at h
  | cons a l =>
    cases n with
    | zero => simp at h
    | succ n =>
      simp only [List.take_succ_cons, List.tail_cons] at h ⊢
      exact List.mem_of_mem_take h

theorem minikafs_log_eq {σ : Type} (cfg : Config) (w : World σ) (ctx ccache : Nat)
    (cell : String) (uid : Nat) (try_v5_2b : Int) (s : σ) :
    ((minikafs_log cfg w ctx ccache cell uid try_v5_2b s).ret,
      (minikafs_log cfg w ctx ccache cell uid try_v5_2b s).passes,
      (minikafs_log cfg w ctx ccache cell uid try_v5_2b s).state)
    = run_until_zero (run_pass cfg w ctx ccache cell uid) (pass_order cfg try_v5_2b) (-1) s := by
  unfold minikafs_log pass_order
  by_cases h1 : (minikafs_5log cfg w.log5_with_principal (w.env5 s) ctx ccache cell uid
      try_v5_2b s).ret = 0
  · have h1' : (run_pass cfg w ctx ccache cell uid (Pass.v5 try_v5_2b) s).1 = 0 := h1
    simp only [List.singleton_append, List.cons_append, List.nil_append]
    rw [ruz_cons_zero _ _ _ _ _ h1']
    simp [run_pass, h1]
  · have h1' : (run_pass cfg w ctx ccache cell uid (Pass.v5 try_v5_2b) s).1 ≠ 0 := h1
    simp only [List.singleton_append, List.cons_append, List.nil_append]
    rw [ruz_cons_ne _ _ _ _ _ h1']
    by_cases hk : cfg.use_krb4 = true
    · simp only [hk, if_true, List.cons_append, List.nil_append]
      by_cases h2 : (run_pass cfg w ctx ccache cell uid Pass.v4
          (run_pass cfg w ctx ccache cell uid (Pass.v5 try_v5_2b) s).2).1 = 0
      · rw [ruz_cons_zero _ _ _ _ _ h2]
        simp only [run_pass] at h2
        simp [run_pass, h1, h2]
      · rw [ruz_cons_ne _ _ _ _ _ h2]
        by_cases ht : try_v5_2b = 0
        · simp only [ht, ↓reduceIte, ruz_single]
          simp only [run_pass, ht] at h2 h1
          simp [run_pass, h1, h2]
        · simp only [ht, if_false, run_until_zero]
          simp only [run_pass] at h2
          simp [run_pass, h1, h2, ht]
    · simp only [hk, if_false, List.nil_append]
      by_cases ht : try_v5_2b = 0
      · simp only [ht] at h1
        simp [run_pass, h1, ht, ruz_single]
      · simp only [ht, if_false, run_until_zero]
        simp [run_pass, h1, ht]

/-! ## C5: the passes of `minikafs_log` -/

/-- C5.  `minikafs_log` runs its passes in the order of `pass_order` (the
protocol-5 cascade with the caller's `try_v5_2b`; the protocol-4 cascade when
`USE_KRB4` is defined; the protocol-5 cascade with `try_v5_2b = 1` when the
caller's `try_v5_2b` was `0`) and stops at the first pass that returns `0`:
its result, passes and final state are those of running the passes in this
order until one returns `0`; the passes run are an initial part of
`pass_order`; no pass follows one that returned `0`; when no pass returns `0`
all of them are run; when the caller's `try_v5_2b` is nonzero every pass after
the first is the protocol-4 cascade (no retry pass); and the result is `0`
exactly when some pass returned `0`. -/
theorem C5_pass_order {σ : Type} (cfg : Config) (w : World σ) (ctx ccache : Nat)
    (cell : String) (uid : Nat) (try_v5_2b : Int) (s : σ) :
    ((minikafs_log cfg w ctx ccache cell uid try_v5_2b s).ret,
        (minikafs_log cfg w ctx ccache cell uid try_v5_2b s).passes,
        (minikafs_log cfg w ctx ccache cell uid try_v5_2b s).state)
      = run_until_zero (run_pass cfg w ctx ccache cell uid) (pass_order cfg try_v5_2b) (-1) s
    ∧ (minikafs_log cfg w ctx ccache cell uid try_v5_2b s).passes.map Prod.fst
      = (pass_order cfg try_v5_2b).take
          (minikafs_log cfg w ctx ccache cell uid try_v5_2b s).passes.length
    ∧ (∀ (pre post : List (Pass × Int)) (x : Pass × Int),
        (minikafs_log cfg w ctx ccache cell uid try_v5_2b s).passes = pre ++ x :: post →
        x.2 = 0 → post = [])
    ∧ ((∀ x ∈ (minikafs_log cfg w ctx ccache cell uid try_v5_2b s).passes, x.2 ≠ 0) →
        (minikafs_log cfg w ctx ccache cell uid try_v5_2b s).passes.map Prod.fst
          = pass_order cfg try_v5_2b)
    ∧ (try_v5_2b ≠ 0 →
        ∀ x ∈ (minikafs_log cfg w ctx ccache cell uid try_v5_2b s).passes.tail,
          x.1 = Pass.v4)
    ∧ ((minikafs_log cfg w ctx ccache cell uid try_v5_2b s).ret = 0 ↔
        ∃ x ∈ (minikafs_log cfg w ctx ccache cell uid try_v5_2b s).passes, x.2 = 0) := by
  have heq := minikafs_log_eq cfg w ctx ccache cell uid try_v5_2b s
  have hp : (minikafs_log cfg w ctx ccache cell uid try_v5_2b s).passes
      = (run_until_zero (run_pass cfg w ctx ccache cell uid) (pass_order cfg try_v5_2b)
          (-1) s).2.1 := by rw [← heq]
  have hr : (minikafs_log cfg w ctx ccache cell uid try_v5_2b s).ret
      = (run_until_zero (run_pass cfg w ctx ccache cell uid) (pass_order cfg try_v5_2b)
          (-1) s).1 := by rw [← heq]
  have hmap : (minikafs_log cfg w ctx ccache cell uid try_v5_2b s).passes.map Prod.fst
      = (pass_order cfg try_v5_2b).take
          (minikafs_log cfg w ctx ccache cell uid try_v5_2b s).passes.length := by
    rw [hp]; exact ruz_map_fst _ _ _ _
  refine ⟨heq, hmap, ?_, ?_, ?_, ?_⟩
  · intro pre post x hx h0
    rw [hp] at hx
    exact ruz_stop _ _ _ _ pre post x hx h0
  · intro hall
    rw [hp] at hall ⊢
    exact ruz_exhaust _ _ _ _ hall
  · intro ht x hx
    have hx1 : x.1 ∈ ((minikafs_log cfg w ctx ccache cell uid try_v5_2b s).passes.map
        Prod.fst).tail := by
      rw [← List.map_tail]
      exact List.mem_map_of_mem _ hx
    rw [hmap] at hx1
    have hsub : x.1 ∈ (pass_order cfg try_v5_2b).tail := by
      exact mem_tail_of_mem_tail_take _ _ _ hx1
    simp only [pass_order, ht, if_false, List.append_nil, List.singleton_append,
      List.tail_cons] at hsub
    split at hsub <;> simp_all
  · rw [hr, hp]
    exact ruz_ret_zero_iff _ _ _ _ (by decide)

/-- Witness for C5: protocol 4 compiled in, every attempt failing, the caller's
`try_v5_2b` being `0`; all three passes run, in order. -/
theorem C5_pass_order_witness :
    (∀ x ∈ (minikafs_log (σ := Unit) ⟨true, 4096⟩
        ⟨fun _ t => (-1, t), fun _ t => (-1, t),
          fun _ => ⟨true, (0, 7), (0, "EXAMPLE.COM"), ⟨true, 0, 0, 0, 0, "EXAMPLE.ORG"⟩, (0, 9)⟩,
          fun _ => ⟨(0, "EXAMPLE.COM"), ⟨true, 0, 0, 0, 0, "EXAMPLE.ORG"⟩, true⟩⟩
        7 9 "example.org" 1000 0 ()).passes, x.2 ≠ 0)
    ∧ (minikafs_log (σ := Unit) ⟨true, 4096⟩
        ⟨fun _ t => (-1, t), fun _ t => (-1, t),
          fun _ => ⟨true, (0, 7), (0, "EXAMPLE.COM"), ⟨true, 0, 0, 0, 0, "EXAMPLE.ORG"⟩, (0, 9)⟩,
          fun _ => ⟨(0, "EXAMPLE.COM"), ⟨true, 0, 0, 0, 0, "EXAMPLE.ORG"⟩, true⟩⟩
        7 9 "example.org" 1000 0 ()).passes.map Prod.fst
      = [Pass.v5 0, Pass.v4, Pass.v5 1] :=
  ⟨by decide,
    (C5_pass_order (σ := Unit) ⟨true, 4096⟩
        ⟨fun _ t => (-1, t), fun _ t => (-1, t),
          fun _ => ⟨true, (0, 7), (0, "EXAMPLE.COM"), ⟨true, 0, 0, 0, 0, "EXAMPLE.ORG"⟩, (0, 9)⟩,
          fun _ => ⟨(0, "EXAMPLE.COM"), ⟨true, 0, 0, 0, 0, "EXAMPLE.ORG"⟩, true⟩⟩
        7 9 "example.org" 1000 0 ()).2.2.2.1 (by decide)⟩

/-! ## Lemmas on the token buffer -/

theorem u32_bytes_length (bo : ByteOrder) (n : Nat) : (u32_bytes bo n).length = 4 := by
  cases bo <;> rfl

theorem u32_of_bytes_u32_bytes (bo : ByteOrder) (n : Nat) :
    u32_of_bytes bo (u32_bytes bo n) = n % 4294967296 := by
  cases bo <;> simp only [u32_bytes, u32_of_bytes] <;> omega

theorem fresh_buffer_length (junk : Nat → Nat) (size : Nat) :
    (fresh_buffer junk size).length = size := by
  simp [fresh_buffer]

theorem memcpy_at (pre rest src : List Nat) (off n : Nat) (hoff : pre.length = off)
    (hn : src.length = n) :
    memcpy (pre ++ rest) off src n = pre ++ src ++ rest.drop n := by
  subst hoff hn
  simp [memcpy, List.take_append_eq_append_take, List.drop_append_eq_append_drop]

theorem strcpy_at (pre rest : List Nat) (off : Nat) (s : String) (hoff : pre.length = off) :
    strcpy (pre ++ rest) off s = pre ++ (string_bytes s ++ [0]) ++ rest.drop (strlen s + 1) := by
  subst hoff
  simp [strcpy, List.take_append_eq_append_take, List.drop_append_eq_append_drop]

theorem plain_token_bytes_length (bo : ByteOrder) (t : minikafs_plain_token)
    (hkey : t.key.length = 8) : (plain_token_bytes bo t).length = 24 := by
  simp [plain_token_bytes, u32_bytes_length, hkey]

/-- The writes of the two `settoken` functions, one after the other, fill the
whole buffer. -/
theorem pack_writes (bo : ByteOrder) (junk : Nat → Nat) (ticket : List Nat)
    (t : minikafs_plain_token) (cell : String)
    (hkey : t.key.length = 8) (hlen : ticket.length < 4294967296) :
    strcpy
      (memcpy
        (memcpy
          (memcpy
            (memcpy
              (memcpy
                (fresh_buffer junk
                  (4 + ticket.length + 4 + sizeof_plain_token + 4 + strlen cell + 1))
                0 (u32_bytes bo (ticket.length % 4294967296)) 4)
              4 ticket (ticket.length % 4294967296))
            (4 + ticket.length) (u32_bytes bo sizeof_plain_token) 4)
          (4 + ticket.length + 4) (plain_token_bytes bo t) sizeof_plain_token)
        (4 + ticket.length + 4 + sizeof_plain_token) (u32_bytes bo 0) 4)
      (4 + ticket.length + 4 + sizeof_plain_token + 4) cell
    = serialize bo ⟨ticket, t, 0, cell⟩ := by
  rw [Nat.mod_eq_of_lt hlen]
  have h0 := fresh_buffer_length junk
    (4 + ticket.length + 4 + sizeof_plain_token + 4 + strlen cell + 1)
  generalize fresh_buffer junk
    (4 + ticket.length + 4 + sizeof_plain_token + 4 + strlen cell + 1) = B at h0
  have e1 : memcpy B 0 (u32_bytes bo ticket.length) 4
      = u32_bytes bo ticket.length ++ B.drop 4 := by
    have := memcpy_at [] B (u32_bytes bo ticket.length) 0 4 rfl (u32_bytes_length _ _)
    simpa using this
  rw [e1]
  rw [memcpy_at (u32_bytes bo ticket.length) (B.drop 4) ticket 4 ticket.length
    (u32_bytes_length _ _) rfl]
  rw [memcpy_at (u32_bytes bo ticket.length ++ ticket) _ (u32_bytes bo sizeof_plain_token)
    (4 + ticket.length) 4 (by simp [u32_bytes_length]) (u32_bytes_length _ _)]
  rw [memcpy_at (u32_bytes bo ticket.length ++ ticket ++ u32_bytes bo sizeof_plain_token) _
    (plain_token_bytes bo t) (4 + ticket.length + 4) sizeof_plain_token
    (by simp [u32_bytes_length]; omega) (plain_token_bytes_length bo t hkey)]
  rw [memcpy_at (u32_bytes bo ticket.length ++ ticket ++ u32_bytes bo sizeof_plain_token
      ++ plain_token_bytes bo t) _
    (u32_bytes bo 0) (4 + ticket.length + 4 + sizeof_plain_token) 4
    (by simp [u32_bytes_length, plain_token_bytes_length bo t hkey, sizeof_plain_token]; omega)
    (u32_bytes_length _ _)]
  rw [strcpy_at (u32_bytes bo ticket.length ++ ticket ++ u32_bytes bo sizeof_plain_token
      ++ plain_token_bytes bo t ++ u32_bytes bo 0) _
    (4 + ticket.length + 4 + sizeof_plain_token + 4) cell
    (by simp [u32_bytes_length, plain_token_bytes_length bo t hkey, sizeof_plain_token]; omega)]
  have hend : List.drop (strlen cell + 1)
      (List.drop 4 (List.drop sizeof_plain_token
        (List.drop 4 (List.drop ticket.length (List.drop 4 B))))) = [] := by
    apply List.drop_eq_nil_of_le
    simp only [List.length_drop, h0]
    omega
  rw [hend]
  simp [serialize, List.append_assoc]

theorem buffer_5settoken_eq (bo : ByteOrder) (junk : Nat → Nat) (cell : String)
    (creds : krb5_creds) (uid : Nat)
    (hkey : creds.keyblock.length = 8) (hlen : creds.ticket.length < 4294967296) :
    (buffer_5settoken bo junk cell creds uid).1
      = serialize bo ⟨creds.ticket, (buffer_5settoken bo junk cell creds uid).2, 0, cell⟩ := by
  have hk : (buffer_5settoken bo junk cell creds uid).2.key.length = 8 := by
    simp [buffer_5settoken, v5_creds_key_contents, v5_creds_key_length, hkey]
  exact pack_writes bo junk creds.ticket _ cell hk hlen

theorem buffer_4settoken_eq (bo : ByteOrder) (junk : Nat → Nat) (cell : String)
    (uid start end_ : Nat) (creds : CREDENTIALS)
    (hkey : creds.session.length = 8) (hlen : creds.ticket_st.length < 4294967296) :
    (buffer_4settoken bo junk cell uid start end_ creds).1
      = serialize bo
          ⟨creds.ticket_st, (buffer_4settoken bo junk cell uid start end_ creds).2, 0, cell⟩ := by
  have hk : (buffer_4settoken bo junk cell uid start end_ creds).2.key.length = 8 := by
    simp [buffer_4settoken, hkey]
  exact pack_writes bo junk creds.ticket_st _ cell hk hlen

theorem submitted_5settoken {σ : Type} (bo : ByteOrder) (junk : Nat → Nat)
    (pioctl : minikafs_ioblock → σ → Int × σ) (cell : String) (creds : krb5_creds)
    (uid : Nat) (s : σ) (hkey : creds.keyblock.length = 8) :
    (minikafs_5settoken bo junk pioctl cell creds uid s).submitted.map (fun iob => iob.in_)
      = [(buffer_5settoken bo junk cell creds uid).1] := by
  simp [minikafs_5settoken, v5_creds_key_length, hkey]

theorem submitted_4settoken {σ : Type} (bo : ByteOrder) (junk : Nat → Nat)
    (pioctl : minikafs_ioblock → σ → Int × σ) (cell : String) (uid start end_ : Nat)
    (creds : CREDENTIALS) (s : σ) :
    (minikafs_4settoken bo junk pioctl cell uid start end_ creds s).submitted.map
        (fun iob => iob.in_)
      = [(buffer_4settoken bo junk cell uid start end_ creds).1] := by
  simp [minikafs_4settoken]

/-! ## C6: layout of the token blob -/

/-- C6.  For every ticket (of a length that fits `unsigned int`), 8-byte
session key, uid, start and end time and cell name, `minikafs_5settoken`
submits one buffer to the kernel, and it consists of, in this order and with
nothing else: the ticket length as 4 bytes, the ticket bytes, the integer 24
as 4 bytes, the plain token as kvno (4 bytes), key (8 bytes), uid (4 bytes),
start (4 bytes), end (4 bytes), a 4-byte integer, the bytes of the cell name
and one NUL byte; its length is
`4 + ticket length + 4 + 24 + 4 + strlen(cell) + 1`.  The content the buffer
had before (`junk`) does not show. -/
theorem C6_token_blob_layout {σ : Type} (bo : ByteOrder) (junk : Nat → Nat)
    (pioctl : minikafs_ioblock → σ → Int × σ) (cell : String) (creds : krb5_creds)
    (uid : Nat) (s : σ)
    (hkey : creds.keyblock.length = 8) (hlen : creds.ticket.length < 4294967296) :
    (minikafs_5settoken bo junk pioctl cell creds uid s).submitted.map (fun iob => iob.in_)
        = [u32_bytes bo creds.ticket.length ++ creds.ticket
            ++ u32_bytes bo 24
            ++ (u32_bytes bo (buffer_5settoken bo junk cell creds uid).2.kvno
                ++ creds.keyblock
                ++ u32_bytes bo (uid % 4294967296)
                ++ u32_bytes bo (to_u32 creds.starttime)
                ++ u32_bytes bo (buffer_5settoken bo junk cell creds uid).2.end_)
            ++ u32_bytes bo 0 ++ string_bytes cell ++ [0]]
    ∧ (∀ n, (u32_bytes bo n).length = 4)
    ∧ (string_bytes cell).length = strlen cell
    ∧ (∀ iob ∈ (minikafs_5settoken bo junk pioctl cell creds uid s).submitted,
        iob.in_.length = 4 + creds.ticket.length + 4 + 24 + 4 + strlen cell + 1) := by
  have hsub := submitted_5settoken bo junk pioctl cell creds uid s hkey
  have hbuf : (buffer_5settoken bo junk cell creds uid).1
      = u32_bytes bo creds.ticket.length ++ creds.ticket
            ++ u32_bytes bo 24
            ++ (u32_bytes bo (buffer_5settoken bo junk cell creds uid).2.kvno
                ++ creds.keyblock
                ++ u32_bytes bo (uid % 4294967296)
                ++ u32_bytes bo (to_u32 creds.starttime)
                ++ u32_bytes bo (buffer_5settoken bo junk cell creds uid).2.end_)
            ++ u32_bytes bo 0 ++ string_bytes cell ++ [0] := by
    rw [buffer_5settoken_eq bo junk cell creds uid hkey hlen]
    simp [serialize, plain_token_bytes, buffer_5settoken, v5_creds_key_contents,
      v5_creds_key_length, sizeof_plain_token]
  refine ⟨by rw [hsub, hbuf], u32_bytes_length bo, by simp [string_bytes, strlen], ?_⟩
  intro iob hiob
  have hmem : iob.in_ ∈ (minikafs_5settoken bo junk pioctl cell creds uid s).submitted.map
      (fun iob => iob.in_) := List.mem_map_of_mem _ hiob
  rw [hsub, List.mem_singleton] at hmem
  rw [hmem, hbuf]
  simp [u32_bytes_length, hkey, string_bytes, strlen]
  omega

/-- Witness for C6: a 3-byte ticket and the cell `example.org`. -/
theorem C6_token_blob_layout_witness :
    (minikafs_5settoken (σ := Unit) ByteOrder.little (fun _ => 170) (fun _ t => (0, t))
        "example.org" ⟨[1, 2, 3], [11, 12, 13, 14, 15, 16, 17, 18], 1000, 2000⟩ 500
        ()).submitted.map (fun iob => iob.in_)
      = [[3, 0, 0, 0] ++ [1, 2, 3] ++ [24, 0, 0, 0]
          ++ ([0, 1, 0, 0] ++ [11, 12, 13, 14, 15, 16, 17, 18] ++ [244, 1, 0, 0]
              ++ [232, 3, 0, 0] ++ [207, 7, 0, 0])
          ++ [0, 0, 0, 0]
          ++ [101, 120, 97, 109, 112, 108, 101, 46, 111, 114, 103] ++ [0]] :=
  (C6_token_blob_layout (σ := Unit) ByteOrder.little (fun _ => 170) (fun _ t => (0, t))
    "example.org" ⟨[1, 2, 3], [11, 12, 13, 14, 15, 16, 17, 18], 1000, 2000⟩ 500 ()
    (by decide) (by decide)).1

theorem serialize_cell_prefix (bo : ByteOrder) (b : TokenBlob) (hkey : b.token.key.length = 8) :
    ((serialize bo b).drop (4 + b.ticket.length + 4 + 24)).take 4 = u32_bytes bo b.flag
    ∧ (serialize bo b).drop (4 + b.ticket.length + 4 + 24 + 4) = string_bytes b.cell ++ [0] := by
  have h1 : (u32_bytes bo b.ticket.length ++ b.ticket
      ++ u32_bytes bo sizeof_plain_token ++ plain_token_bytes bo b.token).length
      = 4 + b.ticket.length + 4 + 24 := by
    simp [u32_bytes_length, plain_token_bytes_length bo b.token hkey]
    omega
  have h2 : (u32_bytes bo b.ticket.length ++ b.ticket
      ++ u32_bytes bo sizeof_plain_token ++ plain_token_bytes bo b.token
      ++ u32_bytes bo b.flag).length
      = 4 + b.ticket.length + 4 + 24 + 4 := by
    simp [u32_bytes_length, plain_token_bytes_length bo b.token hkey]
    omega
  constructor
  · have : serialize bo b = (u32_bytes bo b.ticket.length ++ b.ticket
      ++ u32_bytes bo sizeof_plain_token ++ plain_token_bytes bo b.token)
      ++ (u32_bytes bo b.flag ++ (string_bytes b.cell ++ [0])) := by
      simp [serialize, List.append_assoc]
    rw [this, List.drop_left' h1, List.take_left' (u32_bytes_length bo b.flag)]
  · have : serialize bo b = (u32_bytes bo b.ticket.length ++ b.ticket
      ++ u32_bytes bo sizeof_plain_token ++ plain_token_bytes bo b.token
      ++ u32_bytes bo b.flag) ++ (string_bytes b.cell ++ [0]) := by
      simp [serialize, List.append_assoc]
    rw [this, List.drop_left' h2]

theorem submitted_5settoken_iob {σ : Type} (bo : ByteOrder) (junk : Nat → Nat)
    (pioctl : minikafs_ioblock → σ → Int × σ) (cell : String) (creds : krb5_creds)
    (uid : Nat) (s : σ) (hkey : creds.keyblock.length = 8) :
    (minikafs_5settoken bo junk pioctl cell creds uid s).submitted
      = [⟨(buffer_5settoken bo junk cell creds uid).1, 0,
          (4 + creds.ticket.length + 4 + sizeof_plain_token + 4 + strlen cell + 1) % 65536,
          0⟩] := by
  simp [minikafs_5settoken, v5_creds_key_length, hkey]

theorem submitted_4settoken_iob {σ : Type} (bo : ByteOrder) (junk : Nat → Nat)
    (pioctl : minikafs_ioblock → σ → Int × σ) (cell : String) (uid start end_ : Nat)
    (creds : CREDENTIALS) (s : σ) :
    (minikafs_4settoken bo junk pioctl cell uid start end_ creds s).submitted
      = [⟨(buffer_4settoken bo junk cell uid start end_ creds).1, 0,
          (4 + creds.ticket_st.length + 4 + sizeof_plain_token + 4 + strlen cell + 1) % 65536,
          0⟩] := by
  simp [minikafs_4settoken]

/-! ## C7: the integer in front of the cell name -/

/-- C7 (amended).  In the buffer `minikafs_5settoken` submits, and in the one
`minikafs_4settoken` submits, the cell name with its NUL ends the buffer, and
the 4-byte integer written immediately before the cell-name bytes is `0` for
every cell name; it is not the length of the cell name. -/
theorem C7_cell_name_flag_is_zero {σ : Type} (bo : ByteOrder) (junk : Nat → Nat)
    (pioctl : minikafs_ioblock → σ → Int × σ) (cell : String) (creds : krb5_creds)
    (creds4 : CREDENTIALS) (uid start end_ : Nat) (s : σ)
    (hkey : creds.keyblock.length = 8) (hlen : creds.ticket.length < 4294967296)
    (hkey4 : creds4.session.length = 8) (hlen4 : creds4.ticket_st.length < 4294967296) :
    (∃ iob, (minikafs_5settoken bo junk pioctl cell creds uid s).submitted = [iob]
      ∧ iob.in_.drop (4 + creds.ticket.length + 4 + 24 + 4) = string_bytes cell ++ [0]
      ∧ (iob.in_.drop (4 + creds.ticket.length + 4 + 24)).take 4 = u32_bytes bo 0
      ∧ u32_of_bytes bo ((iob.in_.drop (4 + creds.ticket.length + 4 + 24)).take 4) = 0)
    ∧ (∃ iob, (minikafs_4settoken bo junk pioctl cell uid start end_ creds4 s).submitted = [iob]
      ∧ iob.in_.drop (4 + creds4.ticket_st.length + 4 + 24 + 4) = string_bytes cell ++ [0]
      ∧ (iob.in_.drop (4 + creds4.ticket_st.length + 4 + 24)).take 4 = u32_bytes bo 0
      ∧ u32_of_bytes bo ((iob.in_.drop (4 + creds4.ticket_st.length + 4 + 24)).take 4) = 0) := by
  constructor
  · have hk : (buffer_5settoken bo junk cell creds uid).2.key.length = 8 := by
      simp [buffer_5settoken, v5_creds_key_contents, v5_creds_key_length, hkey]
    have hs := serialize_cell_prefix bo
      ⟨creds.ticket, (buffer_5settoken bo junk cell creds uid).2, 0, cell⟩ hk
    rw [← buffer_5settoken_eq bo junk cell creds uid hkey hlen] at hs
    refine ⟨_, submitted_5settoken_iob bo junk pioctl cell creds uid s hkey, ?_⟩
    exact ⟨hs.2, hs.1, by rw [hs.1, u32_of_bytes_u32_bytes]; rfl⟩
  · have hk : (buffer_4settoken bo junk cell uid start end_ creds4).2.key.length = 8 := by
      simp [buffer_4settoken, hkey4]
    have hs := serialize_cell_prefix bo
      ⟨creds4.ticket_st, (buffer_4settoken bo junk cell uid start end_ creds4).2, 0, cell⟩ hk
    rw [← buffer_4settoken_eq bo junk cell uid start end_ creds4 hkey4 hlen4] at hs
    refine ⟨_, submitted_4settoken_iob bo junk pioctl cell uid start end_ creds4 s, ?_⟩
    exact ⟨hs.2, hs.1, by rw [hs.1, u32_of_bytes_u32_bytes]; rfl⟩

/-- Witness for C7: a 3-byte ticket and the cell `example.org`. -/
theorem C7_cell_name_flag_is_zero_witness :
    ∃ iob, (minikafs_5settoken (σ := Unit) ByteOrder.little (fun _ => 170) (fun _ t => (0, t))
        "example.org" ⟨[1, 2, 3], [11, 12, 13, 14, 15, 16, 17, 18], 1000, 2000⟩ 500
        ()).submitted = [iob]
      ∧ iob.in_.drop (4 + 3 + 4 + 24 + 4) = string_bytes "example.org" ++ [0]
      ∧ (iob.in_.drop (4 + 3 + 4 + 24)).take 4 = u32_bytes ByteOrder.little 0
      ∧ u32_of_bytes ByteOrder.little ((iob.in_.drop (4 + 3 + 4 + 24)).take 4) = 0 :=
  (C7_cell_name_flag_is_zero (σ := Unit) ByteOrder.little (fun _ => 170) (fun _ t => (0, t))
    "example.org" ⟨[1, 2, 3], [11, 12, 13, 14, 15, 16, 17, 18], 1000, 2000⟩
    ⟨[1, 2, 3, 4, 5, 6, 7, 8], 3, [9, 9]⟩ 500 1000 2000 ()
    (by decide) (by decide) (by decide) (by decide)).1

/-- Counterexample to C7 as stated: for the cell `example.org`, whose name has
11 chars, the integer in front of the cell name is `0` in the buffers of both
functions. -/
theorem C7_counterexample :
    (minikafs_5settoken (σ := Unit) ByteOrder.little (fun _ => 170) (fun _ t => (0, t))
        "example.org" ⟨[1, 2, 3], [11, 12, 13, 14, 15, 16, 17, 18], 1000, 2000⟩ 500
        ()).submitted.map
      (fun iob => u32_of_bytes ByteOrder.little ((iob.in_.drop (4 + 3 + 4 + 24)).take 4))
      = [0]
    ∧ (minikafs_4settoken (σ := Unit) ByteOrder.little (fun _ => 170) (fun _ t => (0, t))
        "example.org" 500 1000 2000 ⟨[1, 2, 3, 4, 5, 6, 7, 8], 3, [9, 9]⟩
        ()).submitted.map
      (fun iob => u32_of_bytes ByteOrder.little ((iob.in_.drop (4 + 2 + 4 + 24)).take 4))
      = [0]
    ∧ 0 ≠ strlen "example.org" := by
  decide

/-! ## C8: the end time stored in the token -/

/-- C8 (the code at the failing input).  The test `((end - start) % 1) == 0`
holds for every interval, so both functions store `end - 1` (modulo `2 ^ 32`)
whatever the parity of the interval; for start 1000000000 and end 1000036001,
an interval of odd length, they store 1000036000 and not the end time given. -/
theorem C8_end_decremented_for_every_interval :
    (∀ (bo : ByteOrder) (junk : Nat → Nat) (cell : String) (uid start end_ : Nat)
        (creds : CREDENTIALS),
      (buffer_4settoken bo junk cell uid start end_ creds).2.end_
        = (end_ % 4294967296 + 4294967296 - 1) % 4294967296)
    ∧ (∀ (bo : ByteOrder) (junk : Nat → Nat) (cell : String) (creds : krb5_creds) (uid : Nat),
      (buffer_5settoken bo junk cell creds uid).2.end_
        = (to_u32 creds.endtime + 4294967296 - 1) % 4294967296)
    ∧ (buffer_4settoken ByteOrder.little (fun _ => 170) "example.org" 500
        1000000000 1000036001 ⟨[1, 2, 3, 4, 5, 6, 7, 8], 3, [9, 9]⟩).2.end_ = 1000036000
    ∧ (buffer_5settoken ByteOrder.little (fun _ => 170) "example.org"
        ⟨[1, 2, 3], [11, 12, 13, 14, 15, 16, 17, 18], 1000000000, 1000036001⟩ 500).2.end_
        = 1000036000 := by
  refine ⟨?_, ?_, by decide, by decide⟩
  · intro bo junk cell uid start end_ creds
    simp [buffer_4settoken, Nat.mod_one]
  · intro bo junk cell creds uid
    simp [buffer_5settoken, Int.tmod_one]

theorem serialize_kvno (bo : ByteOrder) (b : TokenBlob) :
    ((serialize bo b).drop (4 + b.ticket.length + 4)).take 4 = u32_bytes bo b.token.kvno := by
  have h1 : (u32_bytes bo b.ticket.length ++ b.ticket
      ++ u32_bytes bo sizeof_plain_token).length = 4 + b.ticket.length + 4 := by
    simp [u32_bytes_length]
    omega
  have : serialize bo b = (u32_bytes bo b.ticket.length ++ b.ticket
      ++ u32_bytes bo sizeof_plain_token)
      ++ (u32_bytes bo b.token.kvno ++ (b.token.key ++ u32_bytes bo b.token.uid
          ++ u32_bytes bo b.token.start ++ u32_bytes bo b.token.end_
          ++ u32_bytes bo b.flag ++ string_bytes b.cell ++ [0])) := by
    simp [serialize, plain_token_bytes, List.append_assoc]
  rw [this, List.drop_left' h1, List.take_left' (u32_bytes_length bo _)]

theorem to_u32_of_range (x : Int) (h0 : 0 ≤ x) (h1 : x < 4294967296) : (to_u32 x : Int) = x := by
  unfold to_u32
  rw [Int.emod_eq_of_lt h0 h1]
  exact Int.toNat_of_nonneg h0

theorem to_u32_lt (x : Int) : to_u32 x < 4294967296 := by
  unfold to_u32
  have h1 : 0 ≤ x % 4294967296 := Int.emod_nonneg _ (by norm_num)
  have h2 : x % 4294967296 < 4294967296 := Int.emod_lt_of_pos _ (by norm_num)
  omega

/-! ## C9: the key version number in the token -/

/-- C9.  The plain token `minikafs_5settoken` builds has key version number
`0x100` (256) for every ticket, and the four bytes at its place in the buffer
submitted hold 256; the plain token `minikafs_4settoken` builds has the key
version number of the version-4 credentials it was given, and the four bytes
at its place in the buffer hold it. -/
theorem C9_key_version_number {σ : Type} (bo : ByteOrder) (junk : Nat → Nat)
    (pioctl : minikafs_ioblock → σ → Int × σ) (cell : String) (creds : krb5_creds)
    (creds4 : CREDENTIALS) (uid start end_ : Nat) (s : σ)
    (hkey : creds.keyblock.length = 8) (hlen : creds.ticket.length < 4294967296)
    (hkey4 : creds4.session.length = 8) (hlen4 : creds4.ticket_st.length < 4294967296)
    (hkvno : 0 ≤ creds4.kvno ∧ creds4.kvno < 4294967296) :
    (∃ iob, (minikafs_5settoken bo junk pioctl cell creds uid s).submitted = [iob]
      ∧ (buffer_5settoken bo junk cell creds uid).2.kvno = 0x100
      ∧ (iob.in_.drop (4 + creds.ticket.length + 4)).take 4 = u32_bytes bo 0x100
      ∧ u32_of_bytes bo ((iob.in_.drop (4 + creds.ticket.length + 4)).take 4) = 256)
    ∧ (∃ iob, (minikafs_4settoken bo junk pioctl cell uid start end_ creds4 s).submitted = [iob]
      ∧ ((buffer_4settoken bo junk cell uid start end_ creds4).2.kvno : Int) = creds4.kvno
      ∧ (iob.in_.drop (4 + creds4.ticket_st.length + 4)).take 4
          = u32_bytes bo (to_u32 creds4.kvno)
      ∧ (u32_of_bytes bo ((iob.in_.drop (4 + creds4.ticket_st.length + 4)).take 4) : Int)
          = creds4.kvno) := by
  constructor
  · have hs := serialize_kvno bo
      ⟨creds.ticket, (buffer_5settoken bo junk cell creds uid).2, 0, cell⟩
    rw [← buffer_5settoken_eq bo junk cell creds uid hkey hlen] at hs
    have hk : (buffer_5settoken bo junk cell creds uid).2.kvno = 0x100 := rfl
    refine ⟨_, submitted_5settoken_iob bo junk pioctl cell creds uid s hkey, hk, ?_, ?_⟩
    · rw [← hk]; exact hs
    · show u32_of_bytes bo (List.take 4 (List.drop (4 + creds.ticket.length + 4)
        (buffer_5settoken bo junk cell creds uid).1)) = 256
      rw [hs, u32_of_bytes_u32_bytes]
      rfl
  · have hs := serialize_kvno bo
      ⟨creds4.ticket_st, (buffer_4settoken bo junk cell uid start end_ creds4).2, 0, cell⟩
    rw [← buffer_4settoken_eq bo junk cell uid start end_ creds4 hkey4 hlen4] at hs
    have hk : (buffer_4settoken bo junk cell uid start end_ creds4).2.kvno
        = to_u32 creds4.kvno := rfl
    refine ⟨_, submitted_4settoken_iob bo junk pioctl cell uid start end_ creds4 s, ?_, ?_, ?_⟩
    · rw [hk]; exact to_u32_of_range _ hkvno.1 hkvno.2
    · rw [← hk]; exact hs
    · show (u32_of_bytes bo (List.take 4 (List.drop (4 + creds4.ticket_st.length + 4)
        (buffer_4settoken bo junk cell uid start end_ creds4).1)) : Int) = creds4.kvno
      rw [hs, u32_of_bytes_u32_bytes, hk, Nat.mod_eq_of_lt (to_u32_lt _)]
      exact to_u32_of_range _ hkvno.1 hkvno.2

/-- Witness for C9: version-4 credentials with key version number 3. -/
theorem C9_key_version_number_witness :
    ∃ iob, (minikafs_4settoken (σ := Unit) ByteOrder.little (fun _ => 170) (fun _ t => (0, t))
        "example.org" 500 1000 2000 ⟨[1, 2, 3, 4, 5, 6, 7, 8], 3, [9, 9]⟩ ()).submitted = [iob]
      ∧ ((buffer_4settoken ByteOrder.little (fun _ => 170) "example.org" 500 1000 2000
          ⟨[1, 2, 3, 4, 5, 6, 7, 8], 3, [9, 9]⟩).2.kvno : Int) = 3
      ∧ (iob.in_.drop (4 + 2 + 4)).take 4 = u32_bytes ByteOrder.little (to_u32 3)
      ∧ (u32_of_bytes ByteOrder.little ((iob.in_.drop (4 + 2 + 4)).take 4) : Int) = 3 :=
  (C9_key_version_number (σ := Unit) ByteOrder.little (fun _ => 170) (fun _ t => (0, t))
    "example.org" ⟨[1, 2, 3], [11, 12, 13, 14, 15, 16, 17, 18], 1000, 2000⟩
    ⟨[1, 2, 3, 4, 5, 6, 7, 8], 3, [9, 9]⟩ 500 1000 2000 ()
    (by decide) (by decide) (by decide) (by decide) (by decide)).2

theorem takeWhile_string_bytes (cell : String) (h : ∀ c ∈ cell.data, c ≠ Char.ofNat 0) :
    (string_bytes cell ++ [0]).takeWhile (fun b => b ≠ 0) = string_bytes cell := by
  have hall : ∀ a ∈ string_bytes cell, (fun b => decide (b ≠ 0)) a = true := by
    intro a ha
    simp only [string_bytes, List.mem_map] at ha
    obtain ⟨c, hc, rfl⟩ := ha
    simp only [ne_eq, decide_not, Bool.not_eq_true', decide_eq_false_iff_not]
    intro h0
    apply h c hc
    rw [← Char.ofNat_toNat c, h0]
  rw [List.takeWhile_append_of_pos hall]
  simp

theorem string_of_bytes (cell : String) :
    String.mk ((string_bytes cell).map Char.ofNat) = cell := by
  have h : (Char.ofNat ∘ Char.toNat) = id := by
    funext c
    exact Char.ofNat_toNat c
  simp [string_bytes, h]

theorem deserialize_serialize (bo : ByteOrder) (b : TokenBlob)
    (hlen : b.ticket.length < 4294967296)
    (hkvno : b.token.kvno < 4294967296) (hkey : b.token.key.length = 8)
    (huid : b.token.uid < 4294967296) (hstart : b.token.start < 4294967296)
    (hend : b.token.end_ < 4294967296) (hflag : b.flag < 4294967296)
    (hcell : ∀ c ∈ b.cell.data, c ≠ Char.ofNat 0) :
    deserialize bo (serialize bo b) = some b := by
  obtain ⟨ticket, ⟨kvno, key, uid, start, end_⟩, flag, cell⟩ := b
  simp only at hlen hkvno hkey huid hstart hend hflag hcell
  have hA := u32_bytes_length bo ticket.length
  have hP := u32_bytes_length bo sizeof_plain_token
  have hk := u32_bytes_length bo kvno
  have hu := u32_bytes_length bo uid
  have hs := u32_bytes_length bo start
  have he := u32_bytes_length bo end_
  have hF := u32_bytes_length bo flag
  have hblob : serialize bo ⟨ticket, ⟨kvno, key, uid, start, end_⟩, flag, cell⟩
      = u32_bytes bo ticket.length ++ (ticket ++ (u32_bytes bo sizeof_plain_token
        ++ ((u32_bytes bo kvno ++ (key ++ (u32_bytes bo uid ++ (u32_bytes bo start
              ++ u32_bytes bo end_))))
          ++ (u32_bytes bo flag ++ (string_bytes cell ++ [0]))))) := by
    simp [serialize, plain_token_bytes, List.append_assoc]
  have hK : (u32_bytes bo kvno ++ (key ++ (u32_bytes bo uid ++ (u32_bytes bo start
              ++ u32_bytes bo end_)))).length = sizeof_plain_token := by
    simp [hk, hkey, hu, hs, he, sizeof_plain_token]
  rw [hblob]
  unfold deserialize
  have c1 : ¬ (u32_bytes bo ticket.length ++ (ticket ++ (u32_bytes bo sizeof_plain_token
        ++ ((u32_bytes bo kvno ++ (key ++ (u32_bytes bo uid ++ (u32_bytes bo start
              ++ u32_bytes bo end_))))
          ++ (u32_bytes bo flag ++ (string_bytes cell ++ [0])))))).length < 4 := by
    simp [hA]
  rw [if_neg c1]
  simp only [List.take_left' hA, List.drop_left' hA, u32_of_bytes_u32_bytes,
    Nat.mod_eq_of_lt hlen]
  have c2 : ¬ (ticket ++ (u32_bytes bo sizeof_plain_token
        ++ ((u32_bytes bo kvno ++ (key ++ (u32_bytes bo uid ++ (u32_bytes bo start
              ++ u32_bytes bo end_))))
          ++ (u32_bytes bo flag ++ (string_bytes cell ++ [0]))))).length < ticket.length + 4 := by
    simp [hP]
  rw [if_neg c2]
  simp only [List.take_left' (rfl : ticket.length = ticket.length),
    List.drop_left' (rfl : ticket.length = ticket.length), List.take_left' hP,
    List.drop_left' hP, u32_of_bytes_u32_bytes]
  have c3 : ¬ (sizeof_plain_token % 4294967296 ≠ sizeof_plain_token) := by
    simp [sizeof_plain_token]
  rw [if_neg c3]
  have c4 : ¬ ((u32_bytes bo kvno ++ (key ++ (u32_bytes bo uid ++ (u32_bytes bo start
              ++ u32_bytes bo end_))))
          ++ (u32_bytes bo flag ++ (string_bytes cell ++ [0]))).length
        < sizeof_plain_token + 4 := by
    rw [List.length_append, hK]
    simp [hF]
  rw [if_neg c4]
  simp only [List.take_left' hK, List.drop_left' hK, List.take_left' hF, List.drop_left' hF,
    List.take_left' hk, List.drop_left' hk]
  have d12 : (u32_bytes bo kvno ++ (key ++ (u32_bytes bo uid ++ (u32_bytes bo start
      ++ u32_bytes bo end_)))).drop 12 = u32_bytes bo uid ++ (u32_bytes bo start
      ++ u32_bytes bo end_) := by
    rw [← List.append_assoc]
    exact List.drop_left' (by simp [hk, hkey])
  have d16 : (u32_bytes bo kvno ++ (key ++ (u32_bytes bo uid ++ (u32_bytes bo start
      ++ u32_bytes bo end_)))).drop 16 = u32_bytes bo start ++ u32_bytes bo end_ := by
    rw [← List.append_assoc, ← List.append_assoc]
    exact List.drop_left' (by simp [hk, hkey, hu])
  have d20 : (u32_bytes bo kvno ++ (key ++ (u32_bytes bo uid ++ (u32_bytes bo start
      ++ u32_bytes bo end_)))).drop 20 = u32_bytes bo end_ := by
    rw [← List.append_assoc, ← List.append_assoc, ← List.append_assoc]
    exact List.drop_left' (by simp [hk, hkey, hu, hs])
  rw [d12, d16, d20, takeWhile_string_bytes cell hcell]
  simp only [List.take_left' hkey, List.take_left' hu, List.take_left' hs,
    u32_of_bytes_u32_bytes, Nat.mod_eq_of_lt hkvno, Nat.mod_eq_of_lt huid,
    Nat.mod_eq_of_lt hstart, Nat.mod_eq_of_lt hflag,
    List.drop_left' (rfl : (string_bytes cell).length = (string_bytes cell).length),
    string_of_bytes, if_true]
  have e20 : (u32_bytes bo end_).take 4 = u32_bytes bo end_ := by
    rw [← he]; exact List.take_length _
  rw [e20, u32_of_bytes_u32_bytes, Nat.mod_eq_of_lt hend]

theorem plain_token_5_valid (bo : ByteOrder) (junk : Nat → Nat) (cell : String)
    (creds : krb5_creds) (uid : Nat) (hkey : creds.keyblock.length = 8) :
    (buffer_5settoken bo junk cell creds uid).2.kvno < 4294967296
    ∧ (buffer_5settoken bo junk cell creds uid).2.key.length = 8
    ∧ (buffer_5settoken bo junk cell creds uid).2.uid < 4294967296
    ∧ (buffer_5settoken bo junk cell creds uid).2.start < 4294967296
    ∧ (buffer_5settoken bo junk cell creds uid).2.end_ < 4294967296 := by
  refine ⟨by simp [buffer_5settoken], ?_, ?_, ?_, ?_⟩
  · simp [buffer_5settoken, v5_creds_key_contents, v5_creds_key_length, hkey]
  · simp only [buffer_5settoken]
    exact Nat.mod_lt _ (by norm_num)
  · simp only [buffer_5settoken]
    exact to_u32_lt _
  · simp only [buffer_5settoken]
    split
    · exact Nat.mod_lt _ (by norm_num)
    · exact to_u32_lt _

theorem plain_token_4_valid (bo : ByteOrder) (junk : Nat → Nat) (cell : String)
    (uid start end_ : Nat) (creds : CREDENTIALS) (hkey : creds.session.length = 8) :
    (buffer_4settoken bo junk cell uid start end_ creds).2.kvno < 4294967296
    ∧ (buffer_4settoken bo junk cell uid start end_ creds).2.key.length = 8
    ∧ (buffer_4settoken bo junk cell uid start end_ creds).2.uid < 4294967296
    ∧ (buffer_4settoken bo junk cell uid start end_ creds).2.start < 4294967296
    ∧ (buffer_4settoken bo junk cell uid start end_ creds).2.end_ < 4294967296 := by
  refine ⟨?_, ?_, ?_, ?_, ?_⟩
  · simp only [buffer_4settoken]
    exact to_u32_lt _
  · simp [buffer_4settoken, hkey]
  · simp only [buffer_4settoken]
    exact Nat.mod_lt _ (by norm_num)
  · simp only [buffer_4settoken]
    exact Nat.mod_lt _ (by norm_num)
  · simp only [buffer_4settoken]
    split
    · exact Nat.mod_lt _ (by norm_num)
    · exact Nat.mod_lt _ (by norm_num)

/-! ## C10: decoding the token blob -/

/-- C10.  For every ticket, 8-byte key, uid, start and end time and every cell
name without a NUL char, decoding the buffer `minikafs_5settoken` submits, and
the one `minikafs_4settoken` submits, according to the blob layout gives back
the ticket, the plain token the function stored (kvno, key bytes, uid, start,
end) and the cell name; and for any plain token with an 8-byte key and fields
that fit 32 bits, decoding its blob gives back its fields.  The key, uid and
start of the stored token (and for `minikafs_4settoken` its kvno) are those
the function was given. -/
theorem C10_token_round_trip {σ : Type} (bo : ByteOrder) (junk : Nat → Nat)
    (pioctl : minikafs_ioblock → σ → Int × σ) (cell : String) (creds : krb5_creds)
    (creds4 : CREDENTIALS) (uid start end_ : Nat) (s : σ)
    (hkey : creds.keyblock.length = 8) (hlen : creds.ticket.length < 4294967296)
    (hkey4 : creds4.session.length = 8) (hlen4 : creds4.ticket_st.length < 4294967296)
    (hcell : ∀ c ∈ cell.data, c ≠ Char.ofNat 0) :
    (∃ iob, (minikafs_5settoken bo junk pioctl cell creds uid s).submitted = [iob]
      ∧ deserialize bo iob.in_
        = some ⟨creds.ticket, (buffer_5settoken bo junk cell creds uid).2, 0, cell⟩)
    ∧ (∃ iob, (minikafs_4settoken bo junk pioctl cell uid start end_ creds4 s).submitted = [iob]
      ∧ deserialize bo iob.in_
        = some ⟨creds4.ticket_st, (buffer_4settoken bo junk cell uid start end_ creds4).2, 0,
            cell⟩)
    ∧ (∀ t : minikafs_plain_token, t.kvno < 4294967296 → t.key.length = 8 →
        t.uid < 4294967296 → t.start < 4294967296 → t.end_ < 4294967296 →
        deserialize bo (serialize bo ⟨creds.ticket, t, 0, cell⟩)
          = some ⟨creds.ticket, t, 0, cell⟩)
    ∧ ((buffer_5settoken bo junk cell creds uid).2.key = creds.keyblock
      ∧ (buffer_5settoken bo junk cell creds uid).2.uid = uid % 4294967296
      ∧ (buffer_5settoken bo junk cell creds uid).2.start = to_u32 creds.starttime)
    ∧ ((buffer_4settoken bo junk cell uid start end_ creds4).2.kvno = to_u32 creds4.kvno
      ∧ (buffer_4settoken bo junk cell uid start end_ creds4).2.key = creds4.session
      ∧ (buffer_4settoken bo junk cell uid start end_ creds4).2.uid = uid % 4294967296
      ∧ (buffer_4settoken bo junk cell uid start end_ creds4).2.start
          = start % 4294967296) := by
  refine ⟨?_, ?_, ?_, ?_, ?_⟩
  · obtain ⟨v1, v2, v3, v4, v5⟩ := plain_token_5_valid bo junk cell creds uid hkey
    refine ⟨_, submitted_5settoken_iob bo junk pioctl cell creds uid s hkey, ?_⟩
    show deserialize bo (buffer_5settoken bo junk cell creds uid).1 = _
    rw [buffer_5settoken_eq bo junk cell creds uid hkey hlen]
    exact deserialize_serialize bo _ hlen v1 v2 v3 v4 v5 (by norm_num) hcell
  · obtain ⟨v1, v2, v3, v4, v5⟩ := plain_token_4_valid bo junk cell uid start end_ creds4 hkey4
    refine ⟨_, submitted_4settoken_iob bo junk pioctl cell uid start end_ creds4 s, ?_⟩
    show deserialize bo (buffer_4settoken bo junk cell uid start end_ creds4).1 = _
    rw [buffer_4settoken_eq bo junk cell uid start end_ creds4 hkey4 hlen4]
    exact deserialize_serialize bo _ hlen4 v1 v2 v3 v4 v5 (by norm_num) hcell
  · intro t v1 v2 v3 v4 v5
    exact deserialize_serialize bo _ hlen v1 v2 v3 v4 v5 (by norm_num) hcell
  · refine ⟨?_, rfl, rfl⟩
    simp [buffer_5settoken, v5_creds_key_contents, v5_creds_key_length]
  · refine ⟨rfl, ?_, rfl, rfl⟩
    simp only [buffer_4settoken]
    exact List.take_of_length_le (by omega)

/-- Witness for C10: version-4 credentials with a 2-byte ticket, the cell
`example.org`, on a big-endian machine. -/
theorem C10_token_round_trip_witness :
    ∃ iob, (minikafs_4settoken (σ := Unit) ByteOrder.big (fun _ => 170) (fun _ t => (0, t))
        "example.org" 500 1000 2000 ⟨[1, 2, 3, 4, 5, 6, 7, 8], 3, [9, 9]⟩ ()).submitted = [iob]
      ∧ deserialize ByteOrder.big iob.in_
        = some ⟨[9, 9], (buffer_4settoken ByteOrder.big (fun _ => 170) "example.org" 500 1000
            2000 ⟨[1, 2, 3, 4, 5, 6, 7, 8], 3, [9, 9]⟩).2, 0, "example.org"⟩ :=
  (C10_token_round_trip (σ := Unit) ByteOrder.big (fun _ => 170) (fun _ t => (0, t))
    "example.org" ⟨[1, 2, 3], [11, 12, 13, 14, 15, 16, 17, 18], 1000, 2000⟩
    ⟨[1, 2, 3, 4, 5, 6, 7, 8], 3, [9, 9]⟩ 500 1000 2000 ()
    (by decide) (by decide) (by decide) (by decide) (by decide)).2.1

/-! ## C18: the probe for AFS -/

/-- C18.  `minikafs_has_afs` returns 1 exactly when `sigaction` installed the
ignoring disposition for `SIGSYS` and the query returned 0, or returned -1
with `errno` other than `ENOSYS`; in every other case it returns 0, in
particular when the query fails with `errno` equal to `ENOSYS`; and when the
disposition was installed it is restored after the query. -/
theorem C18_has_afs (enosys : Int) (e : HasAfsEnv) :
    ((minikafs_has_afs enosys e).1 = 1 ↔
      e.sigaction_install = 0
        ∧ (e.cell_of_file = 0 ∨ (e.cell_of_file = -1 ∧ e.errno ≠ enosys)))
    ∧ ((minikafs_has_afs enosys e).1 ≠ 1 → (minikafs_has_afs enosys e).1 = 0)
    ∧ (e.cell_of_file ≠ 0 → e.errno = enosys → (minikafs_has_afs enosys e).1 = 0)
    ∧ (e.sigaction_install = 0 →
        (minikafs_has_afs enosys e).2
          = [HasAfsCall.sigaction_ignore, HasAfsCall.cell_of_file,
              HasAfsCall.sigaction_restore]) := by
  unfold minikafs_has_afs
  by_cases h1 : e.sigaction_install = 0
  · by_cases h2 : e.cell_of_file = 0 ∨ (e.cell_of_file = -1 ∧ e.errno ≠ enosys)
    · simp only [h1, ne_eq, not_true_eq_false, if_false, if_pos h2, true_and]
      refine ⟨by simp [h2], by simp, ?_, by simp⟩
      intro hq he
      rcases h2 with h2 | h2
      · exact absurd h2 hq
      · exact absurd he h2.2
    · simp only [h1, ne_eq, not_true_eq_false, if_false, if_neg h2, true_and]
      refine ⟨by simp [h2], by simp, by simp, by simp⟩
  · simp [h1]

/-- Witness for C18: the query returns -1 with `errno` equal to `ENOSYS` (38
on Linux). -/
theorem C18_has_afs_witness :
    (minikafs_has_afs 38 ⟨0, -1, 38⟩).1 = 0 :=
  (C18_has_afs 38 ⟨0, -1, 38⟩).2.2.1 (by decide) (by decide)

theorem loop4_eq {σ : Type} (log4 : Call4 → σ → Int × σ) (uid : Nat)
    (cell realm localrealm : String) (bs : List String) (ret : Int) (s : σ) :
    loop4 log4 uid cell realm localrealm bs ret s
      = run_until_zero log4 (candidates4_of cell realm localrealm uid bs) ret s := by
  induction bs generalizing ret s with
  | nil => simp [loop4, run_until_zero, candidates4_of]
  | cons b bs ih =>
    simp only [loop4, candidates4_of]
    by_cases h1 : (log4 ⟨cell, b, cell, realm, uid⟩ s).1 = 0
    · simp [run_until_zero, h1]
    · by_cases hc : strcasecmp realm cell = 0
      · by_cases h2 : (log4 ⟨cell, b, "", realm, uid⟩ (log4 ⟨cell, b, cell, realm, uid⟩ s).2).1 = 0
        · simp [run_until_zero, h1, hc, h2]
        · by_cases hd : strcmp realm localrealm = 0
          · simp [run_until_zero, h1, hc, h2, hd, ih]
          · by_cases h3 : (log4 ⟨cell, b, cell, localrealm, uid⟩ (log4 ⟨cell, b, "", realm, uid⟩ (log4 ⟨cell, b, cell, realm, uid⟩ s).2).2).1 = 0
            · simp [run_until_zero, h1, hc, h2, hd, h3]
            · simp [run_until_zero, h1, hc, h2, hd, h3, ih]
      · by_cases hd : strcmp realm localrealm = 0
        · simp [run_until_zero, h1, hc, hd, ih]
        · by_cases h3 : (log4 ⟨cell, b, cell, localrealm, uid⟩ (log4 ⟨cell, b, cell, realm, uid⟩ s).2).1 = 0
          · simp [run_until_zero, h1, hc, hd, h3]
          · simp [run_until_zero, h1, hc, hd, h3, ih]

theorem candidates4_triples (cell realm localrealm : String) (uid : Nat) :
    (candidates4_of cell realm localrealm uid base).map (fun c => (c.service, c.inst, c.realm))
      = (candidate_triples cell realm localrealm).map krb4_of_triple := by
  by_cases hc : strcasecmp realm cell = 0 <;> by_cases hd : localrealm = realm
  · subst hd
    simp [candidates4_of, base, candidate_triples, krb4_of_triple, hc, strcmp_eq_zero_iff]
  · have hd2 : ¬ realm = localrealm := fun h => hd h.symm
    simp [candidates4_of, base, candidate_triples, krb4_of_triple, hc, hd, hd2,
      strcmp_eq_zero_iff]
  · subst hd
    simp [candidates4_of, base, candidate_triples, krb4_of_triple, hc, strcmp_eq_zero_iff]
  · have hd2 : ¬ realm = localrealm := fun h => hd h.symm
    simp [candidates4_of, base, candidate_triples, krb4_of_triple, hc, hd, hd2,
      strcmp_eq_zero_iff]

theorem candidates5_triples (cell realm D : String) :
    candidates cell realm (some D) = (candidate_triples cell realm D).map principal_of_triple := by
  by_cases hc : strcasecmp realm cell = 0 <;> by_cases hd : D = realm <;>
    simp [candidates, candidates_for, candidate_triples, principal_of_triple, hc, hd,
      strcmp_eq_zero_iff]

theorem ruz_trace_failed {α σ : Type} (run : α → σ → Int × σ) (as : List α) (ret : Int)
    (s : σ) (h : ∀ a t, (run a t).1 ≠ 0) :
    ∀ x ∈ (run_until_zero run as ret s).2.1, x.2 ≠ 0 := by
  induction as generalizing ret s with
  | nil => simp [run_until_zero]
  | cons a as ih =>
    simp only [run_until_zero, if_neg (h a s)]
    intro x hx
    simp only [List.mem_cons] at hx
    rcases hx with rfl | hx
    · exact h a s
    · exact ih _ _ x hx

theorem minikafs_4log_eq {σ : Type} (cfg : Config) (log4 : Call4 → σ → Int × σ) (e : Env4)
    (context : Nat) (cell : String) (uid : Nat) (s : σ)
    (hl : e.get_lrealm.1 = 0) (hs : e.strdup_ok = true) :
    ((minikafs_4log cfg log4 e context cell uid s).ret,
      (minikafs_4log cfg log4 e context cell uid s).attempts,
      (minikafs_4log cfg log4 e context cell uid s).state)
    = run_until_zero log4
        (candidates4_of cell (realm_buffer cfg e.realm context cell) e.get_lrealm.2 uid base)
        (-1) s := by
  simp only [minikafs_4log, hl, hs, ne_eq, not_true_eq_false, if_false, Bool.true_eq_false]
  rw [loop4_eq]

/-! ## C19: the protocol-4 cascade and the protocol-5 cascade -/

/-- C19 (amended).  When the calls before both loops succeed, the local realm
of Kerberos 4 and the default realm of Kerberos 5 are the same realm `D`, both
functions have the realm `R` in their `realm` buffer, the candidate principals
fit the buffer `principal` of `minikafs_5log`, and every attempt fails, then
every principal name written fits the buffer, and `minikafs_4log` and
`minikafs_5log` attempt the same ordered sequence of (service, instance,
realm) candidates: `minikafs_5log` as principal names, `minikafs_4log` as the
three strings, the null instance being the empty string.  And whenever
`krb_get_lrealm` fails, whatever else holds, `minikafs_4log` returns -1,
attempts no candidate and leaves the state as it was. -/
theorem C19_same_candidates {σ τ : Type} (cfg : Config) (log5 : Call5 → σ → Int × σ)
    (log4 : Call4 → τ → Int × τ) (e5 : Env5) (e4 : Env4) (context ccache : Nat)
    (cell : String) (uid : Nat) (try_v5_2b : Int) (s5 : σ) (s4 : τ) (R D : String)
    (hsetup : reaches_loop5 e5 context ccache)
    (hD5 : defaultrealm5 e5 = some D)
    (hD4 : e4.get_lrealm = (0, D)) (hdup : e4.strdup_ok = true)
    (hR5 : realm5 cfg e5 context cell = R)
    (hR4 : realm_buffer cfg e4.realm context cell = R)
    (hfit : principal_fits cell (realm5 cfg e5 context cell) (defaultrealm5 e5))
    (hfail5 : ∀ c t, (log5 c t).1 ≠ 0) (hfail4 : ∀ c t, (log4 c t).1 ≠ 0) :
    (∀ a ∈ (minikafs_5log cfg log5 e5 context ccache cell uid try_v5_2b s5).attempts,
      strlen a.1.principal + 1 ≤ principal_size cell)
    ∧ (∀ (e : Env4) (lg : Call4 → τ → Int × τ) (ctx : Nat) (c : String) (u : Nat) (t : τ),
      e.get_lrealm.1 ≠ 0 →
      (minikafs_4log cfg lg e ctx c u t).ret = -1
      ∧ (minikafs_4log cfg lg e ctx c u t).attempts = []
      ∧ (minikafs_4log cfg lg e ctx c u t).state = t)
    ∧ (minikafs_5log cfg log5 e5 context ccache cell uid try_v5_2b s5).attempts.map
        (fun a => a.1.principal)
      = (candidate_triples cell R D).map principal_of_triple
    ∧ (minikafs_4log cfg log4 e4 context cell uid s4).attempts.map
        (fun a => (a.1.service, a.1.inst, a.1.realm))
      = (candidate_triples cell R D).map krb4_of_triple := by
  refine ⟨attempts_fit cfg log5 e5 context ccache cell uid try_v5_2b s5 hfit, ?_, ?_⟩
  · intro e lg ctx c u t hl
    simp [minikafs_4log, hl]
  constructor
  · have hall : ∀ x ∈ (minikafs_5log cfg log5 e5 context ccache cell uid try_v5_2b s5).attempts,
        x.2 ≠ 0 := by
      have heq := minikafs_5log_eq cfg log5 e5 context ccache cell uid try_v5_2b s5 hsetup
      have h2 : (minikafs_5log cfg log5 e5 context ccache cell uid try_v5_2b s5).attempts
          = (run_until_zero log5
            ((candidates cell (realm5 cfg e5 context cell) (defaultrealm5 e5)).map
              (fun p => (⟨ctx5 e5 context, use_ccache5 ccache, cell, p, uid, try_v5_2b⟩
                : Call5)))
            (-1) s5).2.1 := by rw [← heq]
      rw [h2]
      exact ruz_trace_failed log5 _ _ _ hfail5
    rw [attempts_principals_all cfg log5 e5 context ccache cell uid try_v5_2b s5 hsetup hall,
      hR5, hD5, candidates5_triples]
  · have hl : e4.get_lrealm.1 = 0 := by rw [hD4]
    have heq := minikafs_4log_eq cfg log4 e4 context cell uid s4 hl hdup
    have h2 : (minikafs_4log cfg log4 e4 context cell uid s4).attempts
        = (run_until_zero log4
          (candidates4_of cell (realm_buffer cfg e4.realm context cell) e4.get_lrealm.2 uid base)
          (-1) s4).2.1 := by rw [← heq]
    have hall := (ruz_all_fail log4
      (candidates4_of cell (realm_buffer cfg e4.realm context cell) e4.get_lrealm.2 uid base)
      (-1) s4 (by decide) hfail4).1
    rw [← h2] at hall
    have h3 := congrArg (List.map (fun c : Call4 => (c.service, c.inst, c.realm))) hall
    rw [List.map_map] at h3
    have hcomp : ((fun c : Call4 => (c.service, c.inst, c.realm)) ∘ Prod.fst)
        = (fun a : Call4 × Int => (a.1.service, a.1.inst, a.1.realm)) := rfl
    rw [hcomp] at h3
    rw [h3, hR4, hD4, candidates4_triples]

/-- Witness for C19: cell `example.org` in realm `EXAMPLE.ORG`, default and
local realm `EXAMPLE.COM`. -/
theorem C19_same_candidates_witness :
    (minikafs_5log (σ := Unit) ⟨true, 4096⟩ (fun _ t => (-1, t))
        ⟨true, (0, 7), (0, "EXAMPLE.COM"), ⟨true, 0, 0, 0, 0, "EXAMPLE.ORG"⟩, (0, 9)⟩
        7 9 "example.org" 1000 0 ()).attempts.map (fun a => a.1.principal)
      = (candidate_triples "example.org" "EXAMPLE.ORG" "EXAMPLE.COM").map principal_of_triple
    ∧ (minikafs_4log (σ := Unit) ⟨true, 4096⟩ (fun _ t => (-1, t))
        ⟨(0, "EXAMPLE.COM"), ⟨true, 0, 0, 0, 0, "EXAMPLE.ORG"⟩, true⟩
        7 "example.org" 1000 ()).attempts.map (fun a => (a.1.service, a.1.inst, a.1.realm))
      = (candidate_triples "example.org" "EXAMPLE.ORG" "EXAMPLE.COM").map krb4_of_triple :=
  (C19_same_candidates (σ := Unit) (τ := Unit) ⟨true, 4096⟩ (fun _ t => (-1, t))
    (fun _ t => (-1, t))
    ⟨true, (0, 7), (0, "EXAMPLE.COM"), ⟨true, 0, 0, 0, 0, "EXAMPLE.ORG"⟩, (0, 9)⟩
    ⟨(0, "EXAMPLE.COM"), ⟨true, 0, 0, 0, 0, "EXAMPLE.ORG"⟩, true⟩
    7 9 "example.org" 1000 0 () () "EXAMPLE.ORG" "EXAMPLE.COM"
    (by decide) (by decide) (by decide) (by decide) (by decide) (by decide) (by decide)
    (by intro c t; simp) (by intro c t; simp)).2.2

/-- Counterexample to C19 as stated: when no default realm is available
(`krb5_get_default_realm` and `krb_get_lrealm` both fail), `minikafs_5log`
attempts the four principals of the cell's realm, all of which fit the
buffer, and `minikafs_4log` returns -1 before its loop and attempts
nothing. -/
theorem C19_counterexample :
    (minikafs_5log (σ := Unit) ⟨true, 4096⟩ (fun _ t => (-1, t))
        ⟨true, (0, 7), (-1, ""), ⟨true, 0, 0, 0, 0, "EXAMPLE.ORG"⟩, (0, 9)⟩
        7 9 "example.org" 1000 0 ()).attempts.map (fun a => a.1.principal)
      = ["afs/example.org@EXAMPLE.ORG", "afs@EXAMPLE.ORG",
         "afsx/example.org@EXAMPLE.ORG", "afsx@EXAMPLE.ORG"]
    ∧ (minikafs_4log (σ := Unit) ⟨true, 4096⟩ (fun _ t => (-1, t))
        ⟨(-1, ""), ⟨true, 0, 0, 0, 0, "EXAMPLE.ORG"⟩, true⟩
        7 "example.org" 1000 ()).attempts.map (fun a => (a.1.service, a.1.inst, a.1.realm))
      = []
    ∧ (minikafs_4log (σ := Unit) ⟨true, 4096⟩ (fun _ t => (-1, t))
        ⟨(-1, ""), ⟨true, 0, 0, 0, 0, "EXAMPLE.ORG"⟩, true⟩
        7 "example.org" 1000 ()).ret = -1
    ∧ principal_fits "example.org" "EXAMPLE.ORG" none := by
  decide

/-! ## Lemmas on the calls for one principal -/

theorem submit_creds_calls {σ : Type} (b : TokenBuild) (k : Krb5 σ) (cell : String)
    (creds : krb5_creds) (uid : Nat) (try_v5_2b : Int) (s : σ) :
    (submit_creds b k cell creds uid try_v5_2b s).2.1.filterMap probe_of = []
    ∧ (submit_creds b k cell creds uid try_v5_2b s).2.1.filterMap request_of = []
    ∧ ((submit_creds b k cell creds uid try_v5_2b s).1 = false →
        ∀ c ∈ (submit_creds b k cell creds uid try_v5_2b s).2.1, ∀ v, submit_of c = some v →
          v ≠ 0) := by
  unfold submit_creds
  by_cases ht : try_v5_2b ≠ 0
  · rw [if_pos ht]
    simp only
    by_cases h1 : (minikafs_5settoken b.bo b.junk k.pioctl cell creds uid s).ret = 0
    · simp [h1, probe_of, request_of]
    · simp only [h1, if_false]
      refine ⟨by simp [probe_of], by simp [request_of], ?_⟩
      intro hf c hc v hv
      simp only [decide_eq_false_iff_not] at hf
      simp only [List.mem_cons, List.mem_singleton, List.not_mem_nil, or_false] at hc
      rcases hc with rfl | rfl
      · simp only [submit_of, Option.some.injEq] at hv; rw [← hv]; exact h1
      · simp only [submit_of, Option.some.injEq] at hv; rw [← hv]; exact hf
  · rw [if_neg ht]
    simp only
    refine ⟨by simp [probe_of], by simp [request_of], ?_⟩
    intro hf c hc v hv
    simp only [decide_eq_false_iff_not] at hf
    simp only [List.mem_singleton] at hc
    subst hc
    simp only [submit_of, Option.some.injEq] at hv; rw [← hv]; exact hf

theorem cache_loop_calls {σ : Type} (b : TokenBuild) (k : Krb5 σ) (ccache : Nat)
    (cell principal : String) (uid : Nat) (try_v5_2b : Int) (es : List Enctype) (s : σ) :
    (cache_loop b k ccache cell principal uid try_v5_2b es s).2.1.filterMap request_of = []
    ∧ (cache_loop b k ccache cell principal uid try_v5_2b es s).2.1.filterMap probe_of
        = es.take ((cache_loop b k ccache cell principal uid try_v5_2b es s).2.1.filterMap
            probe_of).length
    ∧ ((cache_loop b k ccache cell principal uid try_v5_2b es s).1 = false →
        (cache_loop b k ccache cell principal uid try_v5_2b es s).2.1.filterMap probe_of = es
        ∧ ∀ c ∈ (cache_loop b k ccache cell principal uid try_v5_2b es s).2.1,
            ∀ v, submit_of c = some v → v ≠ 0) := by
  induction es generalizing s with
  | nil => simp [cache_loop]
  | cons e es ih =>
    simp only [cache_loop]
    by_cases h1 : (k.cc_retrieve_cred ccache principal e s).1.1 = 0
    · simp only [h1, if_true]
      obtain ⟨sp, sr, sf⟩ := submit_creds_calls b k cell
        (k.cc_retrieve_cred ccache principal e s).1.2 uid try_v5_2b
        (k.cc_retrieve_cred ccache principal e s).2
      by_cases h2 : (submit_creds b k cell (k.cc_retrieve_cred ccache principal e s).1.2 uid
          try_v5_2b (k.cc_retrieve_cred ccache principal e s).2).1 = true
      · simp only [h2, if_true]
        refine ⟨by simp [request_of, sr], by simp [probe_of, sp], by simp⟩
      · simp only [h2, if_false]
        obtain ⟨ir, ip, ifl⟩ := ih (submit_creds b k cell
          (k.cc_retrieve_cred ccache principal e s).1.2 uid try_v5_2b
          (k.cc_retrieve_cred ccache principal e s).2).2.2
        refine ⟨by simp [request_of, sr, ir], ?_, ?_⟩
        · simp [probe_of, sp]
          rw [← ip]
        · intro hf
          obtain ⟨i1, i2⟩ := ifl hf
          refine ⟨by simp [probe_of, sp, i1], ?_⟩
          intro c hc v hv
          rcases List.mem_cons.1 hc with rfl | hc
          · cases hv
          rcases List.mem_append.1 hc with hc | hc
          · exact sf (by simpa using h2) c hc v hv
          · exact i2 c hc v hv
    · simp only [h1, if_false]
      obtain ⟨ir, ip, ifl⟩ := ih (k.cc_retrieve_cred ccache principal e s).2
      refine ⟨by simp [request_of, ir], ?_, ?_⟩
      · simp [probe_of]
        rw [← ip]
      · intro hf
        obtain ⟨i1, i2⟩ := ifl hf
        refine ⟨by simp [probe_of, i1], ?_⟩
        intro c hc v hv
        rcases List.mem_cons.1 hc with rfl | hc
        · cases hv
        · exact i2 c hc v hv

theorem split_after_no_request (A B pre post : List PrincipalCall) (e : Enctype) (v : Int)
    (hA : A.filterMap request_of = [])
    (h : pre ++ PrincipalCall.get_credentials e v :: post = A ++ B) :
    ∃ B1, pre = A ++ B1 ∧ B = B1 ++ PrincipalCall.get_credentials e v :: post := by
  induction A generalizing pre with
  | nil => exact ⟨pre, by simp, by simpa using h.symm⟩
  | cons a A ih =>
    cases pre with
    | nil =>
      simp only [List.nil_append, List.cons_append, List.cons.injEq] at h
      rw [← h.1] at hA
      simp [request_of] at hA
    | cons p pre =>
      simp only [List.cons_append, List.cons.injEq] at h
      have hA2 : A.filterMap request_of = [] := by
        cases hr : request_of a with
        | none => simpa [List.filterMap_cons, hr] using hA
        | some x => simp [List.filterMap_cons, hr] at hA
      obtain ⟨B1, h1, h2⟩ := ih pre hA2 h.2
      exact ⟨B1, by rw [h.1, h1]; rfl, h2⟩

theorem request_loop_calls {σ : Type} (b : TokenBuild) (k : Krb5 σ) (ccache : Nat)
    (cell principal : String) (uid : Nat) (try_v5_2b : Int) (es : List Enctype) (s : σ) :
    (request_loop b k ccache cell principal uid try_v5_2b es s).2.1.filterMap probe_of = []
    ∧ (request_loop b k ccache cell principal uid try_v5_2b es s).2.1.filterMap request_of
        = es.take ((request_loop b k ccache cell principal uid try_v5_2b es s).2.1.filterMap
            request_of).length
    ∧ (∀ pre post e v,
        (request_loop b k ccache cell principal uid try_v5_2b es s).2.1
          = pre ++ PrincipalCall.get_credentials e v :: post →
        ∀ c ∈ pre, ∀ w, submit_of c = some w → w ≠ 0) := by
  induction es generalizing s with
  | nil => simp [request_loop]
  | cons e es ih =>
    simp only [request_loop]
    by_cases h1 : (k.get_credentials ccache principal e s).1.1 = 0
    · simp only [h1, if_true]
      obtain ⟨sp, sr, sf⟩ := submit_creds_calls b k cell
        (k.get_credentials ccache principal e s).1.2 uid try_v5_2b
        (k.get_credentials ccache principal e s).2
      by_cases h2 : (submit_creds b k cell (k.get_credentials ccache principal e s).1.2 uid
          try_v5_2b (k.get_credentials ccache principal e s).2).1 = true
      · simp only [h2, if_true]
        refine ⟨by simp [probe_of, sp], by simp [request_of, sr], ?_⟩
        intro pre post e2 v hsplit c hc w hw
        cases pre with
        | nil => simp at hc
        | cons p pre =>
          injection hsplit with hp hrest
          have hreq := congrArg (List.filterMap request_of) hrest
          rw [sr] at hreq
          simp [request_of] at hreq
      · simp only [h2, if_false]
        obtain ⟨ip, ir, ifl⟩ := ih (submit_creds b k cell
          (k.get_credentials ccache principal e s).1.2 uid try_v5_2b
          (k.get_credentials ccache principal e s).2).2.2
        refine ⟨by simp [probe_of, sp, ip], ?_, ?_⟩
        · simp [request_of, sr]
          rw [← ir]
        · intro pre post e2 v hsplit c hc w hw
          cases pre with
          | nil => simp at hc
          | cons p pre =>
            injection hsplit with hp hrest
            rcases List.mem_cons.1 hc with rfl | hc
            · rw [← hp] at hw; cases hw
            · -- pre ++ req :: post = submit calls ++ rest
              obtain ⟨B1, hpre, hB⟩ := split_after_no_request _ _ pre post e2 v sr hrest.symm
              rw [hpre] at hc
              rcases List.mem_append.1 hc with hc | hc
              · exact sf (by simpa using h2) c hc w hw
              · exact ifl B1 post e2 v hB c hc w hw
    · simp only [h1, if_false]
      obtain ⟨ip, ir, ifl⟩ := ih (k.get_credentials ccache principal e s).2
      refine ⟨by simp [probe_of, ip], ?_, ?_⟩
      · simp [request_of]
        rw [← ir]
      · intro pre post e2 v hsplit c hc w hw
        cases pre with
        | nil => simp at hc
        | cons p pre =>
          injection hsplit with hp hrest
          rcases List.mem_cons.1 hc with rfl | hc
          · rw [← hp] at hw; cases hw
          · exact ifl pre post e2 v hrest c hc w hw

/-! ## C20: cache probes and requests for a fresh ticket -/

/-- C20 (amended).  In every run of `minikafs_5log_with_principal` the probes
of the credential cache are made for DES-CBC-CRC, DES-CBC-MD4, DES-CBC-MD5 in
this order, and so are the requests to the ticket-granting service; before any
request all three probes have been made and none is made after it; and a
request is made only when every ticket submitted before it, from the cache or
fresh, was refused (each probe found no ticket, or found one that both
`minikafs_5settoken`, if tried, and `minikafs_5convert_and_log` failed to
set). -/
theorem C20_cache_before_request {σ : Type} (b : TokenBuild) (k : Krb5 σ) (ccache : Nat)
    (cell principal : String) (uid : Nat) (try_v5_2b : Int) (s : σ) :
    (minikafs_5log_with_principal b k ccache cell principal uid try_v5_2b s).calls.filterMap
        probe_of
      = etypes.take ((minikafs_5log_with_principal b k ccache cell principal uid try_v5_2b
          s).calls.filterMap probe_of).length
    ∧ (minikafs_5log_with_principal b k ccache cell principal uid try_v5_2b s).calls.filterMap
        request_of
      = etypes.take ((minikafs_5log_with_principal b k ccache cell principal uid try_v5_2b
          s).calls.filterMap request_of).length
    ∧ (∀ pre post e v,
        (minikafs_5log_with_principal b k ccache cell principal uid try_v5_2b s).calls
          = pre ++ PrincipalCall.get_credentials e v :: post →
        pre.filterMap probe_of = etypes ∧ post.filterMap probe_of = []
        ∧ ∀ c ∈ pre, ∀ w, submit_of c = some w → w ≠ 0) := by
  unfold minikafs_5log_with_principal
  by_cases hc : (k.cc_get_principal ccache s).1 ≠ 0
  · rw [if_pos hc]
    refine ⟨by simp [probe_of], by simp [request_of], ?_⟩
    intro pre post e v h
    have := congrArg (List.filterMap request_of) h
    simp [request_of] at this
  · rw [if_neg hc]
    by_cases hp : (k.parse_name principal (k.cc_get_principal ccache s).2).1 ≠ 0
    · simp only [if_pos hp]
      refine ⟨by simp [probe_of], by simp [request_of], ?_⟩
      intro pre post e v h
      have := congrArg (List.filterMap request_of) h
      simp [request_of] at this
    · simp only [if_neg hp]
      obtain ⟨cr, cp, cf⟩ := cache_loop_calls b k ccache cell principal uid try_v5_2b etypes
        (k.parse_name principal (k.cc_get_principal ccache s).2).2
      by_cases h1 : (cache_loop b k ccache cell principal uid try_v5_2b etypes
          (k.parse_name principal (k.cc_get_principal ccache s).2).2).1 = true
      · simp only [if_pos h1]
        refine ⟨?_, by simp [request_of, cr], ?_⟩
        · simp only [List.filterMap_append]
          simp only [List.filterMap_cons, probe_of, List.filterMap_nil, List.nil_append]
          exact cp
        · intro pre post e v h
          have := congrArg (List.filterMap request_of) h
          simp [request_of, cr] at this
      · simp only [if_neg h1]
        have h1f : (cache_loop b k ccache cell principal uid try_v5_2b etypes
          (k.parse_name principal (k.cc_get_principal ccache s).2).2).1 = false := by
          simpa using h1
        obtain ⟨cfp, cfs⟩ := cf h1f
        obtain ⟨rp, rr, rs⟩ := request_loop_calls b k ccache cell principal uid try_v5_2b etypes
          (cache_loop b k ccache cell principal uid try_v5_2b etypes
            (k.parse_name principal (k.cc_get_principal ccache s).2).2).2.2
        have key : ∀ (calls : List PrincipalCall),
            calls = [PrincipalCall.cc_get_principal (k.cc_get_principal ccache s).1,
                PrincipalCall.parse_name
                  (k.parse_name principal (k.cc_get_principal ccache s).2).1]
              ++ (cache_loop b k ccache cell principal uid try_v5_2b etypes
                  (k.parse_name principal (k.cc_get_principal ccache s).2).2).2.1
              ++ (request_loop b k ccache cell principal uid try_v5_2b etypes
                  (cache_loop b k ccache cell principal uid try_v5_2b etypes
                    (k.parse_name principal (k.cc_get_principal ccache s).2).2).2.2).2.1 →
            calls.filterMap probe_of = etypes.take (calls.filterMap probe_of).length
            ∧ calls.filterMap request_of = etypes.take (calls.filterMap request_of).length
            ∧ (∀ pre post e v, calls = pre ++ PrincipalCall.get_credentials e v :: post →
                pre.filterMap probe_of = etypes ∧ post.filterMap probe_of = []
                ∧ ∀ c ∈ pre, ∀ w, submit_of c = some w → w ≠ 0) := by
          intro calls hcalls
          have hprobes : calls.filterMap probe_of = etypes := by
            rw [hcalls]
            simp [probe_of, cfp, rp]
          have hreqs : calls.filterMap request_of
              = (request_loop b k ccache cell principal uid try_v5_2b etypes
                  (cache_loop b k ccache cell principal uid try_v5_2b etypes
                    (k.parse_name principal (k.cc_get_principal ccache s).2).2).2.2).2.1.filterMap
                  request_of := by
            rw [hcalls]
            simp [request_of, cr]
          refine ⟨by rw [hprobes]; simp [etypes], by rw [hreqs]; exact rr, ?_⟩
          intro pre post e v hsplit
          have hA : ([PrincipalCall.cc_get_principal (k.cc_get_principal ccache s).1,
                PrincipalCall.parse_name
                  (k.parse_name principal (k.cc_get_principal ccache s).2).1]
              ++ (cache_loop b k ccache cell principal uid try_v5_2b etypes
                  (k.parse_name principal (k.cc_get_principal ccache s).2).2).2.1).filterMap
                request_of = [] := by
            simp [request_of, cr]
          obtain ⟨B1, hpre, hB⟩ := split_after_no_request _ _ pre post e v hA
            (by rw [← hsplit, hcalls])
          have hpB : (B1 ++ PrincipalCall.get_credentials e v :: post).filterMap probe_of = [] := by
            rw [← hB]; exact rp
          simp only [List.filterMap_append, List.append_eq_nil, List.filterMap_cons,
            probe_of] at hpB
          refine ⟨?_, hpB.2, ?_⟩
          · rw [hpre]
            simp [probe_of, cfp, hpB.1]
          · intro c hc w hw
            rw [hpre] at hc
            rcases List.mem_append.1 hc with hc | hc
            · rcases List.mem_append.1 hc with hc | hc
              · simp only [List.mem_cons, List.mem_singleton, List.not_mem_nil, or_false] at hc
                rcases hc with rfl | rfl <;> cases hw
              · exact cfs c hc w hw
            · exact rs B1 post e v hB c hc w hw
        split
        · exact key _ rfl
        · exact key _ rfl

/-- Witness for C20: the cache holds no matching ticket, and the first fresh
ticket is set directly. -/
theorem C20_cache_before_request_witness :
    (minikafs_5log_with_principal (σ := Unit) ⟨ByteOrder.little, fun _ => 170, true, true⟩
        ⟨fun _ t => (0, t), fun _ t => (0, t),
          fun _ _ _ t => ((-1, ⟨[], [], 0, 0⟩), t),
          fun _ _ _ t => ((0, ⟨[1, 2, 3], [11, 12, 13, 14, 15, 16, 17, 18], 1000, 2000⟩), t),
          fun _ t => (0, t), fun _ t => ((-1, ⟨[], 0, []⟩), t)⟩
        9 "example.org" "afs/example.org@EXAMPLE.ORG" 1000 1 ()).calls
      = [PrincipalCall.cc_get_principal 0, PrincipalCall.parse_name 0,
          PrincipalCall.cc_retrieve_cred Enctype.ENCTYPE_DES_CBC_CRC (-1),
          PrincipalCall.cc_retrieve_cred Enctype.ENCTYPE_DES_CBC_MD4 (-1),
          PrincipalCall.cc_retrieve_cred Enctype.ENCTYPE_DES_CBC_MD5 (-1)]
        ++ PrincipalCall.get_credentials Enctype.ENCTYPE_DES_CBC_CRC 0
          :: [PrincipalCall.settoken5 0]
    ∧ [PrincipalCall.cc_get_principal 0, PrincipalCall.parse_name 0,
          PrincipalCall.cc_retrieve_cred Enctype.ENCTYPE_DES_CBC_CRC (-1),
          PrincipalCall.cc_retrieve_cred Enctype.ENCTYPE_DES_CBC_MD4 (-1),
          PrincipalCall.cc_retrieve_cred Enctype.ENCTYPE_DES_CBC_MD5 (-1)].filterMap probe_of
        = etypes :=
  ⟨by decide,
    ((C20_cache_before_request (σ := Unit) ⟨ByteOrder.little, fun _ => 170, true, true⟩
        ⟨fun _ t => (0, t), fun _ t => (0, t),
          fun _ _ _ t => ((-1, ⟨[], [], 0, 0⟩), t),
          fun _ _ _ t => ((0, ⟨[1, 2, 3], [11, 12, 13, 14, 15, 16, 17, 18], 1000, 2000⟩), t),
          fun _ t => (0, t), fun _ t => ((-1, ⟨[], 0, []⟩), t)⟩
        9 "example.org" "afs/example.org@EXAMPLE.ORG" 1000 1 ()).2.2
      [PrincipalCall.cc_get_principal 0, PrincipalCall.parse_name 0,
          PrincipalCall.cc_retrieve_cred Enctype.ENCTYPE_DES_CBC_CRC (-1),
          PrincipalCall.cc_retrieve_cred Enctype.ENCTYPE_DES_CBC_MD4 (-1),
          PrincipalCall.cc_retrieve_cred Enctype.ENCTYPE_DES_CBC_MD5 (-1)]
      [PrincipalCall.settoken5 0] Enctype.ENCTYPE_DES_CBC_CRC 0 (by decide)).1⟩

/-- Counterexample to C20 as stated: the probe for DES-CBC-CRC finds a
matching cached ticket, setting it fails both ways, and fresh tickets are
requested all the same. -/
theorem C20_counterexample :
    (minikafs_5log_with_principal (σ := Unit) ⟨ByteOrder.little, fun _ => 170, true, true⟩
        ⟨fun _ t => (0, t), fun _ t => (0, t),
          fun _ _ e t => ((if e = Enctype.ENCTYPE_DES_CBC_CRC then 0 else -1,
            ⟨[1, 2, 3], [11, 12, 13, 14, 15, 16, 17, 18], 1000, 2000⟩), t),
          fun _ _ _ t => ((-1, ⟨[], [], 0, 0⟩), t),
          fun _ t => (-1, t), fun _ t => ((-1, ⟨[], 0, []⟩), t)⟩
        9 "example.org" "afs/example.org@EXAMPLE.ORG" 1000 1 ()).calls
      = [PrincipalCall.cc_get_principal 0, PrincipalCall.parse_name 0,
          PrincipalCall.cc_retrieve_cred Enctype.ENCTYPE_DES_CBC_CRC 0,
          PrincipalCall.settoken5 (-1), PrincipalCall.convert_and_log (-1),
          PrincipalCall.cc_retrieve_cred Enctype.ENCTYPE_DES_CBC_MD4 (-1),
          PrincipalCall.cc_retrieve_cred Enctype.ENCTYPE_DES_CBC_MD5 (-1),
          PrincipalCall.get_credentials Enctype.ENCTYPE_DES_CBC_CRC (-1),
          PrincipalCall.get_credentials Enctype.ENCTYPE_DES_CBC_MD4 (-1),
          PrincipalCall.get_credentials Enctype.ENCTYPE_DES_CBC_MD5 (-1)] := by
  decide

/-! ## Lemmas on the stash -/

/-! ## C15: the stash record is zero when it is released -/

/-- C15.  The last call of `_pam_krb5_stash_cleanup` is the `free` of the stash
record, it is the only one, and the record it releases has been overwritten
with zero bytes in every field: in particular the inline version-4 credentials
with their 8-byte session key and the protocol-5 credential structure read as
all zero. -/
theorem C15_cleanup_zeroes_record (cfg : Config) (stash : Stash) :
    (∃ calls content, _pam_krb5_stash_cleanup cfg stash = calls ++ [StashCall.free_stash content]
      ∧ (∀ c ∈ calls, ∀ x, c ≠ StashCall.free_stash x)
      ∧ content.key = none ∧ content.v5ctx = 0 ∧ content.v5attempted = 0
      ∧ content.v5result = 0 ∧ content.v5file = none
      ∧ content.v5creds = zero_krb5_creds
      ∧ content.v5setenv = 0 ∧ content.v5shm = 0 ∧ content.v5shm_owner = 0
      ∧ content.v4present = 0
      ∧ content.v4creds = zero_CREDENTIALS
      ∧ content.v4creds.session = [0, 0, 0, 0, 0, 0, 0, 0]
      ∧ content.v4file = none ∧ content.v4setenv = 0 ∧ content.v4shm = 0
      ∧ content.v4shm_owner = 0 ∧ content.afspag = 0) := by
  refine ⟨[StashCall.free_cred_contents stash.v5creds, StashCall.free_key stash.key]
      ++ (if stash.v5file ≠ none then [StashCall.xstrfree stash.v5file] else [])
      ++ (if cfg.use_krb4 = true ∧ stash.v4file ≠ none then [StashCall.xstrfree stash.v4file]
          else []), memset_zero stash, rfl, ?_, rfl, rfl, rfl, rfl, rfl, rfl, rfl, rfl, rfl, rfl,
      rfl, rfl, rfl, rfl, rfl, rfl, rfl⟩
  intro c hc x
  simp only [List.mem_append, List.mem_cons, List.mem_singleton, List.not_mem_nil,
    or_false] at hc
  rcases hc with (((rfl | rfl) | hc) | hc)
  · simp
  · simp
  · split at hc
    · simp only [List.mem_singleton] at hc; subst hc; simp
    · simp at hc
  · split at hc
    · simp only [List.mem_singleton] at hc; subst hc; simp
    · simp at hc

/-- Witness for C15: the record of a populated stash is released with zero
bytes in its credentials. -/
theorem C15_cleanup_zeroes_record_witness :
    ∃ calls content, _pam_krb5_stash_cleanup ⟨true, 4096⟩ (populated_stash 0)
        = calls ++ [StashCall.free_stash content]
      ∧ content.v5creds = zero_krb5_creds
      ∧ content.v4creds.session = [0, 0, 0, 0, 0, 0, 0, 0] := by
  obtain ⟨calls, content, h1, _, _, _, _, _, _, h8, _, _, _, _, _, h14, _⟩ :=
    C15_cleanup_zeroes_record ⟨true, 4096⟩ (populated_stash 0)
  exact ⟨calls, content, h1, h8, h14⟩

/-! ## C16: temporary files at disposal -/

/-- C16 (amended).  `_pam_krb5_stash_cleanup` calls neither `unlink` nor
`_pam_krb5_storetmp_delete`: a temporary file the stash references is left in
place, and its name is released with `xstrfree` exactly once (the name in
`v4file` only with `USE_KRB4`). -/
theorem C16_cleanup_unlinks_nothing (cfg : Config) (stash : Stash) :
    (∀ c ∈ _pam_krb5_stash_cleanup cfg stash,
        (∀ p, c ≠ StashCall.unlink p) ∧ (∀ p, c ≠ StashCall.storetmp_delete p))
    ∧ (∀ f, stash.v5file = some f → cfg.use_krb4 = false ∨ stash.v4file ≠ some f →
        (_pam_krb5_stash_cleanup cfg stash).count (StashCall.xstrfree (some f)) = 1)
    ∧ (∀ f, cfg.use_krb4 = true → stash.v4file = some f → stash.v5file ≠ some f →
        (_pam_krb5_stash_cleanup cfg stash).count (StashCall.xstrfree (some f)) = 1) := by
  refine ⟨?_, ?_, ?_⟩
  · intro c hc
    simp only [_pam_krb5_stash_cleanup, List.mem_append, List.mem_cons, List.mem_singleton,
      List.not_mem_nil, or_false] at hc
    rcases hc with ((((rfl | rfl) | hc) | hc) | rfl)
    · simp
    · simp
    · split at hc
      · simp only [List.mem_singleton] at hc; subst hc; simp
      · simp at hc
    · split at hc
      · simp only [List.mem_singleton] at hc; subst hc; simp
      · simp at hc
    · simp
  · intro f h5 h4
    simp only [_pam_krb5_stash_cleanup, h5]
    rcases h4 with h4 | h4
    · simp [h4, List.count_cons]
    · by_cases hk : cfg.use_krb4 = true
      · cases h4f : stash.v4file with
        | none => simp [List.count_cons]
        | some g =>
          have : g ≠ f := fun h => h4 (by rw [h4f, h])
          simp [hk, List.count_cons, this]
      · simp [hk, List.count_cons]
  · intro f hk h4 h5
    simp only [_pam_krb5_stash_cleanup, h4, hk]
    cases h5f : stash.v5file with
    | none => simp [List.count_cons]
    | some g =>
      have : g ≠ f := fun h => h5 (by rw [h5f, h])
      simp [List.count_cons, this]

/-- Witness for C16: a stash whose `v5file` names a temporary file. -/
theorem C16_cleanup_unlinks_nothing_witness :
    (_pam_krb5_stash_cleanup ⟨false, 4096⟩
      ⟨some "_pam_krb5_stash_user@EXAMPLE.ORG", 0, 1, 0, some "/tmp/krb5cc_1000_abcdef",
        zero_krb5_creds, 0, 0, 0, 0, zero_CREDENTIALS, none, 0, 0, 0, 0⟩).count
        (StashCall.xstrfree (some "/tmp/krb5cc_1000_abcdef")) = 1 :=
  (C16_cleanup_unlinks_nothing ⟨false, 4096⟩
      ⟨some "_pam_krb5_stash_user@EXAMPLE.ORG", 0, 1, 0, some "/tmp/krb5cc_1000_abcdef",
        zero_krb5_creds, 0, 0, 0, 0, zero_CREDENTIALS, none, 0, 0, 0, 0⟩).2.1
    "/tmp/krb5cc_1000_abcdef" rfl (Or.inl rfl)

/-- Counterexample to C16 as stated: a stash referencing two temporary files
is disposed, and neither file is unlinked. -/
theorem C16_counterexample :
    (_pam_krb5_stash_cleanup ⟨true, 4096⟩
      ⟨some "_pam_krb5_stash_user@EXAMPLE.ORG", 0, 1, 0, some "/tmp/krb5cc_1000_abcdef",
        zero_krb5_creds, 0, 0, 0, 0, zero_CREDENTIALS, some "/tmp/tkt1000_abcdef", 0, 0, 0,
        0⟩).count (StashCall.unlink (some "/tmp/krb5cc_1000_abcdef")) = 0
    ∧ (_pam_krb5_stash_cleanup ⟨true, 4096⟩
      ⟨some "_pam_krb5_stash_user@EXAMPLE.ORG", 0, 1, 0, some "/tmp/krb5cc_1000_abcdef",
        zero_krb5_creds, 0, 0, 0, 0, zero_CREDENTIALS, some "/tmp/tkt1000_abcdef", 0, 0, 0,
        0⟩).count (StashCall.unlink (some "/tmp/tkt1000_abcdef")) = 0 := by
  decide

theorem stash_clean_result {σ : Type} (sd un : Option String → σ → Int × σ)
    (f : Option String) (s : σ) :
    ((_pam_krb5_stash_clean sd un f s).1.1 = 0 ∧ (_pam_krb5_stash_clean sd un f s).1.2 = none)
    ∨ ((_pam_krb5_stash_clean sd un f s).1.1 = -1
        ∧ (_pam_krb5_stash_clean sd un f s).1.2 = f) := by
  unfold _pam_krb5_stash_clean
  by_cases h1 : (sd f s).1 = 0
  · simp [h1]
  · by_cases h2 : (un f (sd f s).2).1 = 0
    · simp [h1, h2]
    · simp [h1, h2]

theorem stash_clean_calls {σ : Type} (sd un : Option String → σ → Int × σ)
    (f : Option String) (s : σ) :
    ∀ c ∈ (_pam_krb5_stash_clean sd un f s).2.1,
      c = StashCall.storetmp_delete f ∨ c = StashCall.unlink f ∨ c = StashCall.xstrfree f := by
  unfold _pam_krb5_stash_clean
  by_cases h1 : (sd f s).1 = 0
  · simp [h1]
  · by_cases h2 : (un f (sd f s).2).1 = 0
    · simp [h1, h2]
    · simp [h1, h2]

/-! ## C17: cleaning the temporary file twice -/

/-- C17.  For a stash whose `v5file` names a temporary file `p`: when
`_pam_krb5_stash_clean_v5` returns 0, `v5file` is `NULL` afterwards, and a
second call on the stash, in whatever state, makes no call of `unlink`,
`xstrfree` or `_pam_krb5_storetmp_delete` on `p`; when it returns -1 the stash
and its `v5file` are unchanged; and it returns nothing else. -/
theorem C17_clean_v5_idempotent {σ : Type} (sd un : Option String → σ → Int × σ)
    (stash : Stash) (s : σ) (p : String) (hp : stash.v5file = some p) :
    ((_pam_krb5_stash_clean_v5 sd un stash s).1.1 = 0 →
      (_pam_krb5_stash_clean_v5 sd un stash s).1.2.v5file = none
      ∧ ∀ t, ∀ c ∈ (_pam_krb5_stash_clean_v5 sd un
            (_pam_krb5_stash_clean_v5 sd un stash s).1.2 t).2.1,
          c ≠ StashCall.unlink (some p) ∧ c ≠ StashCall.xstrfree (some p)
            ∧ c ≠ StashCall.storetmp_delete (some p))
    ∧ ((_pam_krb5_stash_clean_v5 sd un stash s).1.1 = -1 →
      (_pam_krb5_stash_clean_v5 sd un stash s).1.2.v5file = some p
      ∧ (_pam_krb5_stash_clean_v5 sd un stash s).1.2 = stash)
    ∧ ((_pam_krb5_stash_clean_v5 sd un stash s).1.1 = 0
      ∨ (_pam_krb5_stash_clean_v5 sd un stash s).1.1 = -1) := by
  have hres := stash_clean_result sd un stash.v5file s
  simp only [_pam_krb5_stash_clean_v5]
  refine ⟨?_, ?_, ?_⟩
  · intro h0
    have hnone : (_pam_krb5_stash_clean sd un stash.v5file s).1.2 = none := by
      rcases hres with h | h
      · exact h.2
      · rw [h.1] at h0; exact absurd h0 (by decide)
    refine ⟨hnone, ?_⟩
    intro t c hc
    rw [hnone] at hc
    have := stash_clean_calls sd un none t c hc
    rcases this with rfl | rfl | rfl <;> simp
  · intro h1
    have hsame : (_pam_krb5_stash_clean sd un stash.v5file s).1.2 = stash.v5file := by
      rcases hres with h | h
      · rw [h.1] at h1; exact absurd h1 (by decide)
      · exact h.2
    refine ⟨by rw [hsame, hp], ?_⟩
    rw [hsame]
  · rcases hres with h | h
    · exact Or.inl h.1
    · exact Or.inr h.1

/-- Witness for C17: the helper fails and `unlink` removes the file. -/
theorem C17_clean_v5_idempotent_witness :
    (_pam_krb5_stash_clean_v5 (σ := Unit) (fun _ t => (-1, t))
        (fun f t => (if f = none then -1 else 0, t))
        ⟨none, 0, 1, 0, some "/tmp/krb5cc_1000_abcdef", zero_krb5_creds, 0, 0, 0, 0,
          zero_CREDENTIALS, none, 0, 0, 0, 0⟩ ()).1.2.v5file = none :=
  ((C17_clean_v5_idempotent (σ := Unit) (fun _ t => (-1, t))
    (fun f t => (if f = none then -1 else 0, t))
    ⟨none, 0, 1, 0, some "/tmp/krb5cc_1000_abcdef", zero_krb5_creds, 0, 0, 0, 0,
      zero_CREDENTIALS, none, 0, 0, 0, 0⟩ () "/tmp/krb5cc_1000_abcdef" rfl).1 (by decide)).1

theorem stash_get_created (m : Machine) (cfg : Config) (lib : Ccache) (generic : Int)
    (e : GetEnv) (use_shmem : Bool) (st : Sys) (name : String)
    (h : (_pam_krb5_stash_get m cfg lib generic e use_shmem st name).2 ≠ []) :
    e.malloc_stash ≠ 0
    ∧ (_pam_krb5_stash_get m cfg lib generic e use_shmem st name).1.1 = e.malloc_stash
    ∧ (e.pam_set_data = 0 →
        pam_get_data (_pam_krb5_stash_get m cfg lib generic e use_shmem st name).1.2.pam_data
          ("_pam_krb5_stash_" ++ name) = some e.malloc_stash) := by
  by_cases h1 : e.malloc_key = false
  · simp [_pam_krb5_stash_get, h1] at h
  · have h1t : e.malloc_key = true := by simpa using h1
    by_cases h3 : e.malloc_stash = 0
    · cases hf : pam_get_data st.pam_data ("_pam_krb5_stash_" ++ name) with
      | none => simp [_pam_krb5_stash_get, h1t, hf, h3] at h
      | some p =>
        by_cases hp : p = 0
        · simp [_pam_krb5_stash_get, h1t, hf, h3, hp] at h
        · simp [_pam_krb5_stash_get, h1t, hf, hp] at h
    · cases hf : pam_get_data st.pam_data ("_pam_krb5_stash_" ++ name) with
      | none =>
        refine ⟨h3, by simp [_pam_krb5_stash_get, h1t, hf, h3], ?_⟩
        intro hs
        simp [_pam_krb5_stash_get, h1t, hf, h3, hs]
        simp [pam_get_data]
      | some p =>
        by_cases hp : p = 0
        · refine ⟨h3, by simp [_pam_krb5_stash_get, h1t, hf, h3, hp], ?_⟩
          intro hs
          simp [_pam_krb5_stash_get, h1t, hf, h3, hs, hp]
          simp [pam_get_data]
        · simp [_pam_krb5_stash_get, h1t, hf, hp] at h

/-! ## C14: looking the stash up twice -/

/-- C14.  When a call of `_pam_krb5_stash_get` for a principal created a stash
and `pam_set_data` registered it, the stash is registered under the key
`_pam_krb5_stash_<principal>`, and a second call for the same principal (its
key being allocated) returns the same pointer, makes no call at all (it
allocates no stash and imports nothing from shared memory), and leaves the
state unchanged. -/
theorem C14_stash_get_idempotent (m : Machine) (cfg : Config) (lib : Ccache) (generic : Int)
    (e1 e2 : GetEnv) (use_shmem1 use_shmem2 : Bool) (st : Sys) (name : String)
    (hcreated : StashCall.malloc_stash
        (_pam_krb5_stash_get m cfg lib generic e1 use_shmem1 st name).1.1
      ∈ (_pam_krb5_stash_get m cfg lib generic e1 use_shmem1 st name).2)
    (hset : e1.pam_set_data = 0)
    (hkey : e2.malloc_key = true) :
    pam_get_data (_pam_krb5_stash_get m cfg lib generic e1 use_shmem1 st name).1.2.pam_data
        ("_pam_krb5_stash_" ++ name)
      = some (_pam_krb5_stash_get m cfg lib generic e1 use_shmem1 st name).1.1
    ∧ (_pam_krb5_stash_get m cfg lib generic e2 use_shmem2
        (_pam_krb5_stash_get m cfg lib generic e1 use_shmem1 st name).1.2 name).1.1
      = (_pam_krb5_stash_get m cfg lib generic e1 use_shmem1 st name).1.1
    ∧ (_pam_krb5_stash_get m cfg lib generic e2 use_shmem2
        (_pam_krb5_stash_get m cfg lib generic e1 use_shmem1 st name).1.2 name).2 = []
    ∧ (_pam_krb5_stash_get m cfg lib generic e2 use_shmem2
        (_pam_krb5_stash_get m cfg lib generic e1 use_shmem1 st name).1.2 name).1.2
      = (_pam_krb5_stash_get m cfg lib generic e1 use_shmem1 st name).1.2 := by
  have hne : (_pam_krb5_stash_get m cfg lib generic e1 use_shmem1 st name).2 ≠ [] := by
    intro h; rw [h] at hcreated; simp at hcreated
  obtain ⟨hp, hptr, hdata⟩ := stash_get_created m cfg lib generic e1 use_shmem1 st name hne
  have hd := hdata hset
  rw [hptr]
  refine ⟨hd, ?_⟩
  generalize (_pam_krb5_stash_get m cfg lib generic e1 use_shmem1 st name).1.2 = st1 at hd ⊢
  unfold _pam_krb5_stash_get
  simp [hkey, hd, hp]

/-- Witness for C14: a first call in an empty state creates the stash at
address 4242; the second call returns 4242. -/
theorem C14_stash_get_idempotent_witness :
    (_pam_krb5_stash_get lp64 ⟨true, 4096⟩ ticket_only_ccache (-1765328324)
        ⟨true, 4242, 0, ⟨true, (3, "/tmp/pam_krb5_tmp_abcdef"), 0, 0, 0, 0⟩⟩ true
        (_pam_krb5_stash_get lp64 ⟨true, 4096⟩ ticket_only_ccache (-1765328324)
          ⟨true, 4242, 0, ⟨true, (3, "/tmp/pam_krb5_tmp_abcdef"), 0, 0, 0, 0⟩⟩ true
          ⟨[], [], [], []⟩ "user@EXAMPLE.ORG").1.2 "user@EXAMPLE.ORG").1.1
      = (_pam_krb5_stash_get lp64 ⟨true, 4096⟩ ticket_only_ccache (-1765328324)
          ⟨true, 4242, 0, ⟨true, (3, "/tmp/pam_krb5_tmp_abcdef"), 0, 0, 0, 0⟩⟩ true
          ⟨[], [], [], []⟩ "user@EXAMPLE.ORG").1.1 :=
  (C14_stash_get_idempotent lp64 ⟨true, 4096⟩ ticket_only_ccache (-1765328324)
    ⟨true, 4242, 0, ⟨true, (3, "/tmp/pam_krb5_tmp_abcdef"), 0, 0, 0, 0⟩⟩
    ⟨true, 4242, 0, ⟨true, (3, "/tmp/pam_krb5_tmp_abcdef"), 0, 0, 0, 0⟩⟩ true true
    ⟨[], [], [], []⟩ "user@EXAMPLE.ORG" (by decide) (by decide) (by decide)).2.1

/-! ## Lemmas on `strtol` and the text of `%d` -/

theorem digit_value_digit (d : Nat) (h : d < 10) : digit_value (Char.ofNat (48 + d)) = some d := by
  interval_cases d <;> rfl

theorem digit_not_space (d : Nat) (h : d < 10) : isspace (Char.ofNat (48 + d)) = false := by
  interval_cases d <;> rfl

theorem digit_ne_sign (d : Nat) (h : d < 10) :
    Char.ofNat (48 + d) ≠ '-' ∧ Char.ofNat (48 + d) ≠ '+' ∧ Char.ofNat (48 + d) ≠ 'x'
      ∧ Char.ofNat (48 + d) ≠ 'X' := by
  interval_cases d <;> decide

theorem digit_eq_zero (d : Nat) (h : d < 10) (h0 : Char.ofNat (48 + d) = '0') : d = 0 := by
  interval_cases d <;> first | rfl | (exact absurd h0 (by decide))

theorem dec_rev_digits (fuel n : Nat) :
    ∀ c ∈ dec_rev fuel n, ∃ d, d < 10 ∧ c = Char.ofNat (48 + d) := by
  induction fuel generalizing n with
  | zero =>
    intro c hc
    simp only [dec_rev, List.mem_singleton] at hc
    exact ⟨n % 10, Nat.mod_lt _ (by norm_num), hc⟩
  | succ f ih =>
    intro c hc
    simp only [dec_rev] at hc
    split at hc
    · rename_i h
      simp only [List.mem_singleton] at hc
      exact ⟨n, h, hc⟩
    · simp only [List.mem_cons] at hc
      rcases hc with hc | hc
      · exact ⟨n % 10, Nat.mod_lt _ (by norm_num), hc⟩
      · exact ih _ c hc

theorem dec_rev_ne_nil (fuel n : Nat) : dec_rev fuel n ≠ [] := by
  cases fuel with
  | zero => simp [dec_rev]
  | succ f =>
    simp only [dec_rev]
    split <;> simp

theorem scan_digits_dec (fuel n : Nat) (h : n < 10 ^ (fuel + 1)) (rest : List Char)
    (seen : Bool) :
    scan_digits 10 ((dec_rev fuel n).reverse ++ rest) 0 seen = scan_digits 10 rest n true := by
  induction fuel generalizing n rest seen with
  | zero =>
    have hn : n < 10 := by simpa using h
    simp only [dec_rev, List.reverse_singleton, List.singleton_append, scan_digits,
      Nat.mod_eq_of_lt hn, digit_value_digit n hn, hn, if_true]
    simp
  | succ f ih =>
    simp only [dec_rev]
    split
    · rename_i hn
      simp only [List.reverse_singleton, List.singleton_append, scan_digits,
        digit_value_digit n hn, hn, if_true]
      simp
    · rename_i hn
      have hdiv : n / 10 < 10 ^ (f + 1) := by
        rw [Nat.div_lt_iff_lt_mul (by norm_num)]
        calc n < 10 ^ (f + 1 + 1) := h
          _ = 10 ^ (f + 1) * 10 := by ring
      simp only [List.reverse_cons, List.append_assoc, List.singleton_append]
      rw [ih _ hdiv]
      have hm : n % 10 < 10 := Nat.mod_lt _ (by norm_num)
      simp only [scan_digits, digit_value_digit _ hm, hm, if_true]
      congr 1
      omega

theorem dec_rev_head (fuel n : Nat) (h : n < 10 ^ (fuel + 1)) (hpos : 0 < n) :
    (dec_rev fuel n).reverse.head? ≠ some '0' := by
  induction fuel generalizing n with
  | zero =>
    have hn : n < 10 := by simpa using h
    simp only [dec_rev, List.reverse_singleton, List.head?_cons, ne_eq, Option.some.injEq,
      Nat.mod_eq_of_lt hn]
    intro h0
    have := digit_eq_zero n hn h0
    omega
  | succ f ih =>
    simp only [dec_rev]
    split
    · rename_i hn
      simp only [List.reverse_singleton, List.head?_cons, ne_eq, Option.some.injEq]
      intro h0
      have := digit_eq_zero n hn h0
      omega
    · rename_i hn
      have hdiv : n / 10 < 10 ^ (f + 1) := by
        rw [Nat.div_lt_iff_lt_mul (by norm_num)]
        calc n < 10 ^ (f + 1 + 1) := h
          _ = 10 ^ (f + 1) * 10 := by ring
      have hpos2 : 0 < n / 10 := by omega
      have hne : (dec_rev f (n / 10)).reverse ≠ [] := by
        simp [dec_rev_ne_nil]
      rw [List.reverse_cons, List.head?_append_of_ne_nil _ hne]
      exact ih _ hdiv hpos2

theorem dec_digits_facts (n : Nat) (hn : n < 10 ^ 11) (hpos : 0 < n) :
    hex_start (dec_rev 10 n).reverse = false
    ∧ (dec_rev 10 n).reverse.head? ≠ some '0'
    ∧ (dec_rev 10 n).reverse.head? ≠ some '-'
    ∧ (dec_rev 10 n).reverse.head? ≠ some '+'
    ∧ (dec_rev 10 n).reverse.dropWhile isspace = (dec_rev 10 n).reverse
    ∧ scan_digits 10 (dec_rev 10 n).reverse 0 false = (n, true, []) := by
  have hne : (dec_rev 10 n).reverse ≠ [] := by simp [dec_rev_ne_nil]
  have hdig : ∀ c ∈ (dec_rev 10 n).reverse, ∃ d, d < 10 ∧ c = Char.ofNat (48 + d) := by
    intro c hc
    exact dec_rev_digits 10 n c (List.mem_reverse.1 hc)
  have hhead := dec_rev_head 10 n hn hpos
  have hscan := scan_digits_dec 10 n hn [] false
  rw [List.append_nil] at hscan
  generalize (dec_rev 10 n).reverse = ds at hne hdig hhead hscan
  cases ds with
  | nil => exact absurd rfl hne
  | cons c cs =>
    obtain ⟨d, hd, rfl⟩ := hdig _ (List.mem_cons_self _ _)
    obtain ⟨hm, hp, hx, hX⟩ := digit_ne_sign d hd
    have hsp := digit_not_space d hd
    have hz : Char.ofNat (48 + d) ≠ '0' := by
      intro h; apply hhead; simp [h]
    have hhex : hex_start (Char.ofNat (48 + d) :: cs) = false := by
      unfold hex_start
      split
      · rename_i c0 c1 c2 r heq
        injection heq with h0 _
        rw [← h0]
        simp [hz]
      · rfl
    refine ⟨hhex, hhead, by simp [hm], by simp [hp], by simp [List.dropWhile_cons, hsp], ?_⟩
    rw [hscan]
    rfl

theorem strtol_sprintf_d (lm : Int) (k : Int) (hlm : 2147483647 ≤ lm)
    (hk : -2147483648 ≤ k ∧ k ≤ 2147483647) :
    strtol lm (sprintf_d k).data = (k, []) := by
  unfold sprintf_d
  by_cases h0 : k = 0
  · subst h0
    simp only [lt_self_iff_false, if_false, List.nil_append]
    have : (dec_rev 10 (0 : Int).natAbs).reverse = ['0'] := by decide
    rw [this]
    unfold strtol
    simp [isspace, scan_digits, digit_value, hex_start]
    rw [if_neg (by omega), if_neg (by omega)]
  · have hn : k.natAbs < 10 ^ 11 := by omega
    have hpos : 0 < k.natAbs := by omega
    obtain ⟨f1, f2, f3, f4, f5, f6⟩ := dec_digits_facts k.natAbs hn hpos
    by_cases hneg : k < 0
    · simp only [hneg, if_true]
      unfold strtol
      have hsp : isspace '-' = false := by decide
      simp only [List.singleton_append, List.dropWhile_cons, hsp, Bool.false_eq_true, if_false,
        List.head?_cons, true_or, if_true, List.tail_cons, f1, f2, f6, decide_True]
      simp
      rw [abs_of_neg hneg]
      rw [if_neg (by omega), if_neg (by omega)]
      omega
    · simp only [hneg, if_false, List.nil_append]
      unfold strtol
      simp only [f5, f1, f2, f3, f4, f6, or_self, if_false, Bool.false_eq_true, decide_False]
      simp
      rw [abs_of_nonneg (by omega)]
      rw [if_neg (by omega), if_neg (by omega)]

/-! ## Lemmas on the import from shared memory -/

theorem to_int32_lt (n : Nat) : to_int32 n < 2147483648 := by
  unfold to_int32
  split <;> omega

theorem to_int32_ge (n : Nat) : -2147483648 ≤ to_int32 n := by
  unfold to_int32
  split <;> omega

theorem read_v5_rejects (m : Machine) (lib : Ccache) (e : ReadEnv) (stash : Stash)
    (blob : List Nat) (hm : 4294967296 ≤ m.size_mod)
    (hbad : blob.length < 12 ∨ int_at m.bo blob 0 + 12 > (blob.length : Int)) :
    _pam_krb5_stash_shm_read_v5 m lib e stash blob = (stash, []) := by
  unfold _pam_krb5_stash_shm_read_v5
  by_cases h1 : blob.length < 4 * 3
  · simp [h1]
  · have h12 : ¬ blob.length < 12 := by simpa using h1
    rcases hbad with hbad | hbad
    · exact absurd hbad h12
    · simp only [h1, if_false]
      have hd1 : int_at m.bo blob 0 < 2147483648 := to_int32_lt _
      have hd0 : 0 < int_at m.bo blob 0 := by omega
      have hmod : int_at m.bo blob 0 % (m.size_mod : Int) = int_at m.bo blob 0 :=
        Int.emod_eq_of_lt (by omega) (by omega)
      have hcheck : ((int_at m.bo blob 0 % (m.size_mod : Int)).toNat + 4 * 3) % m.size_mod
          > blob.length := by
        rw [hmod, Nat.mod_eq_of_lt (by omega)]
        omega
      simp only [hcheck, if_true]

theorem read_v4_v5_fields (m : Machine) (lib : Ccache) (stash : Stash) (blob : List Nat) :
    (_pam_krb5_stash_shm_read_v4 m lib stash blob).v5attempted = stash.v5attempted
    ∧ (_pam_krb5_stash_shm_read_v4 m lib stash blob).v5result = stash.v5result
    ∧ (_pam_krb5_stash_shm_read_v4 m lib stash blob).v5creds = stash.v5creds := by
  unfold _pam_krb5_stash_shm_read_v4
  split
  · split <;> simp
  · simp

theorem read_v4_v5_status (m : Machine) (lib : Ccache) (stash : Stash) (blob : List Nat) :
    v5_status (_pam_krb5_stash_shm_read_v4 m lib stash blob) = v5_status stash := by
  have h := read_v4_v5_fields m lib stash blob
  simp [v5_status, h.1, h.2.1, h.2.2]

theorem shm_read_rejects (m : Machine) (cfg : Config) (lib : Ccache) (e : ReadEnv)
    (st : Sys) (partial_key : String) (stash : Stash) (hm : 4294967296 ≤ m.size_mod)
    (hbad : ∀ blob,
      (_pam_krb5_blob_from_shm st.segments
        (shm_key_of m (pam_getenv st.pam_env (partial_key ++ "_shm5")))).1 = some blob →
      blob.length < 12 ∨ int_at m.bo blob 0 + 12 > (blob.length : Int)) :
    v5_status (_pam_krb5_stash_shm_read m cfg lib e st partial_key stash).1.1
      = v5_status stash := by
  unfold _pam_krb5_stash_shm_read
  by_cases hmal : e.malloc_variable = false
  · simp [hmal]
  · simp only [hmal, if_false]
    by_cases hk : shm_key_of m (pam_getenv st.pam_env (partial_key ++ "_shm5")) = -1
    · simp only [hk, ne_eq, not_true_eq_false, if_false]
      repeat' split
      all_goals simp [read_v4_v5_status]
    · cases hb : (_pam_krb5_blob_from_shm st.segments
          (shm_key_of m (pam_getenv st.pam_env (partial_key ++ "_shm5")))).1 with
      | none =>
        simp only [hk, hb, ne_eq, not_false_eq_true, if_true]
        repeat' split
        all_goals simp [read_v4_v5_status]
      | some blob =>
        have h5 := read_v5_rejects m lib e stash blob hm (hbad blob hb)
        by_cases hl : blob.length = 0
        · simp only [hk, hb, hl, ne_eq, not_false_eq_true, if_true]
          repeat' split
          all_goals simp [read_v4_v5_status]
        · simp only [hk, hb, hl, h5, ne_eq, not_false_eq_true, if_true, if_false]
          repeat' split
          all_goals simp [read_v4_v5_status]

theorem shm_read_heap (m : Machine) (cfg : Config) (lib : Ccache) (e : ReadEnv)
    (st : Sys) (partial_key : String) (stash : Stash) :
    (_pam_krb5_stash_shm_read m cfg lib e st partial_key stash).1.2.heap = st.heap
    ∧ (_pam_krb5_stash_shm_read m cfg lib e st partial_key stash).1.2.pam_data = st.pam_data := by
  unfold _pam_krb5_stash_shm_read
  simp only []
  repeat' split
  all_goals simp

theorem stash_get_fresh (m : Machine) (cfg : Config) (lib : Ccache) (generic : Int)
    (e : GetEnv) (st : Sys) (name : String)
    (h1 : e.malloc_key = true)
    (hf : pam_get_data st.pam_data ("_pam_krb5_stash_" ++ name) = none)
    (h3 : e.malloc_stash ≠ 0) :
    (_pam_krb5_stash_get m cfg lib generic e true st name).1.1 = e.malloc_stash
    ∧ ∃ s0 : Stash, v5_status s0 = (0, generic, zero_krb5_creds)
      ∧ stash_at (_pam_krb5_stash_get m cfg lib generic e true st name).1.2.heap e.malloc_stash
        = some (_pam_krb5_stash_shm_read m cfg lib e.read st
            ("_pam_krb5_stash_" ++ name) s0).1.1 := by
  refine ⟨by simp [_pam_krb5_stash_get, h1, hf, h3], ?_⟩
  refine ⟨{ key := some ("_pam_krb5_stash_" ++ name), v5ctx := 0, v5attempted := 0,
            v5result := generic, v5file := none,
            v5creds := zero_krb5_creds, v5setenv := 0, v5shm := 0, v5shm_owner := 0,
            v4present := 0, v4creds := zero_CREDENTIALS, v4file := none, v4setenv := 0,
            v4shm := 0, v4shm_owner := 0, afspag := 0 }, rfl, ?_⟩
  simp [_pam_krb5_stash_get, h1, hf, h3, stash_at]

/-! ## C12: blobs that are missing, short or inconsistent -/

/-- C12.  On a machine whose `size_t` has at least 32 bits: (1)
`_pam_krb5_stash_shm_read_v5` given a blob shorter than the header of three
integers (a blob of length zero among them), or one whose declared payload
length plus the size of the header exceeds the size of the blob, returns the
stash as it was and makes no call; (2) when the segment named by the `_shm5`
variable is missing or holds such a blob, `_pam_krb5_stash_shm_read` leaves
`v5attempted`, `v5result` and `v5creds` as they were; (3) and
`_pam_krb5_stash_get` then still returns the new stash record, whose three
fields are those of an empty stash: not attempted, `KRB5KRB_ERR_GENERIC`, no
credentials.  Neither import function returns a value. -/
theorem C12_bad_blob_leaves_stash (m : Machine) (cfg : Config) (lib : Ccache)
    (hm : 4294967296 ≤ m.size_mod) :
    (∀ (e : ReadEnv) (stash : Stash) (blob : List Nat),
      blob.length < 12 ∨ int_at m.bo blob 0 + 12 > (blob.length : Int) →
      _pam_krb5_stash_shm_read_v5 m lib e stash blob = (stash, []))
    ∧ (∀ (e : ReadEnv) (st : Sys) (partial_key : String) (stash : Stash),
      (∀ blob,
        (_pam_krb5_blob_from_shm st.segments
          (shm_key_of m (pam_getenv st.pam_env (partial_key ++ "_shm5")))).1 = some blob →
        blob.length < 12 ∨ int_at m.bo blob 0 + 12 > (blob.length : Int)) →
      v5_status (_pam_krb5_stash_shm_read m cfg lib e st partial_key stash).1.1
        = v5_status stash)
    ∧ (∀ (generic : Int) (e : GetEnv) (st : Sys) (name : String),
      e.malloc_key = true →
      pam_get_data st.pam_data ("_pam_krb5_stash_" ++ name) = none →
      e.malloc_stash ≠ 0 →
      (∀ blob,
        (_pam_krb5_blob_from_shm st.segments
          (shm_key_of m (pam_getenv st.pam_env
            ("_pam_krb5_stash_" ++ name ++ "_shm5")))).1 = some blob →
        blob.length < 12 ∨ int_at m.bo blob 0 + 12 > (blob.length : Int)) →
      (_pam_krb5_stash_get m cfg lib generic e true st name).1.1 = e.malloc_stash
      ∧ ∃ s, stash_at (_pam_krb5_stash_get m cfg lib generic e true st name).1.2.heap
            e.malloc_stash = some s
          ∧ v5_status s = (0, generic, zero_krb5_creds)) := by
  refine ⟨fun e stash blob hbad => read_v5_rejects m lib e stash blob hm hbad,
    fun e st pk stash hbad => shm_read_rejects m cfg lib e st pk stash hm hbad, ?_⟩
  intro generic e st name h1 hf h3 hbad
  obtain ⟨hp, s0, hs0, hat⟩ := stash_get_fresh m cfg lib generic e st name h1 hf h3
  refine ⟨hp, _, hat, ?_⟩
  rw [shm_read_rejects m cfg lib e.read st _ s0 hm hbad, hs0]

/-- Witness for C12 on a 64-bit machine: a blob of three bytes is rejected, and
a stash looked up for `user@EXAMPLE.ORG` while segment 7, named by the
variable, holds those three bytes, is an empty stash. -/
theorem C12_bad_blob_leaves_stash_witness :
    4294967296 ≤ lp64.size_mod
    ∧ _pam_krb5_stash_shm_read_v5 lp64 ticket_only_ccache ⟨true, (3, "/tmp/f"), 0, 0, 0, 0⟩
        ⟨none, 0, 0, -1765328324, none, zero_krb5_creds, 0, 0, 0, 0,
          zero_CREDENTIALS, none, 0, 0, 0, 0⟩ [1, 2, 3]
      = (⟨none, 0, 0, -1765328324, none, zero_krb5_creds, 0, 0, 0, 0,
          zero_CREDENTIALS, none, 0, 0, 0, 0⟩, [])
    ∧ ∃ s, stash_at (_pam_krb5_stash_get lp64 ⟨false, 4096⟩ ticket_only_ccache (-1765328324)
            ⟨true, 4242, 0, ⟨true, (3, "/tmp/f"), 0, 0, 0, 0⟩⟩ true
            ⟨[], ["_pam_krb5_stash_user@EXAMPLE.ORG_shm5=7"], [(7, [1, 2, 3])], []⟩
            "user@EXAMPLE.ORG").1.2.heap 4242 = some s
          ∧ v5_status s = (0, -1765328324, zero_krb5_creds) :=
  ⟨by decide,
    (C12_bad_blob_leaves_stash lp64 ⟨false, 4096⟩ ticket_only_ccache (by decide)).1
      _ _ [1, 2, 3] (Or.inl (by decide)),
    ((C12_bad_blob_leaves_stash lp64 ⟨false, 4096⟩ ticket_only_ccache (by decide)).2.2
      (-1765328324) ⟨true, 4242, 0, ⟨true, (3, "/tmp/f"), 0, 0, 0, 0⟩⟩
      ⟨[], ["_pam_krb5_stash_user@EXAMPLE.ORG_shm5=7"], [(7, [1, 2, 3])], []⟩
      "user@EXAMPLE.ORG" rfl rfl (by decide)
      (by
        intro blob hb
        have hk : shm_key_of lp64 (pam_getenv
            ["_pam_krb5_stash_user@EXAMPLE.ORG_shm5=7"]
            ("_pam_krb5_stash_" ++ "user@EXAMPLE.ORG" ++ "_shm5")) = 7 := by decide
        simp only [hk] at hb
        have hb2 : blob = [1, 2, 3] := by
          simp [_pam_krb5_blob_from_shm] at hb
          exact hb.symm
        subst hb2
        exact Or.inl (by decide))).2⟩

/-! ## C13: the handle variable -/

/-- C13 does not hold for a handle variable whose value is the empty string.
An absent variable and a value with trailing chars give the key -1, for which
nothing is looked up; for the empty string `strtol` then converts nothing, returns 0 and leaves `p` at the start of the
value, where `*p` is the terminating NUL: the test `*p == 0` passes and the key
is 0.  With the variable `_pam_krb5_stash_user@EXAMPLE.ORG_shm5` set to the
empty string and segment 0 holding a blob with a payload of two bytes,
`_pam_krb5_stash_shm_read` looks up segment 0 and the stash changes:
`v5attempted` becomes 1, `v5result` 0, and the credentials are those of the
payload. -/
theorem C13_empty_handle_reads_segment_zero :
    shm_key_of lp64 none = -1
    ∧ shm_key_of lp64 (some "12x") = -1
    ∧ shm_key_of lp64 (some "") = 0
    ∧ _pam_krb5_stash_shm_read lp64 ⟨false, 4096⟩ ticket_only_ccache
        ⟨true, (3, "/tmp/f"), 2, 0, 0, 0⟩
        ⟨[], ["_pam_krb5_stash_user@EXAMPLE.ORG_shm5="],
          [(0, [2, 0, 0, 0, 1, 0, 0, 0, 0, 0, 0, 0, 65, 66])], []⟩
        "_pam_krb5_stash_user@EXAMPLE.ORG"
        ⟨none, 0, 0, -1765328324, none, zero_krb5_creds, 0, 0, 0, 0,
          zero_CREDENTIALS, none, 0, 0, 0, 0⟩
      = ((⟨none, 0, 1, 0, none, ⟨[65, 66], [], 0, 0⟩, 0, 0, 0, 0,
            zero_CREDENTIALS, none, 0, 0, 0, 0⟩,
          ⟨[], ["_pam_krb5_stash_user@EXAMPLE.ORG_shm5="], [], []⟩),
        [StashCall.shm_read "_pam_krb5_stash_user@EXAMPLE.ORG", StashCall.blob_from_shm 0,
          StashCall.write_tmp [65, 66] 2, StashCall.unlink (some "/tmp/f")]) := by
  refine ⟨by decide, by decide, by decide, by decide⟩

/-! ## Lemmas on the export to shared memory -/

theorem shm_key_of_sprintf_d (m : Machine) (key : Int) (hlong : 2147483647 ≤ m.long_max)
    (hk : INT_MIN < key ∧ key < INT_MAX) :
    shm_key_of m (some (sprintf_d key)) = key := by
  have hk1 : -2147483648 < key := hk.1
  have hk2 : key < 2147483647 := hk.2
  unfold shm_key_of
  simp only [strtol_sprintf_d m.long_max key hlong ⟨by omega, by omega⟩]
  simp [hk.1, hk.2]

theorem snprintf_fits (size : Nat) (s : String) (h : s.length < size) :
    snprintf size s = s := by
  unfold snprintf
  have : s.data.length ≤ size - 1 := by
    have : s.length = s.data.length := rfl
    omega
  rw [List.take_of_length_le this]

/-! ## Lemmas on the order of submissions -/

theorem so_nil (t : Int) : submission_order t [] := by
  refine ⟨?_, ?_, ?_⟩
  · intro pre c post h
    simp at h
  · intro _ c hc
    simp at hc
  · intro _ pre v post h
    simp at h

theorem so_cons_neutral (t : Int) (x : PrincipalCall) (l : List PrincipalCall)
    (hx : obtains_ticket x = false) (hs : submit_of x = none)
    (hl : submission_order t l) : submission_order t (x :: l) := by
  obtain ⟨ha, hb, hc⟩ := hl
  refine ⟨?_, ?_, ?_⟩
  · intro pre c post h ho
    cases pre with
    | nil =>
      simp only [List.nil_append, List.cons.injEq] at h
      rw [← h.1, hx] at ho
      cases ho
    | cons p pre =>
      simp only [List.cons_append, List.cons.injEq] at h
      exact ha pre c post h.2 ho
  · intro ht c hc2 r
    rcases List.mem_cons.1 hc2 with rfl | hc2
    · intro h
      rw [h] at hs
      cases hs
    · exact hb ht c hc2 r
  · intro ht pre v post h
    cases pre with
    | nil =>
      simp only [List.nil_append, List.cons.injEq] at h
      rw [h.1] at hs
      cases hs
    | cons p pre =>
      simp only [List.cons_append, List.cons.injEq] at h
      obtain ⟨pre2, r, h1, h2⟩ := hc ht pre v post h.2
      exact ⟨p :: pre2, r, by rw [h1]; rfl, h2⟩

theorem so_direct_ok (t : Int) (ht : t ≠ 0) (x : PrincipalCall) (hx : obtains_ticket x = true) :
    submission_order t [x, PrincipalCall.settoken5 0] := by
  refine ⟨?_, fun h => absurd h ht, ?_⟩
  · intro pre c post h ho
    refine ⟨fun _ => ?_, fun h0 => absurd h0 ht⟩
    rcases pre with _ | ⟨p1, _ | ⟨p2, pre⟩⟩
    · simp only [List.nil_append, List.cons.injEq] at h
      exact ⟨0, [], h.2.symm, fun _ => rfl, fun h0 => absurd rfl h0⟩
    · simp only [List.cons_append, List.nil_append, List.cons.injEq] at h
      rw [← h.2.1] at ho
      cases ho
    · simp at h
  · intro _ pre v post h
    rcases pre with _ | ⟨p1, _ | ⟨p2, pre⟩⟩
    · simp only [List.nil_append, List.cons.injEq] at h
      rw [h.1] at hx
      cases hx
    · simp at h
    · simp at h

theorem so_direct_failed (t : Int) (ht : t ≠ 0) (x : PrincipalCall)
    (hx : obtains_ticket x = true) (r v : Int) (hr : r ≠ 0) (l : List PrincipalCall)
    (hl : submission_order t l) :
    submission_order t
      (x :: PrincipalCall.settoken5 r :: PrincipalCall.convert_and_log v :: l) := by
  obtain ⟨ha, hb, hc⟩ := hl
  refine ⟨?_, fun h => absurd h ht, ?_⟩
  · intro pre c post h ho
    rcases pre with _ | ⟨p1, _ | ⟨p2, _ | ⟨p3, pre⟩⟩⟩
    · simp only [List.nil_append, List.cons.injEq] at h
      refine ⟨fun _ => ⟨r, _, h.2.symm, fun h0 => absurd h0 hr, fun _ => ⟨v, l, rfl⟩⟩,
        fun h0 => absurd h0 ht⟩
    · simp only [List.cons_append, List.nil_append, List.cons.injEq] at h
      rw [← h.2.1] at ho
      cases ho
    · simp only [List.cons_append, List.nil_append, List.cons.injEq] at h
      rw [← h.2.2.1] at ho
      cases ho
    · simp only [List.cons_append, List.cons.injEq] at h
      exact ha pre c post h.2.2.2 ho
  · intro _ pre w post h
    rcases pre with _ | ⟨p1, _ | ⟨p2, _ | ⟨p3, pre⟩⟩⟩
    · simp only [List.nil_append, List.cons.injEq] at h
      rw [h.1] at hx
      cases hx
    · simp at h
    · simp only [List.cons_append, List.nil_append, List.cons.injEq] at h
      exact ⟨[p1], r, by rw [← h.2.1]; rfl, hr⟩
    · simp only [List.cons_append, List.cons.injEq] at h
      obtain ⟨pre2, r2, h1, h2⟩ := hc ht pre w post h.2.2.2
      exact ⟨p1 :: p2 :: p3 :: pre2, r2, by rw [h1]; rfl, h2⟩

theorem so_convert_only (t : Int) (ht : t = 0) (x : PrincipalCall)
    (hx : obtains_ticket x = true) (v : Int) (l : List PrincipalCall)
    (hl : submission_order t l) :
    submission_order t (x :: PrincipalCall.convert_and_log v :: l) := by
  obtain ⟨ha, hb, hc⟩ := hl
  refine ⟨?_, ?_, fun h => absurd ht h⟩
  · intro pre c post h ho
    rcases pre with _ | ⟨p1, _ | ⟨p2, pre⟩⟩
    · simp only [List.nil_append, List.cons.injEq] at h
      exact ⟨fun h0 => absurd ht h0, fun _ => ⟨v, l, h.2.symm⟩⟩
    · simp only [List.cons_append, List.nil_append, List.cons.injEq] at h
      rw [← h.2.1] at ho
      cases ho
    · simp only [List.cons_append, List.cons.injEq] at h
      exact ha pre c post h.2.2 ho
  · intro _ c hc2 r
    rcases List.mem_cons.1 hc2 with rfl | hc2
    · intro h
      rw [h] at hx
      cases hx
    rcases List.mem_cons.1 hc2 with rfl | hc2
    · intro h
      cases h
    · exact hb ht c hc2 r

/-- The calls of `submit_creds` and its flag. -/
theorem submit_creds_shape {σ : Type} (b : TokenBuild) (k : Krb5 σ) (cell : String)
    (creds : krb5_creds) (uid : Nat) (t : Int) (s : σ) :
    (t ≠ 0 →
      ((submit_creds b k cell creds uid t s).1 = true
        ∧ (submit_creds b k cell creds uid t s).2.1 = [PrincipalCall.settoken5 0])
      ∨ ∃ r v, r ≠ 0
        ∧ (submit_creds b k cell creds uid t s).2.1
          = [PrincipalCall.settoken5 r, PrincipalCall.convert_and_log v]
        ∧ (submit_creds b k cell creds uid t s).1 = decide (v = 0))
    ∧ (t = 0 → ∃ v,
        (submit_creds b k cell creds uid t s).2.1 = [PrincipalCall.convert_and_log v]
        ∧ (submit_creds b k cell creds uid t s).1 = decide (v = 0)) := by
  unfold submit_creds
  by_cases ht : t ≠ 0
  · rw [if_pos ht]
    simp only
    refine ⟨fun _ => ?_, fun h => absurd h ht⟩
    by_cases h1 : (minikafs_5settoken b.bo b.junk k.pioctl cell creds uid s).ret = 0
    · left
      simp [h1]
    · right
      simp only [h1, if_false]
      exact ⟨_, _, h1, rfl, rfl⟩
  · rw [if_neg ht]
    simp only
    refine ⟨fun h => absurd h ht, fun _ => ⟨_, rfl, rfl⟩⟩

theorem submit_creds_flag {σ : Type} (b : TokenBuild) (k : Krb5 σ) (cell : String)
    (creds : krb5_creds) (uid : Nat) (t : Int) (s : σ) :
    (submit_creds b k cell creds uid t s).1 = true
      ↔ ∃ c ∈ (submit_creds b k cell creds uid t s).2.1, submit_of c = some 0 := by
  obtain ⟨h1, h2⟩ := submit_creds_shape b k cell creds uid t s
  by_cases ht : t ≠ 0
  · rcases h1 ht with ⟨hf, hc⟩ | ⟨r, v, hr, hc, hf⟩
    · rw [hf, hc]
      simp [submit_of]
    · rw [hf, hc]
      simp [submit_of, hr]
  · obtain ⟨v, hc, hf⟩ := h2 (by simpa using ht)
    rw [hf, hc]
    simp [submit_of]

theorem submit_block_order {σ : Type} (b : TokenBuild) (k : Krb5 σ) (cell : String)
    (creds : krb5_creds) (uid : Nat) (t : Int) (s : σ) (x : PrincipalCall)
    (hx : obtains_ticket x = true) (l : List PrincipalCall) (hl : submission_order t l) :
    ((submit_creds b k cell creds uid t s).1 = true →
      submission_order t (x :: (submit_creds b k cell creds uid t s).2.1))
    ∧ ((submit_creds b k cell creds uid t s).1 = false →
      submission_order t (x :: ((submit_creds b k cell creds uid t s).2.1 ++ l))) := by
  obtain ⟨h1, h2⟩ := submit_creds_shape b k cell creds uid t s
  by_cases ht : t ≠ 0
  · rcases h1 ht with ⟨hf, hc⟩ | ⟨r, v, hr, hc, hf⟩
    · rw [hf, hc]
      exact ⟨fun _ => so_direct_ok t ht x hx, fun h => by cases h⟩
    · rw [hc]
      exact ⟨fun _ => so_direct_failed t ht x hx r v hr [] (so_nil t),
        fun _ => so_direct_failed t ht x hx r v hr l hl⟩
  · have ht0 : t = 0 := by simpa using ht
    obtain ⟨v, hc, hf⟩ := h2 ht0
    rw [hc]
    exact ⟨fun _ => so_convert_only t ht0 x hx v [] (so_nil t),
      fun _ => so_convert_only t ht0 x hx v l hl⟩

theorem cache_loop_order {σ : Type} (b : TokenBuild) (k : Krb5 σ) (ccache : Nat)
    (cell principal : String) (uid : Nat) (t : Int) (es : List Enctype) (s : σ)
    (l : List PrincipalCall) (hl : submission_order t l) :
    ((cache_loop b k ccache cell principal uid t es s).1 = true →
      submission_order t (cache_loop b k ccache cell principal uid t es s).2.1)
    ∧ ((cache_loop b k ccache cell principal uid t es s).1 = false →
      submission_order t ((cache_loop b k ccache cell principal uid t es s).2.1 ++ l)) := by
  induction es generalizing s with
  | nil => simp [cache_loop, hl]
  | cons e es ih =>
    simp only [cache_loop]
    by_cases h1 : (k.cc_retrieve_cred ccache principal e s).1.1 = 0
    · simp only [h1, if_true]
      have hx : obtains_ticket (PrincipalCall.cc_retrieve_cred e 0) = true := rfl
      by_cases h2 : (submit_creds b k cell (k.cc_retrieve_cred ccache principal e s).1.2 uid
          t (k.cc_retrieve_cred ccache principal e s).2).1 = true
      · simp only [h2, if_true]
        refine ⟨fun _ => (submit_block_order b k cell _ uid t _ _ hx [] (so_nil t)).1 h2,
          fun h => by cases h⟩
      · simp only [h2, if_false]
        have h2f : (submit_creds b k cell (k.cc_retrieve_cred ccache principal e s).1.2 uid
          t (k.cc_retrieve_cred ccache principal e s).2).1 = false := by simpa using h2
        obtain ⟨i1, i2⟩ := ih (submit_creds b k cell
          (k.cc_retrieve_cred ccache principal e s).1.2 uid t
          (k.cc_retrieve_cred ccache principal e s).2).2.2
        constructor
        · intro hf
          exact (submit_block_order b k cell _ uid t _ _ hx _ (i1 hf)).2 h2f
        · intro hf
          have := (submit_block_order b k cell _ uid t _ _ hx _ (i2 hf)).2 h2f
          simpa [List.append_assoc] using this
    · simp only [h1, if_false]
      obtain ⟨i1, i2⟩ := ih (k.cc_retrieve_cred ccache principal e s).2
      have hx : obtains_ticket (PrincipalCall.cc_retrieve_cred e
          (k.cc_retrieve_cred ccache principal e s).1.1) = false := by
        simp [obtains_ticket, h1]
      exact ⟨fun hf => so_cons_neutral t _ _ hx rfl (i1 hf),
        fun hf => so_cons_neutral t _ _ hx rfl (i2 hf)⟩

theorem request_loop_order {σ : Type} (b : TokenBuild) (k : Krb5 σ) (ccache : Nat)
    (cell principal : String) (uid : Nat) (t : Int) (es : List Enctype) (s : σ)
    (l : List PrincipalCall) (hl : submission_order t l) :
    ((request_loop b k ccache cell principal uid t es s).1 = true →
      submission_order t (request_loop b k ccache cell principal uid t es s).2.1)
    ∧ ((request_loop b k ccache cell principal uid t es s).1 = false →
      submission_order t ((request_loop b k ccache cell principal uid t es s).2.1 ++ l)) := by
  induction es generalizing s with
  | nil => simp [request_loop, hl]
  | cons e es ih =>
    simp only [request_loop]
    by_cases h1 : (k.get_credentials ccache principal e s).1.1 = 0
    · simp only [h1, if_true]
      have hx : obtains_ticket (PrincipalCall.get_credentials e 0) = true := rfl
      by_cases h2 : (submit_creds b k cell (k.get_credentials ccache principal e s).1.2 uid
          t (k.get_credentials ccache principal e s).2).1 = true
      · simp only [h2, if_true]
        refine ⟨fun _ => (submit_block_order b k cell _ uid t _ _ hx [] (so_nil t)).1 h2,
          fun h => by cases h⟩
      · simp only [h2, if_false]
        have h2f : (submit_creds b k cell (k.get_credentials ccache principal e s).1.2 uid
          t (k.get_credentials ccache principal e s).2).1 = false := by simpa using h2
        obtain ⟨i1, i2⟩ := ih (submit_creds b k cell
          (k.get_credentials ccache principal e s).1.2 uid t
          (k.get_credentials ccache principal e s).2).2.2
        constructor
        · intro hf
          exact (submit_block_order b k cell _ uid t _ _ hx _ (i1 hf)).2 h2f
        · intro hf
          have := (submit_block_order b k cell _ uid t _ _ hx _ (i2 hf)).2 h2f
          simpa [List.append_assoc] using this
    · simp only [h1, if_false]
      obtain ⟨i1, i2⟩ := ih (k.get_credentials ccache principal e s).2
      have hx : obtains_ticket (PrincipalCall.get_credentials e
          (k.get_credentials ccache principal e s).1.1) = false := by
        simp [obtains_ticket, h1]
      exact ⟨fun hf => so_cons_neutral t _ _ hx rfl (i1 hf),
        fun hf => so_cons_neutral t _ _ hx rfl (i2 hf)⟩

theorem cache_loop_flag {σ : Type} (b : TokenBuild) (k : Krb5 σ) (ccache : Nat)
    (cell principal : String) (uid : Nat) (t : Int) (es : List Enctype) (s : σ) :
    (cache_loop b k ccache cell principal uid t es s).1 = true
      ↔ ∃ c ∈ (cache_loop b k ccache cell principal uid t es s).2.1, submit_of c = some 0 := by
  induction es generalizing s with
  | nil => simp [cache_loop]
  | cons e es ih =>
    simp only [cache_loop]
    by_cases h1 : (k.cc_retrieve_cred ccache principal e s).1.1 = 0
    · simp only [h1, if_true]
      have hs := submit_creds_flag b k cell (k.cc_retrieve_cred ccache principal e s).1.2 uid
          t (k.cc_retrieve_cred ccache principal e s).2
      by_cases h2 : (submit_creds b k cell (k.cc_retrieve_cred ccache principal e s).1.2 uid
          t (k.cc_retrieve_cred ccache principal e s).2).1 = true
      · simp only [h2, if_true, true_iff]
        obtain ⟨c, hc, hv⟩ := hs.1 h2
        exact ⟨c, List.mem_cons_of_mem _ hc, hv⟩
      · simp only [h2, Bool.false_eq_true, if_false]
        rw [ih]
        constructor
        · rintro ⟨c, hc, hv⟩
          exact ⟨c, List.mem_cons_of_mem _ (List.mem_append_right _ hc), hv⟩
        · rintro ⟨c, hc, hv⟩
          rcases List.mem_cons.1 hc with rfl | hc
          · cases hv
          rcases List.mem_append.1 hc with hc | hc
          · exact absurd (hs.2 ⟨c, hc, hv⟩) h2
          · exact ⟨c, hc, hv⟩
    · simp only [h1, if_false]
      rw [ih]
      constructor
      · rintro ⟨c, hc, hv⟩
        exact ⟨c, List.mem_cons_of_mem _ hc, hv⟩
      · rintro ⟨c, hc, hv⟩
        rcases List.mem_cons.1 hc with rfl | hc
        · cases hv
        · exact ⟨c, hc, hv⟩

theorem request_loop_flag {σ : Type} (b : TokenBuild) (k : Krb5 σ) (ccache : Nat)
    (cell principal : String) (uid : Nat) (t : Int) (es : List Enctype) (s : σ) :
    (request_loop b k ccache cell principal uid t es s).1 = true
      ↔ ∃ c ∈ (request_loop b k ccache cell principal uid t es s).2.1,
          submit_of c = some 0 := by
  induction es generalizing s with
  | nil => simp [request_loop]
  | cons e es ih =>
    simp only [request_loop]
    by_cases h1 : (k.get_credentials ccache principal e s).1.1 = 0
    · simp only [h1, if_true]
      have hs := submit_creds_flag b k cell (k.get_credentials ccache principal e s).1.2 uid
          t (k.get_credentials ccache principal e s).2
      by_cases h2 : (submit_creds b k cell (k.get_credentials ccache principal e s).1.2 uid
          t (k.get_credentials ccache principal e s).2).1 = true
      · simp only [h2, if_true, true_iff]
        obtain ⟨c, hc, hv⟩ := hs.1 h2
        exact ⟨c, List.mem_cons_of_mem _ hc, hv⟩
      · simp only [h2, Bool.false_eq_true, if_false]
        rw [ih]
        constructor
        · rintro ⟨c, hc, hv⟩
          exact ⟨c, List.mem_cons_of_mem _ (List.mem_append_right _ hc), hv⟩
        · rintro ⟨c, hc, hv⟩
          rcases List.mem_cons.1 hc with rfl | hc
          · cases hv
          rcases List.mem_append.1 hc with hc | hc
          · exact absurd (hs.2 ⟨c, hc, hv⟩) h2
          · exact ⟨c, hc, hv⟩
    · simp only [h1, if_false]
      rw [ih]
      constructor
      · rintro ⟨c, hc, hv⟩
        exact ⟨c, List.mem_cons_of_mem _ hc, hv⟩
      · rintro ⟨c, hc, hv⟩
        rcases List.mem_cons.1 hc with rfl | hc
        · cases hv
        · exact ⟨c, hc, hv⟩

/-! ## C21: direct submission and conversion -/

/-- C21.  In every run of `minikafs_5log_with_principal`: a call that obtained
a ticket (a probe of the cache or a request that returned 0) is followed, when
`try_v5_2b` is nonzero, by `minikafs_5settoken`, which is the last call when it
returned 0 and is followed by `minikafs_5convert_and_log` otherwise, and, when
`try_v5_2b` is zero, by `minikafs_5convert_and_log`; with `try_v5_2b` zero
`minikafs_5settoken` is never called; with `try_v5_2b` nonzero every call of
`minikafs_5convert_and_log` comes right after a `minikafs_5settoken` that
failed; the function returns 0 exactly when one of these submissions returned
0, and -1 otherwise. -/
theorem C21_direct_then_convert {σ : Type} (b : TokenBuild) (k : Krb5 σ) (ccache : Nat)
    (cell principal : String) (uid : Nat) (try_v5_2b : Int) (s : σ) :
    (∀ pre c post,
      (minikafs_5log_with_principal b k ccache cell principal uid try_v5_2b s).calls
        = pre ++ c :: post →
      obtains_ticket c = true →
      (try_v5_2b ≠ 0 → ∃ r rest, post = PrincipalCall.settoken5 r :: rest
        ∧ (r = 0 → rest = [])
        ∧ (r ≠ 0 → ∃ v rest2, rest = PrincipalCall.convert_and_log v :: rest2))
      ∧ (try_v5_2b = 0 → ∃ v rest, post = PrincipalCall.convert_and_log v :: rest))
    ∧ (try_v5_2b = 0 →
      ∀ c ∈ (minikafs_5log_with_principal b k ccache cell principal uid try_v5_2b s).calls,
        ∀ r, c ≠ PrincipalCall.settoken5 r)
    ∧ (try_v5_2b ≠ 0 → ∀ pre v post,
      (minikafs_5log_with_principal b k ccache cell principal uid try_v5_2b s).calls
        = pre ++ PrincipalCall.convert_and_log v :: post →
      ∃ pre2 r, pre = pre2 ++ [PrincipalCall.settoken5 r] ∧ r ≠ 0)
    ∧ ((minikafs_5log_with_principal b k ccache cell principal uid try_v5_2b s).ret = 0
      ↔ ∃ c ∈ (minikafs_5log_with_principal b k ccache cell principal uid try_v5_2b s).calls,
          submit_of c = some 0)
    ∧ ((minikafs_5log_with_principal b k ccache cell principal uid try_v5_2b s).ret = 0
      ∨ (minikafs_5log_with_principal b k ccache cell principal uid try_v5_2b s).ret = -1) := by
  have key : submission_order try_v5_2b
      (minikafs_5log_with_principal b k ccache cell principal uid try_v5_2b s).calls
    ∧ ((minikafs_5log_with_principal b k ccache cell principal uid try_v5_2b s).ret = 0
      ↔ ∃ c ∈ (minikafs_5log_with_principal b k ccache cell principal uid try_v5_2b s).calls,
          submit_of c = some 0)
    ∧ ((minikafs_5log_with_principal b k ccache cell principal uid try_v5_2b s).ret = 0
      ∨ (minikafs_5log_with_principal b k ccache cell principal uid try_v5_2b s).ret = -1) := by
    unfold minikafs_5log_with_principal
    by_cases hc : (k.cc_get_principal ccache s).1 ≠ 0
    · rw [if_pos hc]
      refine ⟨so_cons_neutral _ _ _ rfl rfl (so_nil _), ?_, Or.inr rfl⟩
      simp [submit_of]
    · rw [if_neg hc]
      by_cases hp : (k.parse_name principal (k.cc_get_principal ccache s).2).1 ≠ 0
      · rw [if_pos hp]
        refine ⟨so_cons_neutral _ _ _ rfl rfl (so_cons_neutral _ _ _ rfl rfl (so_nil _)), ?_,
          Or.inr rfl⟩
        simp [submit_of]
      · rw [if_neg hp]
        have hr := request_loop_order b k ccache cell principal uid try_v5_2b etypes
          (cache_loop b k ccache cell principal uid try_v5_2b etypes
            (k.parse_name principal (k.cc_get_principal ccache s).2).2).2.2 [] (so_nil _)
        have hrf := request_loop_flag b k ccache cell principal uid try_v5_2b etypes
          (cache_loop b k ccache cell principal uid try_v5_2b etypes
            (k.parse_name principal (k.cc_get_principal ccache s).2).2).2.2
        have hcf := cache_loop_flag b k ccache cell principal uid try_v5_2b etypes
          (k.parse_name principal (k.cc_get_principal ccache s).2).2
        have hreq : submission_order try_v5_2b
            (request_loop b k ccache cell principal uid try_v5_2b etypes
              (cache_loop b k ccache cell principal uid try_v5_2b etypes
                (k.parse_name principal (k.cc_get_principal ccache s).2).2).2.2).2.1 := by
          by_cases h2 : (request_loop b k ccache cell principal uid try_v5_2b etypes
              (cache_loop b k ccache cell principal uid try_v5_2b etypes
                (k.parse_name principal (k.cc_get_principal ccache s).2).2).2.2).1 = true
          · exact hr.1 h2
          · simpa using hr.2 (by simpa using h2)
        have hco := cache_loop_order b k ccache cell principal uid try_v5_2b etypes
          (k.parse_name principal (k.cc_get_principal ccache s).2).2 _ hreq
        by_cases h1 : (cache_loop b k ccache cell principal uid try_v5_2b etypes
            (k.parse_name principal (k.cc_get_principal ccache s).2).2).1 = true
        · rw [if_pos h1]
          refine ⟨so_cons_neutral _ _ _ rfl rfl (so_cons_neutral _ _ _ rfl rfl (hco.1 h1)),
            ?_, Or.inl rfl⟩
          simp only [true_iff]
          obtain ⟨c, hcm, hv⟩ := hcf.1 h1
          exact ⟨c, List.mem_append_right _ hcm, hv⟩
        · rw [if_neg h1]
          have h1f : (cache_loop b k ccache cell principal uid try_v5_2b etypes
            (k.parse_name principal (k.cc_get_principal ccache s).2).2).1 = false := by
            simpa using h1
          have hord : submission_order try_v5_2b
              ([PrincipalCall.cc_get_principal (k.cc_get_principal ccache s).1,
                PrincipalCall.parse_name
                  (k.parse_name principal (k.cc_get_principal ccache s).2).1]
              ++ (cache_loop b k ccache cell principal uid try_v5_2b etypes
                  (k.parse_name principal (k.cc_get_principal ccache s).2).2).2.1
              ++ (request_loop b k ccache cell principal uid try_v5_2b etypes
                  (cache_loop b k ccache cell principal uid try_v5_2b etypes
                    (k.parse_name principal (k.cc_get_principal ccache s).2).2).2.2).2.1) := by
            have := so_cons_neutral try_v5_2b
              (PrincipalCall.cc_get_principal (k.cc_get_principal ccache s).1) _ rfl rfl
              (so_cons_neutral try_v5_2b
                (PrincipalCall.parse_name
                  (k.parse_name principal (k.cc_get_principal ccache s).2).1) _ rfl rfl
                (hco.2 h1f))
            simpa [List.append_assoc] using this
          have hmem : ∀ c, c ∈ ([PrincipalCall.cc_get_principal (k.cc_get_principal ccache s).1,
                PrincipalCall.parse_name
                  (k.parse_name principal (k.cc_get_principal ccache s).2).1]
              ++ (cache_loop b k ccache cell principal uid try_v5_2b etypes
                  (k.parse_name principal (k.cc_get_principal ccache s).2).2).2.1
              ++ (request_loop b k ccache cell principal uid try_v5_2b etypes
                  (cache_loop b k ccache cell principal uid try_v5_2b etypes
                    (k.parse_name principal (k.cc_get_principal ccache s).2).2).2.2).2.1) →
              submit_of c = some 0 →
              (request_loop b k ccache cell principal uid try_v5_2b etypes
                  (cache_loop b k ccache cell principal uid try_v5_2b etypes
                    (k.parse_name principal (k.cc_get_principal ccache s).2).2).2.2).1
                = true := by
            intro c hcm hv
            rcases List.mem_append.1 hcm with hcm | hcm
            · rcases List.mem_append.1 hcm with hcm | hcm
              · simp only [List.mem_cons, List.mem_singleton, List.not_mem_nil, or_false] at hcm
                rcases hcm with rfl | rfl <;> cases hv
              · exact absurd (hcf.2 ⟨c, hcm, hv⟩) h1
            · exact hrf.2 ⟨c, hcm, hv⟩
          by_cases h2 : (request_loop b k ccache cell principal uid try_v5_2b etypes
              (cache_loop b k ccache cell principal uid try_v5_2b etypes
                (k.parse_name principal (k.cc_get_principal ccache s).2).2).2.2).1 = true
          · rw [if_pos h2]
            refine ⟨hord, ?_, Or.inl rfl⟩
            simp only [true_iff]
            obtain ⟨c, hcm, hv⟩ := hrf.1 h2
            exact ⟨c, List.mem_append_right _ hcm, hv⟩
          · rw [if_neg h2]
            refine ⟨hord, ?_, Or.inr rfl⟩
            constructor
            · intro h
              have h3 : (-1 : Int) = 0 := h
              exact absurd h3 (by decide)
            · rintro ⟨c, hcm, hv⟩
              exact absurd (hmem c hcm hv) h2
  exact ⟨key.1.1, key.1.2.1, key.1.2.2, key.2.1, key.2.2⟩

/-- Witness for C21: with `try_v5_2b` nonzero the cache holds a ticket, the
direct submission is refused, the conversion is attempted and its token is
accepted; the function returns 0. -/
theorem C21_direct_then_convert_witness :
    (minikafs_5log_with_principal (σ := Nat) ⟨ByteOrder.little, fun _ => 170, true, true⟩
        ⟨fun _ t => (0, t), fun _ t => (0, t),
          fun _ _ _ t => ((0, ⟨[1, 2, 3], [11, 12, 13, 14, 15, 16, 17, 18], 1000, 2000⟩), t),
          fun _ _ _ t => ((-1, ⟨[], [], 0, 0⟩), t),
          fun _ t => (if t = 0 then -1 else 0, t + 1),
          fun _ t => ((0, ⟨[21, 22, 23, 24, 25, 26, 27, 28], 1, [4, 5]⟩), t)⟩
        9 "example.org" "afs/example.org@EXAMPLE.ORG" 1000 1 0).calls
      = [PrincipalCall.cc_get_principal 0, PrincipalCall.parse_name 0,
          PrincipalCall.cc_retrieve_cred Enctype.ENCTYPE_DES_CBC_CRC 0,
          PrincipalCall.settoken5 (-1), PrincipalCall.convert_and_log 0]
    ∧ (minikafs_5log_with_principal (σ := Nat) ⟨ByteOrder.little, fun _ => 170, true, true⟩
        ⟨fun _ t => (0, t), fun _ t => (0, t),
          fun _ _ _ t => ((0, ⟨[1, 2, 3], [11, 12, 13, 14, 15, 16, 17, 18], 1000, 2000⟩), t),
          fun _ _ _ t => ((-1, ⟨[], [], 0, 0⟩), t),
          fun _ t => (if t = 0 then -1 else 0, t + 1),
          fun _ t => ((0, ⟨[21, 22, 23, 24, 25, 26, 27, 28], 1, [4, 5]⟩), t)⟩
        9 "example.org" "afs/example.org@EXAMPLE.ORG" 1000 1 0).ret = 0 :=
  ⟨by decide,
    (C21_direct_then_convert (σ := Nat) ⟨ByteOrder.little, fun _ => 170, true, true⟩
        ⟨fun _ t => (0, t), fun _ t => (0, t),
          fun _ _ _ t => ((0, ⟨[1, 2, 3], [11, 12, 13, 14, 15, 16, 17, 18], 1000, 2000⟩), t),
          fun _ _ _ t => ((-1, ⟨[], [], 0, 0⟩), t),
          fun _ t => (if t = 0 then -1 else 0, t + 1),
          fun _ t => ((0, ⟨[21, 22, 23, 24, 25, 26, 27, 28], 1, [4, 5]⟩), t)⟩
        9 "example.org" "afs/example.org@EXAMPLE.ORG" 1000 1 0).2.2.2.1.2
      ⟨PrincipalCall.convert_and_log 0, by decide, rfl⟩⟩

/-! ## Lemmas on the handle variable -/

theorem write_v5_publishes (m : Machine) (cfg : Config) (lib : Ccache) (e : WriteEnv)
    (st : Sys) (stash : Stash) (name : String) (s : String)
    (hs : StashCall.putenv s ∈ (_pam_krb5_stash_shm_write_v5 m cfg lib e st stash name).2) :
    s = snprintf (cfg.path_max + 5)
        ("_pam_krb5_stash_" ++ name ++ "_shm5=" ++ sprintf_d e.shm5.1)
    ∧ (_pam_krb5_stash_shm_write_v5 m cfg lib e st stash name).1.pam_env
      = pam_putenv st.pam_env s := by
  by_cases h1 : stash.v5attempted = 0 ∨ stash.v5result ≠ 0
  · simp [_pam_krb5_stash_shm_write_v5, h1] at hs
  by_cases h2 : e.mkstemp.1 = -1
  · simp [_pam_krb5_stash_shm_write_v5, h1, h2] at hs
  by_cases h3 : e.init_ctx ≠ 0
  · simp [_pam_krb5_stash_shm_write_v5, h1, h2, h3] at hs
  by_cases h4 : e.cc_resolve ≠ 0
  · simp [_pam_krb5_stash_shm_write_v5, h1, h2, h3, h4] at hs
  by_cases h5 : e.cc_initialize ≠ 0
  · simp [_pam_krb5_stash_shm_write_v5, h1, h2, h3, h4, h5] at hs
  by_cases h6 : e.cc_store_cred ≠ 0
  · simp [_pam_krb5_stash_shm_write_v5, h1, h2, h3, h4, h5, h6] at hs
  simp only [_pam_krb5_stash_shm_write_v5, h1, h2, h3, h4, h5, h6, if_false] at hs ⊢
  simp only [List.mem_cons, List.mem_singleton, List.not_mem_nil, or_false,
    StashCall.putenv.injEq, reduceCtorEq, false_or] at hs
  subst hs
  exact ⟨rfl, rfl⟩

theorem shm_read_first_lookup (m : Machine) (cfg : Config) (lib : Ccache) (e : ReadEnv)
    (st : Sys) (partial_key : String) (stash : Stash)
    (hmal : e.malloc_variable = true)
    (hk : shm_key_of m (pam_getenv st.pam_env (partial_key ++ "_shm5")) ≠ -1) :
    (_pam_krb5_stash_shm_read m cfg lib e st partial_key stash).2.take 2
      = [StashCall.shm_read partial_key,
          StashCall.blob_from_shm
            (shm_key_of m (pam_getenv st.pam_env (partial_key ++ "_shm5")))] := by
  unfold _pam_krb5_stash_shm_read
  simp only [hmal, hk, ne_eq, not_false_eq_true, if_true, if_false, Bool.true_eq_false]
  cases hb : (_pam_krb5_blob_from_shm st.segments
      (shm_key_of m (pam_getenv st.pam_env (partial_key ++ "_shm5")))).1 with
  | none =>
    simp only []
    repeat' split
    all_goals simp
  | some blob =>
    by_cases hl : blob.length = 0
    · simp only [hl, if_true]
      repeat' split
      all_goals simp
    · simp only [hl, if_false]
      repeat' split
      all_goals simp

theorem stash_get_reads (m : Machine) (cfg : Config) (lib : Ccache) (generic : Int)
    (e : GetEnv) (st : Sys) (name : String)
    (h1 : e.malloc_key = true)
    (hf : pam_get_data st.pam_data ("_pam_krb5_stash_" ++ name) = none)
    (h3 : e.malloc_stash ≠ 0) :
    StashCall.shm_read ("_pam_krb5_stash_" ++ name)
      ∈ (_pam_krb5_stash_get m cfg lib generic e true st name).2 := by
  have hr : ∀ s0 : Stash, StashCall.shm_read ("_pam_krb5_stash_" ++ name)
      ∈ (_pam_krb5_stash_shm_read m cfg lib e.read st ("_pam_krb5_stash_" ++ name) s0).2 := by
    intro s0
    unfold _pam_krb5_stash_shm_read
    simp only []
    repeat' split
    all_goals simp
  simp only [_pam_krb5_stash_get, h1, hf, h3, if_true, if_false, ne_eq, not_true_eq_false,
    Bool.true_eq_false, not_false_eq_true]
  simp only [List.mem_cons, List.mem_append, List.mem_singleton, reduceCtorEq, false_or, or_false]
  exact Or.inl (hr _)

/-! ## C23: the declared length of the payload -/

/-- C23 does not hold for a blob whose first integer is -1.  On a machine with
64-bit `size_t` the sum `blob_creds_size + sizeof(int) * 3` is computed in
`size_t` and is 11, so a blob of 12 bytes or more passes both sanity checks and
`_pam_krb5_stash_shm_read_v5` goes on to create the temporary file and to call
`_pam_krb5_write_with_retry` with the length -1.  When that call writes nothing
and returns 0 the stash is left as it was; were it to return -1, the value
compared with, the stash would take `v5attempted` and `v5result` from the
blob. -/
theorem C23_negative_length_accepted :
    int_at lp64.bo [255, 255, 255, 255, 1, 0, 0, 0, 0, 0, 0, 0, 65, 66] 0 = -1
    ∧ (_pam_krb5_stash_shm_read_v5 lp64 ticket_only_ccache
        ⟨true, (3, "/tmp/pam_krb5_tmp_abcdef"), 0, 0, 0, 0⟩
        ⟨none, 0, 0, -1765328324, none, zero_krb5_creds, 0, 0, 0, 0,
          zero_CREDENTIALS, none, 0, 0, 0, 0⟩
        [255, 255, 255, 255, 1, 0, 0, 0, 0, 0, 0, 0, 65, 66]).2
      = [StashCall.write_tmp [65, 66] (-1),
          StashCall.unlink (some "/tmp/pam_krb5_tmp_abcdef")]
    ∧ v5_status (_pam_krb5_stash_shm_read_v5 lp64 ticket_only_ccache
        ⟨true, (3, "/tmp/pam_krb5_tmp_abcdef"), -1, 0, 0, 0⟩
        ⟨none, 0, 0, -1765328324, none, zero_krb5_creds, 0, 0, 0, 0,
          zero_CREDENTIALS, none, 0, 0, 0, 0⟩
        [255, 255, 255, 255, 1, 0, 0, 0, 0, 0, 0, 0, 65, 66]).1
      = (1, 0, ⟨[], [], 0, 0⟩) := by
  refine ⟨by decide, by decide, by decide⟩

/-! ## C24: the text of the handle -/

/-- C24, amended.  On a machine whose `long` has at least 32 bits, for every
identifier `k` strictly between `INT_MIN` and `INT_MAX`: the text that `%d`
gives for `k` is read back as `k`, and when `k` is not -1 and the variable of
the handle holds that text, `_pam_krb5_stash_shm_read` looks up segment `k`
first.  The text of -1 is read as -1, which stands for no handle: without
`USE_KRB4` the function then makes no lookup and leaves the stash and the
state unchanged.  The texts of `INT_MAX` and `INT_MIN` are read as -1 too. -/
theorem C24_handle_text_round_trip (m : Machine) (cfg : Config) (lib : Ccache) (k : Int)
    (hlong : 2147483647 ≤ m.long_max) (hk : INT_MIN < k ∧ k < INT_MAX) :
    shm_key_of m (some (sprintf_d k)) = k
    ∧ (∀ (e : ReadEnv) (st : Sys) (partial_key : String) (stash : Stash),
      k ≠ -1 → e.malloc_variable = true →
      pam_getenv st.pam_env (partial_key ++ "_shm5") = some (sprintf_d k) →
      (_pam_krb5_stash_shm_read m cfg lib e st partial_key stash).2.take 2
        = [StashCall.shm_read partial_key, StashCall.blob_from_shm k])
    ∧ sprintf_d (-1) = "-1"
    ∧ (∀ (e : ReadEnv) (st : Sys) (partial_key : String) (stash : Stash),
      cfg.use_krb4 = false →
      pam_getenv st.pam_env (partial_key ++ "_shm5") = some "-1" →
      _pam_krb5_stash_shm_read m cfg lib e st partial_key stash
        = ((stash, st), [StashCall.shm_read partial_key]))
    ∧ shm_key_of m (some (sprintf_d INT_MAX)) = -1
    ∧ shm_key_of m (some (sprintf_d INT_MIN)) = -1 := by
  have h1 := shm_key_of_sprintf_d m k hlong hk
  have hd : sprintf_d (-1) = "-1" := by decide
  have hm1 : shm_key_of m (some "-1") = -1 := by
    rw [← hd]
    exact shm_key_of_sprintf_d m (-1) hlong (by decide)
  refine ⟨h1, ?_, by decide, ?_, ?_, ?_⟩
  · intro e st pk stash hne hmal henv
    have := shm_read_first_lookup m cfg lib e st pk stash hmal (by rw [henv, h1]; exact hne)
    rw [henv, h1] at this
    exact this
  · intro e st pk stash h4 henv
    unfold _pam_krb5_stash_shm_read
    by_cases hmal : e.malloc_variable = false
    · simp [hmal]
    · simp [hmal, henv, hm1, h4]
  · unfold shm_key_of
    simp only [strtol_sprintf_d m.long_max INT_MAX hlong (by decide)]
    simp
  · unfold shm_key_of
    simp only [strtol_sprintf_d m.long_max INT_MIN hlong (by decide)]
    simp

/-- Witness for C24: the identifier 7. -/
theorem C24_handle_text_round_trip_witness :
    shm_key_of lp64 (some (sprintf_d 7)) = 7 :=
  (C24_handle_text_round_trip lp64 ⟨false, 4096⟩ ticket_only_ccache 7 (by decide)
    (by decide)).1

/-- Counterexample to C24 as stated: the identifier `INT_MAX` is published as
`2147483647`, and the reader takes that text for no handle, since it accepts
a value only when it is strictly below `INT_MAX`. -/
theorem C24_counterexample :
    sprintf_d 2147483647 = "2147483647"
    ∧ shm_key_of lp64 (some (sprintf_d 2147483647)) = -1
    ∧ shm_key_of lp64 (some (sprintf_d (-2147483648))) = -1
    ∧ _pam_krb5_stash_shm_read lp64 ⟨false, 4096⟩ ticket_only_ccache
        ⟨true, (3, "/tmp/pam_krb5_tmp_abcdef"), 2, 0, 0, 0⟩
        ⟨[], ["_pam_krb5_stash_user@EXAMPLE.ORG_shm5=2147483647"],
          [(2147483647, [2, 0, 0, 0, 1, 0, 0, 0, 0, 0, 0, 0, 65, 66])], []⟩
        "_pam_krb5_stash_user@EXAMPLE.ORG"
        ⟨none, 0, 0, -1765328324, none, zero_krb5_creds, 0, 0, 0, 0,
          zero_CREDENTIALS, none, 0, 0, 0, 0⟩
      = ((⟨none, 0, 0, -1765328324, none, zero_krb5_creds, 0, 0, 0, 0,
            zero_CREDENTIALS, none, 0, 0, 0, 0⟩,
          ⟨[], ["_pam_krb5_stash_user@EXAMPLE.ORG_shm5=2147483647"],
            [(2147483647, [2, 0, 0, 0, 1, 0, 0, 0, 0, 0, 0, 0, 65, 66])], []⟩),
        [StashCall.shm_read "_pam_krb5_stash_user@EXAMPLE.ORG"]) := by
  refine ⟨by decide, by decide, by decide, by decide⟩

/-! ## C25: the buffer of the principal name -/

/-- C25 does not hold when the realm is longer than the cell name.  The string
`afsx/<cell>@<realm>` with its NUL fits the buffer exactly when the realm is no
longer than the cell name, the buffer being sized with `strlen(cell)` twice.
For the cell `ex.org`, whose realm is resolved to `EXAMPLE.ORG`, the buffer has
19 bytes, and `minikafs_5log` writes to it the strings
`afs/ex.org@EXAMPLE.ORG` and `afsx/ex.org@EXAMPLE.ORG`, of 23 and 24 bytes with
the NUL. -/
theorem C25_principal_overflows_buffer :
    (∀ cell realm : String,
      strlen (sprintf_service_instance_realm "afsx" cell realm) + 1 ≤ principal_size cell
        ↔ strlen realm ≤ strlen cell)
    ∧ principal_size "ex.org" = 19
    ∧ (minikafs_5log (σ := Unit) ⟨false, 4096⟩ (fun _ t => (-1, t))
        ⟨true, (0, 5), (0, "EXAMPLE.ORG"), ⟨true, 0, 0, 0, 0, "EXAMPLE.ORG"⟩, (0, 7)⟩
        5 9 "ex.org" 1000 1 ()).attempts.map
          (fun a => (a.1.principal, strlen a.1.principal + 1))
      = [("afs/ex.org@EXAMPLE.ORG", 23), ("afsx/ex.org@EXAMPLE.ORG", 24)] := by
  refine ⟨?_, by decide, by decide⟩
  intro cell realm
  simp only [sprintf_service_instance_realm, principal_size, strlen, String.data_append,
    List.length_append]
  have h1 : "afsx".data.length = 4 := rfl
  have h2 : "/".data.length = 1 := rfl
  have h3 : "@".data.length = 1 := rfl
  have h4 : "afsx/".data.length = 5 := rfl
  rw [h1, h2, h3, h4]
  omega

/-! ## C27: the credential cache of the attempts -/

/-- C27 does not hold when the caller supplies no cache.  `krb5_cc_default`
stores the default cache, here the handle 7, in the parameter `ccache`, and the
variable `use_ccache` keeps the zero bytes of its `memset`: every attempt gets
the cache 0, and on exit `krb5_cc_close` is called on 0, not on the cache that
was opened.  With the caller's cache 9, every attempt gets 9 and nothing is
closed. -/
theorem C27_default_cache_not_used :
    (minikafs_5log (σ := Unit) ⟨false, 4096⟩ (fun _ t => (-1, t))
        ⟨true, (0, 5), (0, "EXAMPLE.ORG"), ⟨true, 0, 0, 0, 0, "EXAMPLE.ORG"⟩, (0, 7)⟩
        5 0 "example.org" 1000 1 ()).attempts.map (fun a => a.1.ccache)
      = [0, 0, 0, 0]
    ∧ (minikafs_5log (σ := Unit) ⟨false, 4096⟩ (fun _ t => (-1, t))
        ⟨true, (0, 5), (0, "EXAMPLE.ORG"), ⟨true, 0, 0, 0, 0, "EXAMPLE.ORG"⟩, (0, 7)⟩
        5 0 "example.org" 1000 1 ()).closed = [0]
    ∧ (minikafs_5log (σ := Unit) ⟨false, 4096⟩ (fun _ t => (-1, t))
        ⟨true, (0, 5), (0, "EXAMPLE.ORG"), ⟨true, 0, 0, 0, 0, "EXAMPLE.ORG"⟩, (0, 7)⟩
        5 9 "example.org" 1000 1 ()).attempts.map (fun a => a.1.ccache)
      = [9, 9, 9, 9]
    ∧ (minikafs_5log (σ := Unit) ⟨false, 4096⟩ (fun _ t => (-1, t))
        ⟨true, (0, 5), (0, "EXAMPLE.ORG"), ⟨true, 0, 0, 0, 0, "EXAMPLE.ORG"⟩, (0, 7)⟩
        5 9 "example.org" 1000 1 ()).closed = [] := by
  refine ⟨by decide, by decide, by decide, by decide⟩

theorem serialize_length (bo : ByteOrder) (b : TokenBlob) (hkey : b.token.key.length = 8) :
    (serialize bo b).length = 4 + b.ticket.length + 4 + 24 + 4 + strlen b.cell + 1 := by
  simp [serialize, u32_bytes_length, plain_token_bytes_length bo b.token hkey, string_bytes,
    strlen]
  omega

theorem insize_5settoken {σ : Type} (bo : ByteOrder) (junk : Nat → Nat)
    (pioctl : minikafs_ioblock → σ → Int × σ) (cell : String) (ticket key : List Nat)
    (starttime endtime : Int) (uid : Nat) (s : σ)
    (hkey : key.length = 8) (hlen : ticket.length < 4294967296) :
    (minikafs_5settoken bo junk pioctl cell ⟨ticket, key, starttime, endtime⟩
        uid s).submitted.map (fun iob => (iob.insize, iob.in_.length))
      = [((4 + ticket.length + 4 + 24 + 4 + strlen cell + 1) % 65536,
          4 + ticket.length + 4 + 24 + 4 + strlen cell + 1)] := by
  have hk2 : (buffer_5settoken bo junk cell ⟨ticket, key, starttime, endtime⟩ uid).2.key.length
      = 8 := by
    simp [buffer_5settoken, v5_creds_key_contents, v5_creds_key_length, hkey]
  rw [submitted_5settoken_iob bo junk pioctl cell _ uid s hkey]
  simp only [List.map_cons, List.map_nil]
  rw [buffer_5settoken_eq bo junk cell _ uid hkey hlen, serialize_length _ _ hk2]
  simp [sizeof_plain_token]

/-! ## C26: the size declared to the kernel -/

/-- C26 does not hold for a token blob of 65536 bytes or more.  The field
`insize` is a `u_int16_t`, so it holds the length of the blob modulo 65536:
for a ticket of 65536 bytes and the cell `example.org` the blob handed to the
kernel has 65584 bytes and `minikafs_5settoken` declares 48. -/
theorem C26_insize_wraps :
    (minikafs_5settoken (σ := Unit) ByteOrder.little (fun _ => 170) (fun _ t => (0, t))
        "example.org" ⟨List.replicate 65536 0, [11, 12, 13, 14, 15, 16, 17, 18], 1000, 2000⟩
        500 ()).submitted.map (fun iob => (iob.insize, iob.in_.length))
      = [(48, 65584)] := by
  have hl : (List.replicate 65536 0 : List Nat).length = 65536 := List.length_replicate _ _
  have hc : strlen "example.org" = 11 := rfl
  rw [insize_5settoken ByteOrder.little (fun _ => 170) (fun _ t => (0, t)) "example.org"
    (List.replicate 65536 0) [11, 12, 13, 14, 15, 16, 17, 18] 1000 2000 500 () rfl
    (by rw [hl]; norm_num), hl, hc]

/-! ## Lemmas on the PAM environment -/

theorem getLast_cons_ne_nil {α : Type} (x : α) (l : List α) (h : l ≠ []) :
    (x :: l).getLast? = l.getLast? := by
  cases l with
  | nil => exact absurd rfl h
  | cons b l => exact List.getLast?_cons_cons

theorem search_spec (env : List String) (n : List Char) :
    (∀ i, _pam_search_env env n = some i →
      ∃ item, env.get? i = some item ∧ env_item_matches n item = true
        ∧ (env.filter (env_item_matches n)).getLast? = some item)
    ∧ (_pam_search_env env n = none → env.filter (env_item_matches n) = []) := by
  induction env with
  | nil => simp [_pam_search_env]
  | cons x rest ih =>
    obtain ⟨ih1, ih2⟩ := ih
    cases hs : _pam_search_env rest n with
    | some j =>
      obtain ⟨item, hg, hm, hl⟩ := ih1 j hs
      have hne : rest.filter (env_item_matches n) ≠ [] := by
        intro h
        rw [h] at hl
        simp at hl
      constructor
      · intro i hi
        simp only [_pam_search_env, hs, Option.some.injEq] at hi
        subst hi
        refine ⟨item, by simpa using hg, hm, ?_⟩
        by_cases hx : env_item_matches n x = true
        · rw [List.filter_cons_of_pos hx, getLast_cons_ne_nil _ _ hne]
          exact hl
        · rw [List.filter_cons_of_neg hx]
          exact hl
      · intro h
        simp [_pam_search_env, hs] at h
    | none =>
      have hnil := ih2 hs
      by_cases hx : env_item_matches n x = true
      · constructor
        · intro i hi
          simp only [_pam_search_env, hs, hx, if_true, Option.some.injEq] at hi
          subst hi
          refine ⟨x, rfl, hx, ?_⟩
          rw [List.filter_cons_of_pos hx, hnil]
          rfl
        · intro h
          simp [_pam_search_env, hs, hx] at h
      · constructor
        · intro i hi
          simp [_pam_search_env, hs, hx] at hi
        · intro _
          rw [List.filter_cons_of_neg hx, hnil]

/-- The variable that `pam_getenv` returns is the last item that passes the
test of `_pam_search_env`. -/
theorem pam_getenv_eq (env : List String) (name : String) :
    pam_getenv env name
      = ((env.filter (env_item_matches name.data)).getLast?).map
          (fun item => String.mk (item.data.drop (name.data.length + 1))) := by
  obtain ⟨h1, h2⟩ := search_spec env name.data
  unfold pam_getenv
  cases hs : _pam_search_env env name.data with
  | some i =>
    obtain ⟨item, hg, _, hl⟩ := h1 i hs
    simp only [hg, hl, Option.map_some']
  | none =>
    simp only [h2 hs, List.getLast?_nil, Option.map_none']

theorem search_decomp (env : List String) (n : List Char) (i : Nat)
    (h : _pam_search_env env n = some i) :
    ∃ pre x post, env = pre ++ x :: post ∧ pre.length = i
      ∧ env_item_matches n x = true ∧ ∀ y ∈ post, env_item_matches n y = false := by
  induction env generalizing i with
  | nil => simp [_pam_search_env] at h
  | cons a rest ih =>
    cases hs : _pam_search_env rest n with
    | some j =>
      simp only [_pam_search_env, hs, Option.some.injEq] at h
      obtain ⟨pre, x, post, he, hl, hm, hp⟩ := ih j hs
      exact ⟨a :: pre, x, post, by rw [he]; rfl, by simp [hl, h], hm, hp⟩
    | none =>
      by_cases hx : env_item_matches n a = true
      · simp only [_pam_search_env, hs, hx, if_true, Option.some.injEq] at h
        refine ⟨[], a, rest, rfl, by simp [← h], hx, ?_⟩
        intro y hy
        have := (search_spec rest n).2 hs
        have hy2 : y ∉ rest.filter (env_item_matches n) := by rw [this]; simp
        simpa [List.mem_filter, hy] using hy2
      · simp [_pam_search_env, hs, hx] at h

theorem set_at (pre post : List String) (x s : String) :
    (pre ++ x :: post).set pre.length s = pre ++ s :: post := by
  induction pre with
  | nil => rfl
  | cons p pre ih => simp [List.set, ih]

theorem takeWhile_split (l : List Char) (h : '=' ∈ l) :
    ∃ r, l = l.takeWhile (fun c => decide (c ≠ '=')) ++ '=' :: r := by
  induction l with
  | nil => simp at h
  | cons a l ih =>
    by_cases ha : a = '='
    · subst ha
      exact ⟨l, by simp [List.takeWhile]⟩
    · have hl : '=' ∈ l := by
        rcases List.mem_cons.1 h with h1 | h1
        · exact absurd h1.symm ha
        · exact h1
      obtain ⟨r, hr⟩ := ih hl
      refine ⟨r, ?_⟩
      have hd : decide (a ≠ '=') = true := by simpa using ha
      rw [List.takeWhile_cons, hd]
      simp only [if_true, List.cons_append]
      rw [← hr]

theorem takeWhile_stop (p : Char → Bool) (n : List Char) (c : Char) (v : List Char)
    (hc : p c = false) : (n ++ c :: v).takeWhile p = n.takeWhile p := by
  induction n with
  | nil => simp [List.takeWhile, hc]
  | cons a n ih =>
    simp only [List.cons_append, List.takeWhile_cons]
    split
    · rw [ih]
    · rfl

theorem take_length_takeWhile (p : Char → Bool) (l : List Char) :
    l.take (l.takeWhile p).length = l.takeWhile p := by
  induction l with
  | nil => rfl
  | cons a l ih =>
    simp only [List.takeWhile_cons]
    split
    · simp [ih]
    · simp

theorem matches_of_data (n v : List Char) (s : String) (h : s.data = n ++ '=' :: v) :
    env_item_matches n s = true
    ∧ s.data.drop (n.length + 1) = v := by
  unfold env_item_matches
  have h1 : s.data = (n ++ ['=']) ++ v := by rw [h]; simp
  have hl : (n ++ ['=']).length = n.length + 1 := by simp
  constructor
  · rw [h1, ← hl, List.take_left]
    simp
  · rw [h1, ← hl, List.drop_left]

/-- An item that is the variable `n` is also the variable named by the chars
before the first `=` of a string that starts with `n` and `=`. -/
theorem matches_key (n v : List Char) (item : String)
    (hm : env_item_matches n item = true) :
    env_item_matches ((n ++ '=' :: v).takeWhile (fun c => decide (c ≠ '='))) item = true := by
  obtain ⟨r, hr⟩ := takeWhile_split (n ++ '=' :: v) (by simp)
  generalize hk : (n ++ '=' :: v).takeWhile (fun c => decide (c ≠ '=')) = k at hr ⊢
  -- the key is an initial part of `n`, followed in `n ++ "="` by `=`
  have hlen : k.length ≤ n.length := by
    rw [← hk, takeWhile_stop _ n '=' v (by simp)]
    exact (List.takeWhile_sublist _).length_le
  have hpre : (n ++ ['=']).take (k.length + 1) = k ++ ['='] := by
    have h2 : ((n ++ ['=']) ++ v).take (k.length + 1) = (k ++ ['=']) ++ ([] : List Char) := by
      have e1 : (n ++ ['=']) ++ v = (k ++ ['=']) ++ r := by
        simp only [List.append_assoc, List.singleton_append]
        exact hr
      rw [e1]
      have e2 : (k ++ ['=']).length = k.length + 1 := by simp
      rw [← e2, List.take_left]
      simp
    rw [List.take_append_of_le_length (by simp; omega)] at h2
    simpa using h2
  unfold env_item_matches at hm ⊢
  have hm2 : item.data.take (n.length + 1) = n ++ ['='] := by simpa using hm
  have h3 : item.data.take (k.length + 1) = (item.data.take (n.length + 1)).take (k.length + 1) := by
    rw [List.take_take, Nat.min_eq_left (by omega)]
  rw [h3, hm2, hpre]
  simp

/-- After `pam_putenv` of a string that starts with `name` and `=`, `pam_getenv`
of `name` gives the rest of the string. -/
theorem getenv_putenv (env : List String) (s name value : String) (c0 : Char) (t : List Char)
    (hs : s.data = name.data ++ '=' :: value.data)
    (hname : name.data = c0 :: t) (hc0 : c0 ≠ '=') :
    pam_getenv (pam_putenv env s) name = some value := by
  obtain ⟨hmatch, hdrop⟩ := matches_of_data name.data value.data s hs
  obtain ⟨r, hr⟩ := takeWhile_split s.data (by rw [hs]; simp)
  have hkpos : (s.data.takeWhile (fun c => decide (c ≠ '='))).length ≠ 0 := by
    rw [hs, hname]
    simp [List.takeWhile_cons, hc0]
  have hklt : (s.data.takeWhile (fun c => decide (c ≠ '='))).length < s.data.length := by
    have := congrArg List.length hr
    simp only [List.length_append, List.length_cons] at this
    omega
  have hktake : s.data.take (s.data.takeWhile (fun c => decide (c ≠ '='))).length
      = s.data.takeWhile (fun c => decide (c ≠ '=')) := take_length_takeWhile _ _
  have hval : String.mk (s.data.drop (name.length + 1)) = value := by
    show String.mk (s.data.drop (name.data.length + 1)) = value
    rw [hdrop]
  unfold pam_putenv
  simp only [hkpos, hklt, hktake, if_false, if_true]
  rw [pam_getenv_eq]
  cases hsr : _pam_search_env env (s.data.takeWhile (fun c => decide (c ≠ '='))) with
  | none =>
    simp only [List.filter_append, List.filter_cons_of_pos hmatch, List.filter_nil]
    rw [List.getLast?_append]
    simp [hval]
  | some i =>
    obtain ⟨pre, x, post, he, hl, _, hp⟩ := search_decomp env _ i hsr
    simp only
    rw [he, ← hl, set_at]
    have hpost : post.filter (env_item_matches name.data) = [] := by
      rw [List.filter_eq_nil_iff]
      intro y hy hmy
      have h1 := matches_key name.data value.data y hmy
      rw [← hs] at h1
      rw [hp y hy] at h1
      cases h1
    simp only [List.filter_append, List.filter_cons_of_pos hmatch, hpost]
    rw [List.getLast?_append]
    simp [hval]

/-- A string without `=` changes nothing in an empty environment: `pam_putenv`
finds no item to delete. -/
theorem putenv_empty_no_eq (s : String) (h : ∀ c ∈ s.data, c ≠ '=') :
    pam_putenv [] s = [] := by
  have hk : s.data.takeWhile (fun c => decide (c ≠ '=')) = s.data := by
    rw [List.takeWhile_eq_self_iff]
    intro c hc
    simpa using h c hc
  unfold pam_putenv
  simp only [hk, lt_irrefl, if_false, _pam_search_env]
  split <;> rfl

theorem take_append_replicate (a : List Char) (n r k : Nat) (c : Char)
    (ha : a.length + r = k) (hr : r ≤ n) :
    (a ++ List.replicate n c).take k = a ++ List.replicate r c := by
  subst ha
  rw [List.take_append, List.take_replicate, Nat.min_eq_left hr]

theorem snprintf_cut (size : Nat) (a b : List Char) (h : size - 1 ≤ a.length) :
    snprintf size (String.mk (a ++ b)) = String.mk (a.take (size - 1)) := by
  unfold snprintf
  rw [List.take_append_of_le_length h]

/-! ## C22: the name of the handle variable -/

/-- C22, amended.  For a principal name short enough for the string
`_pam_krb5_stash_<principal>_shm5=<key>` to fit the buffer of `PATH_MAX + 5`
chars: (1) whenever `_pam_krb5_stash_shm_write_v5` publishes the handle, the
string it gives to `pam_putenv` is `_pam_krb5_stash_<principal>_shm5`, an `=`
and the text of the key, and `pam_getenv` of
`_pam_krb5_stash_<principal>_shm5` then gives the text of the key; (2)
`_pam_krb5_stash_get`, when it creates a stash for the same principal with
shared-memory import enabled, calls `_pam_krb5_stash_shm_read` with the partial
key `_pam_krb5_stash_<principal>`; (3) and `_pam_krb5_stash_shm_read` takes
the identifier of the segment it looks up first from the variable named by its
partial key followed by `_shm5`. -/
theorem C22_handle_variable_name (m : Machine) (cfg : Config) (lib : Ccache) (we : WriteEnv)
    (st : Sys) (stash : Stash) (name : String)
    (hfit : ("_pam_krb5_stash_" ++ name ++ "_shm5=" ++ sprintf_d we.shm5.1).length
      < cfg.path_max + 5) :
    (∀ s, StashCall.putenv s ∈ (_pam_krb5_stash_shm_write_v5 m cfg lib we st stash name).2 →
      s = "_pam_krb5_stash_" ++ name ++ "_shm5" ++ "=" ++ sprintf_d we.shm5.1
      ∧ pam_getenv (_pam_krb5_stash_shm_write_v5 m cfg lib we st stash name).1.pam_env
          ("_pam_krb5_stash_" ++ name ++ "_shm5") = some (sprintf_d we.shm5.1))
    ∧ (∀ (generic : Int) (ge : GetEnv) (st2 : Sys),
      ge.malloc_key = true →
      pam_get_data st2.pam_data ("_pam_krb5_stash_" ++ name) = none →
      ge.malloc_stash ≠ 0 →
      StashCall.shm_read ("_pam_krb5_stash_" ++ name)
        ∈ (_pam_krb5_stash_get m cfg lib generic ge true st2 name).2)
    ∧ (∀ (e : ReadEnv) (st2 : Sys) (partial_key : String) (stash2 : Stash),
      e.malloc_variable = true →
      shm_key_of m (pam_getenv st2.pam_env (partial_key ++ "_shm5")) ≠ -1 →
      (_pam_krb5_stash_shm_read m cfg lib e st2 partial_key stash2).2.take 2
        = [StashCall.shm_read partial_key,
            StashCall.blob_from_shm
              (shm_key_of m (pam_getenv st2.pam_env (partial_key ++ "_shm5")))]) := by
  have hstr : "_pam_krb5_stash_" ++ name ++ "_shm5=" ++ sprintf_d we.shm5.1
      = "_pam_krb5_stash_" ++ name ++ "_shm5" ++ "=" ++ sprintf_d we.shm5.1 := by
    apply String.ext
    simp [String.data_append]
  refine ⟨?_, ?_, ?_⟩
  · intro s hs
    obtain ⟨h1, h2⟩ := write_v5_publishes m cfg lib we st stash name s hs
    rw [snprintf_fits _ _ hfit, hstr] at h1
    refine ⟨h1, ?_⟩
    rw [h2, h1]
    exact getenv_putenv _ _ _ _ '_' ("pam_krb5_stash_".data ++ name.data ++ "_shm5".data)
      (by simp [String.data_append]) (by simp [String.data_append]) (by decide)
  · intro generic ge st2 h1 hf h3
    exact stash_get_reads m cfg lib generic ge st2 name h1 hf h3
  · intro e st2 pk stash2 hmal hk
    exact shm_read_first_lookup m cfg lib e st2 pk stash2 hmal hk

/-- Witness for C22: the stash of `user@EXAMPLE.ORG` is exported to segment 7;
the string given to `pam_putenv` is `_pam_krb5_stash_user@EXAMPLE.ORG_shm5=7`,
and the variable `_pam_krb5_stash_user@EXAMPLE.ORG_shm5` then holds `7`. -/
theorem C22_handle_variable_name_witness :
    "_pam_krb5_stash_user@EXAMPLE.ORG_shm5=7"
      = "_pam_krb5_stash_" ++ "user@EXAMPLE.ORG" ++ "_shm5" ++ "=" ++ sprintf_d write_ok.shm5.1
    ∧ pam_getenv (_pam_krb5_stash_shm_write_v5 lp64 ⟨false, 4096⟩ ticket_only_ccache write_ok
          ⟨[], [], [], []⟩ (populated_stash 0) "user@EXAMPLE.ORG").1.pam_env
        ("_pam_krb5_stash_" ++ "user@EXAMPLE.ORG" ++ "_shm5") = some (sprintf_d write_ok.shm5.1) :=
  (C22_handle_variable_name lp64 ⟨false, 4096⟩ ticket_only_ccache write_ok
    ⟨[], [], [], []⟩ (populated_stash 0) "user@EXAMPLE.ORG" (by decide)).1
    "_pam_krb5_stash_user@EXAMPLE.ORG_shm5=7" (by decide)

/-- Counterexample to C22 as stated: for a principal name of 4096 chars and
`PATH_MAX = 4096`, `snprintf` leaves in `tktfile` only `_pam_krb5_stash_` and
the first 4084 chars of the name.  The string has no `=`, so `pam_putenv` sets
no variable, and the variable that the import looks up is not set. -/
theorem C22_counterexample :
    (_pam_krb5_stash_shm_write_v5 lp64 ⟨false, 4096⟩ ticket_only_ccache write_ok
        ⟨[], [], [], []⟩ (populated_stash 0) long_name).2
      = [StashCall.shm_new 7, StashCall.unlink (some "/tmp/pam_krb5_tmp_abcdef"),
          StashCall.putenv (String.mk ("_pam_krb5_stash_".data ++ List.replicate 4084 'a'))]
    ∧ (_pam_krb5_stash_shm_write_v5 lp64 ⟨false, 4096⟩ ticket_only_ccache write_ok
        ⟨[], [], [], []⟩ (populated_stash 0) long_name).1.pam_env = []
    ∧ pam_getenv (_pam_krb5_stash_shm_write_v5 lp64 ⟨false, 4096⟩ ticket_only_ccache write_ok
          ⟨[], [], [], []⟩ (populated_stash 0) long_name).1.pam_env
        ("_pam_krb5_stash_" ++ long_name ++ "_shm5") = none := by
  have hstr : "_pam_krb5_stash_" ++ long_name ++ "_shm5=" ++ sprintf_d write_ok.shm5.1
      = String.mk (("_pam_krb5_stash_".data ++ List.replicate 4096 'a')
          ++ ("_shm5=".data ++ (sprintf_d write_ok.shm5.1).data)) := by
    apply String.ext
    simp only [String.data_append, long_name, List.append_assoc]
  have hlen : ("_pam_krb5_stash_".data ++ List.replicate 4096 'a').length = 4112 := by
    rw [List.length_append, List.length_replicate]
    rfl
  have h16 : "_pam_krb5_stash_".data.length = 16 := rfl
  have hcut : snprintf (4096 + 5)
      ("_pam_krb5_stash_" ++ long_name ++ "_shm5=" ++ sprintf_d write_ok.shm5.1)
      = String.mk ("_pam_krb5_stash_".data ++ List.replicate 4084 'a') := by
    rw [hstr, snprintf_cut _ _ _ (by rw [hlen]; norm_num),
      take_append_replicate "_pam_krb5_stash_".data 4096 4084 (4096 + 5 - 1) 'a'
        (by rw [h16]) (by norm_num)]
  have hno : ∀ c ∈ (String.mk ("_pam_krb5_stash_".data ++ List.replicate 4084 'a')).data,
      c ≠ '=' := by
    intro c hc
    rcases List.mem_append.1 hc with h | h
    · intro he
      subst he
      revert h
      decide
    · rw [List.eq_of_mem_replicate h]
      decide
  have c0 : ¬ ((populated_stash 0).v5attempted = 0 ∨ (populated_stash 0).v5result ≠ 0) := by
    decide
  have c1 : ¬ write_ok.mkstemp.1 = -1 := by decide
  have c2 : ¬ write_ok.init_ctx ≠ 0 := by decide
  have c3 : ¬ write_ok.cc_resolve ≠ 0 := by decide
  have c4 : ¬ write_ok.cc_initialize ≠ 0 := by decide
  have c5 : ¬ write_ok.cc_store_cred ≠ 0 := by decide
  have hrun2 : (_pam_krb5_stash_shm_write_v5 lp64 ⟨false, 4096⟩ ticket_only_ccache write_ok
        ⟨[], [], [], []⟩ (populated_stash 0) long_name).2
      = [StashCall.shm_new 7, StashCall.unlink (some "/tmp/pam_krb5_tmp_abcdef"),
          StashCall.putenv (String.mk ("_pam_krb5_stash_".data ++ List.replicate 4084 'a'))] := by
    simp only [_pam_krb5_stash_shm_write_v5, c0, c1, c2, c3, c4, c5, if_false, hcut]
    rfl
  have hrun1 : (_pam_krb5_stash_shm_write_v5 lp64 ⟨false, 4096⟩ ticket_only_ccache write_ok
        ⟨[], [], [], []⟩ (populated_stash 0) long_name).1.pam_env = [] := by
    simp only [_pam_krb5_stash_shm_write_v5, c0, c1, c2, c3, c4, c5, if_false, hcut,
      putenv_empty_no_eq _ hno]
  refine ⟨hrun2, hrun1, ?_⟩
  rw [hrun1]
  rfl

end Minikafs
